import Mathlib

/-!
Verification development for the "free-the-man" match-3 engine.

Shallow embedding of the JavaScript source:
  * `Tile`        — entity class (src/unnamed/part_000, class Tile)
  * `GridManager` — grid state and tile operations (src/js/managers/GravitySystem.js,
                    class GridManager)
  * `MatchResolver`, `GravitySystem`, `CharacterController`, `LevelManager`,
    `Game` — the remaining classes, embedded below.

Modelling conventions:
  * Grid coordinates are `Int` (JS numbers used as integers); out-of-bounds
    access returns `none`, matching `getTile` returning `null`.
  * The cell array `grid[y][x]` (entries `Tile` or `null`) is embedded as a
    list of rows `List (List (Option Tile))`; `none` models `null`, and any
    out-of-range index reads as `none` (JS `undefined`).
  * `Math.random()` draws are embedded as a stream `rnd : Nat → Nat` consumed
    in call order; `array[Math.floor(Math.random()*array.length)]` becomes
    `array.get (rnd k % array.length)`, which reaches exactly the same set of
    outcomes.
  * Presentation-only state is omitted: `Tile.element`, `Tile.x`/`Tile.y`
    (written by `swap`/`setTile` but only ever read for DOM rendering),
    `Tile.isMatched` and `Tile.isFalling` (never set to `true` anywhere in the
    source), DOM rendering, and animation timing.
-/

/-- CONFIG.MATCHABLE_COLORS — the five matchable colors. -/
inductive Color where
  | red | blue | green | yellow | purple
deriving DecidableEq, Repr

/-- CONFIG.TILE_TYPES — a tile's `type` field. Color types are grouped under
the `color` constructor; the others are the non-matchable kinds. -/
inductive TileType where
  | empty
  | color (c : Color)
  | stone
  | ice
  | locked
  | exitMarker
  | character
deriving DecidableEq, Repr

/-- CONFIG.SPECIAL_TILES. -/
inductive SpecialType where
  | lineH
  | lineV
  | bomb
deriving DecidableEq, Repr

/-- CONFIG.MATCH.MIN_MATCH. -/
def MIN_MATCH : Int := 3

/-- CONFIG.MATCH.LINE_CLEAR_COUNT. -/
def LINE_CLEAR_COUNT : Int := 4

/-- CONFIG.MATCH.BOMB_COUNT. -/
def BOMB_COUNT : Int := 5

/-- Tile entity (class Tile). Fields `x`, `y`, `element`, `isMatched`,
`isFalling` are presentation-only (see header) and omitted. -/
structure Tile where
  type : TileType
  isSpecial : Bool := false
  specialType : Option SpecialType := none
  iceLayer : Nat := 0
  isLocked : Bool := false
deriving DecidableEq, Repr

/-- `new Tile(type, x, y)` — constructor with default flag values. -/
def Tile.new (t : TileType) : Tile := { type := t }

/-- `Tile.isMatchable`: `CONFIG.MATCHABLE_COLORS.includes(this.type) && !this.isLocked`. -/
def Tile.isMatchable (t : Tile) : Bool :=
  (match t.type with
   | .color _ => true
   | _ => false) && !t.isLocked

/-- `Tile.isEmpty`. -/
def Tile.isEmptyTile (t : Tile) : Bool := t.type = .empty

/-- `Tile.isBlocker`: stone only. -/
def Tile.isBlocker (t : Tile) : Bool := t.type = .stone

/-- `Tile.isCharacter`. -/
def Tile.isCharacterTile (t : Tile) : Bool := t.type = .character

/-- `Tile.isExit`. -/
def Tile.isExitTile (t : Tile) : Bool := t.type = .exitMarker

/-- `Tile.canSwap`: `isMatchable() && !isFalling && !isLocked` (`isFalling` is
never `true` in the source, so that conjunct is vacuous). -/
def Tile.canSwap (t : Tile) : Bool := t.isMatchable && !t.isLocked

/-- `Tile.setSpecial(specialType)`. -/
def Tile.setSpecial (t : Tile) (s : SpecialType) : Tile :=
  { t with isSpecial := true, specialType := some s }

/-- `Tile.addIce(layers)`. -/
def Tile.addIce (t : Tile) (layers : Nat) : Tile := { t with iceLayer := layers }

/-- `Tile.removeIceLayer()` — decrement one layer if present (the boolean
return value is ignored by every caller). -/
def Tile.removeIceLayer (t : Tile) : Tile :=
  if t.iceLayer > 0 then { t with iceLayer := t.iceLayer - 1 } else t

/-- `Tile.lock()`. -/
def Tile.lock (t : Tile) : Tile := { t with isLocked := true }

/-- `Tile.unlock()`. -/
def Tile.unlock (t : Tile) : Tile := { t with isLocked := false }

/-- A grid coordinate pair `{x, y}`. -/
structure Pos where
  x : Int
  y : Int
deriving DecidableEq, Repr

/-- Grid state (class GridManager): dimensions, the cell array, the level's
palette, and the two tracked landmark positions. `characterPosition` is
`Option` because it is undefined before `initialize`
(`isPositionFixed` guards with `charPos && …`). DOM fields
(`boardElement`, `selectedTile`, `onSwapCallback`) are omitted. -/
structure GridManager where
  width : Nat
  height : Nat
  cells : List (List (Option Tile))
  tileTypes : List Color := []
  exitPosition : Pos := ⟨0, 0⟩
  characterPosition : Option Pos := none
deriving DecidableEq, Repr

namespace GridManager

/-- `isValidPosition(x, y)`. -/
def isValidPosition (g : GridManager) (x y : Int) : Bool :=
  0 ≤ x && x < (g.width : Int) && 0 ≤ y && y < (g.height : Int)


/-- Raw read of one cell of the array (`this.grid[y][x]`): `none` for a
stored `null` and for any out-of-range index. -/
def cellAt (g : GridManager) (x y : Int) : Option Tile :=
  if 0 ≤ x ∧ 0 ≤ y then (g.cells[y.toNat]?.bind (fun row => row[x.toNat]?)).join
  else none

/-- `getTile(x, y)` — `null` out of bounds. -/
def getTile (g : GridManager) (x y : Int) : Option Tile :=
  if g.isValidPosition x y then g.cellAt x y else none

/-- Raw update of one cell of the array (`this.grid[y][x] = …`); writing at
an index outside the stored arrays leaves the grid unchanged. -/
def setCell (g : GridManager) (x y : Int) (t : Option Tile) : GridManager :=
  if 0 ≤ x ∧ 0 ≤ y then
    { g with cells :=
        g.cells.set y.toNat ((g.cells[y.toNat]?.getD []).set x.toNat t) }
  else g

/-- `setTile(x, y, tile)` — bounds-checked write (the `tile.x`/`tile.y`
bookkeeping it performs is presentation-only and omitted). -/
def setTile (g : GridManager) (x y : Int) (t : Tile) : GridManager :=
  if g.isValidPosition x y then g.setCell x y (some t) else g

/-- `setEmpty(x, y)` — overwrite with a fresh empty tile. -/
def setEmpty (g : GridManager) (x y : Int) : GridManager :=
  g.setTile x y (Tile.new .empty)

/-- `isEmpty(x, y)` on the grid. -/
def isEmptyAt (g : GridManager) (x y : Int) : Bool :=
  match g.getTile x y with
  | some t => t.isEmptyTile
  | none => false

/-- `swap(x1, y1, x2, y2)` — unconditional exchange of the two cells (raw
array writes, no bounds validation in the source). -/
def swap (g : GridManager) (x1 y1 x2 y2 : Int) : GridManager :=
  let t1 := g.cellAt x1 y1
  let t2 := g.cellAt x2 y2
  (g.setCell x1 y1 t2).setCell x2 y2 t1

/-- `areAdjacent(x1, y1, x2, y2)`. -/
def areAdjacent (x1 y1 x2 y2 : Int) : Bool :=
  let dx := (x1 - x2).natAbs
  let dy := (y1 - y2).natAbs
  (dx = 1 && dy = 0) || (dx = 0 && dy = 1)

/-- CONFIG.DIRECTIONS (UP, DOWN, LEFT, RIGHT) in object order. -/
def DIRECTIONS : List (Int × Int) := [(0, -1), (0, 1), (-1, 0), (1, 0)]

/-- `updateCharacterPosition(oldX, oldY, newX, newY)` — vacate the old cell
(unless it is the exit) and retarget the tracked character position. -/
def updateCharacterPosition (g : GridManager) (oldX oldY newX newY : Int) : GridManager :=
  let g' := if ¬(oldX = g.exitPosition.x ∧ oldY = g.exitPosition.y)
            then g.setEmpty oldX oldY else g
  { g' with characterPosition := some ⟨newX, newY⟩ }

end GridManager

/-- One blocker entry of a level configuration (§6 of the level format):
type, coordinates, optional ice layers, optional locked flag. -/
structure BlockerSpec where
  btype : TileType
  x : Int
  y : Int
  iceLayer : Nat := 0
  locked : Bool := false
deriving DecidableEq, Repr

/-- A level configuration record (the fields `GridManager` setup and the
game controller consume). -/
structure LevelConfig where
  gridWidth : Nat
  gridHeight : Nat
  maxMoves : Nat
  characterStart : Pos
  exitPosition : Pos
  blockers : List BlockerSpec
  tileTypes : List Color
deriving DecidableEq, Repr

namespace GridManager

/-- The `availableTypes` computation of `createNonMatchingTile(x, y, tileTypes)`
followed by its fallback: the palette minus any color that would complete a
3-in-a-row with the two cells to the left or the two cells above (raw
`this.grid[…][…]` reads); when the exclusions empty the list, the full
palette is used instead. `indexOf` + `splice(index, 1)` removes the first
occurrence only, embedded as `List.erase`. -/
def spawnCandidates (g : GridManager) (x y : Int) (tileTypes : List Color) :
    List Color :=
  let availableTypes := tileTypes
  let availableTypes :=
    if x ≥ 2 then
      match g.cellAt (x-1) y, g.cellAt (x-2) y with
      | some left1, some left2 =>
        if left1.type = left2.type ∧ left1.isMatchable then
          match left1.type with
          | .color c => availableTypes.erase c
          | _ => availableTypes   -- unreachable: isMatchable forces a color type
        else availableTypes
      | _, _ => availableTypes
    else availableTypes
  let availableTypes :=
    if y ≥ 2 then
      match g.cellAt x (y-1), g.cellAt x (y-2) with
      | some top1, some top2 =>
        if top1.type = top2.type ∧ top1.isMatchable then
          match top1.type with
          | .color c => availableTypes.erase c
          | _ => availableTypes
        else availableTypes
      | _, _ => availableTypes
    else availableTypes
  if availableTypes.length > 0 then availableTypes else tileTypes

/-- `createNonMatchingTile(x, y, tileTypes)` — draw a random color from the
candidate list. `r` is the `Math.random()` draw for this call. -/
def createNonMatchingTile (g : GridManager) (x y : Int) (tileTypes : List Color)
    (r : Nat) : Tile :=
  let types := spawnCandidates g x y tileTypes
  Tile.new (.color ((types.get? (r % types.length)).getD .red))
  -- the `getD .red` default is only reached on an empty palette, where the
  -- source would produce an undefined tile type

/-- Build one blocker tile: `new Tile(type, x, y)`, then `addIce` when the
config's `iceLayer` is truthy, then `lock()` when `locked` is truthy. -/
def blockerTile (b : BlockerSpec) : Tile :=
  let t := Tile.new b.btype
  let t := if b.iceLayer ≠ 0 then t.addIce b.iceLayer else t
  if b.locked then t.lock else t

/-- Place every blocker at its coordinates (raw cell writes). -/
def placeBlockers (g : GridManager) : List BlockerSpec → GridManager
  | [] => g
  | b :: bs => placeBlockers (g.setCell b.x b.y (some (blockerTile b))) bs

/-- The row-major traversal order of the fill loop in `initialize`
(`y` outer, `x` inner). -/
def rowMajorPositions (w h : Nat) : List Pos :=
  (List.range h).flatMap (fun y => (List.range w).map
    (fun (x : Nat) => ⟨(x : Int), (y : Int)⟩))

/-- One step of the fill loop: fill a still-`null` cell with
`createNonMatchingTile`, consuming the next random draw. -/
def fillStep (tileTypes : List Color) (rnd : Nat → Nat) (st : GridManager × Nat)
    (p : Pos) : GridManager × Nat :=
  match st.1.cellAt p.x p.y with
  | none =>
      let t := createNonMatchingTile st.1 p.x p.y tileTypes (rnd st.2)
      (st.1.setCell p.x p.y (some t), st.2 + 1)
  | some _ => st

/-- `new GridManager(width, height)` followed by `initialize(levelConfig)`:
start from an all-`null` grid, place blockers, place the exit tile, force the
character's cell empty, then fill the remaining `null` cells row-major with
`createNonMatchingTile`. -/
def initGrid (width height : Nat) (cfg : LevelConfig) (rnd : Nat → Nat) : GridManager :=
  let g : GridManager :=
    { width := width, height := height,
      cells := List.replicate height (List.replicate width none),
      tileTypes := cfg.tileTypes, exitPosition := cfg.exitPosition,
      characterPosition := some cfg.characterStart }
  let g := placeBlockers g cfg.blockers
  let g := g.setCell cfg.exitPosition.x cfg.exitPosition.y (some (Tile.new .exitMarker))
  let g := g.setCell cfg.characterStart.x cfg.characterStart.y (some (Tile.new .empty))
  ((rowMajorPositions width height).foldl (fillStep cfg.tileTypes rnd) (g, 0)).1

end GridManager

/-- Match orientation (the source's `'horizontal' | 'vertical'` strings). -/
inductive MatchOrientation where
  | horizontal
  | vertical
deriving DecidableEq, Repr

/-- One match record `{ tiles, type, length, color }` from `findAllMatches`. -/
structure MatchRec where
  tiles : List Pos
  type : MatchOrientation
  length : Int
  color : TileType
deriving DecidableEq, Repr

/-- A derived special-tile record `{ type, position, color }`. -/
structure SpecialRec where
  stype : SpecialType
  position : Pos
  color : TileType
deriving DecidableEq, Repr

namespace MatchResolver

/-- The run-scan's view of a cell: `tile?.isMatchable() ? tile.type : null`. -/
def effectiveType (g : GridManager) (x y : Int) : Option TileType :=
  match g.getTile x y with
  | some t => if t.isMatchable then some t.type else none
  | none => none

/-- Accumulator of one linear scan in `findAllMatches`:
`matchStart`, `currentType`, and the matches recorded so far. -/
structure ScanState where
  matchStart : Int
  currentType : Option TileType
  found : List MatchRec
deriving Repr

/-- The member cells `[line matchStart, …, line (stop-1)]` of a recorded run. -/
def runTiles (line : Int → Pos) (start stop : Int) : List Pos :=
  (List.range (stop - start).toNat).map (fun (i : Nat) => line (start + (i : Int)))

/-- One iteration of the scan loop body of `findAllMatches`. The source writes
the loop out twice (rows, then columns); here the scanned line is a parameter
`line` mapping the loop index to a grid position, with `line i = (i, y)` for
the row scan and `line i = (x, i)` for the column scan. -/
def scanStep (g : GridManager) (line : Int → Pos) (orient : MatchOrientation)
    (s : ScanState) (i : Int) : ScanState :=
  let p := line i
  let tileType := effectiveType g p.x p.y
  if tileType = s.currentType ∧ s.currentType ≠ none then s
  else
    let matchLength := i - s.matchStart
    let found :=
      if matchLength ≥ MIN_MATCH ∧ s.currentType ≠ none then
        s.found ++ [{ tiles := runTiles line s.matchStart i,
                      type := orient, length := matchLength,
                      color := s.currentType.getD .empty }]
        -- `getD .empty` is never reached: `currentType ≠ none` in this branch
      else s.found
    { matchStart := i, currentType := tileType, found := found }

/-- One full line scan: loop index runs from `0` to `count` INCLUSIVE (the
out-of-bounds final index flushes the last run, since `getTile` is `null`
there). -/
def scanLine (g : GridManager) (line : Int → Pos) (orient : MatchOrientation)
    (count : Nat) : List MatchRec :=
  (((List.range (count + 1)).map (Int.ofNat)).foldl (scanStep g line orient)
    ⟨0, none, []⟩).found

/-- `findAllMatches()`: all row scans (y = 0 … height-1), then all column
scans (x = 0 … width-1). The `visited` set the source populates during the
row scans is never read and is omitted. -/
def findAllMatches (g : GridManager) : List MatchRec :=
  let horiz := (List.range g.height).flatMap (fun y =>
    scanLine g (fun i => ⟨i, (y : Int)⟩) .horizontal g.width)
  let vert := (List.range g.width).flatMap (fun x =>
    scanLine g (fun i => ⟨(x : Int), i⟩) .vertical g.height)
  horiz ++ vert

/-- `getSpecialTileForMatch(match)`: length ≥ 5 → bomb at
`tiles[⌊tiles.length/2⌋]`; else length ≥ 4 → line special with inverted
orientation at the same index; else nothing. -/
def getSpecialTileForMatch (m : MatchRec) : Option SpecialRec :=
  if m.length ≥ BOMB_COUNT then
    let centerIndex := m.tiles.length / 2
    some { stype := .bomb, position := (m.tiles.get? centerIndex).getD ⟨0, 0⟩,
           color := m.color }
  else if m.length ≥ LINE_CLEAR_COUNT then
    let centerIndex := m.tiles.length / 2
    let specialType := if m.type = .horizontal then SpecialType.lineV else SpecialType.lineH
    some { stype := specialType, position := (m.tiles.get? centerIndex).getD ⟨0, 0⟩,
           color := m.color }
  else none
  -- `getD ⟨0,0⟩` models the JS out-of-bounds index read (undefined); for
  -- matches produced by `findAllMatches`, `tiles.length = length ≥ 4`, so the
  -- real entry is always taken

/-- The per-cell filter of `getSpecialTileAffectedPositions`:
`tile && !tile.isBlocker() && !tile.isCharacter() && !tile.isExit()`. -/
def affectedFilter (g : GridManager) (px py : Int) : Bool :=
  match g.getTile px py with
  | some t => ¬t.isBlocker ∧ ¬t.isCharacterTile ∧ ¬t.isExitTile
  | none => false

/-- `getSpecialTileAffectedPositions(x, y, specialType)`: full row, full
column, or the 3×3 block (py outer, px inner, offsets −1…+1), each filtered
through `affectedFilter`. -/
def getSpecialTileAffectedPositions (g : GridManager) (x y : Int)
    (st : SpecialType) : List Pos :=
  match st with
  | .lineH => ((List.range g.width).map (Int.ofNat)).filterMap (fun px =>
      if affectedFilter g px y then some ⟨px, y⟩ else none)
  | .lineV => ((List.range g.height).map (Int.ofNat)).filterMap (fun py =>
      if affectedFilter g x py then some ⟨x, py⟩ else none)
  | .bomb => (List.range 3).flatMap (fun dy => (List.range 3).filterMap (fun dx =>
      let px := x - 1 + (dx : Int)
      let py := y - 1 + (dy : Int)
      if affectedFilter g px py then some ⟨px, py⟩ else none))

/-- `unlockAdjacentTiles(x, y)`: the up-to-4 orthogonal neighbors that exist
(`getAdjacentTiles`, in CONFIG.DIRECTIONS order) have their lock cleared. The
source mutates the neighbor `Tile` objects in place; here the corresponding
cells are rewritten. -/
def unlockAdjacentTiles (g : GridManager) (x y : Int) : GridManager :=
  GridManager.DIRECTIONS.foldl (fun g d =>
    let nx := x + d.1
    let ny := y + d.2
    match g.getTile nx ny with
    | some t => if t.isLocked then g.setCell nx ny (some t.unlock) else g
    | none => g) g

/-- Accumulator of `processMatches`: cleared positions, derived specials, the
`processed` dedup set (insertion-ordered list), and the grid (whose tiles are
mutated in place by ice decrements and unlocks). -/
structure ProcessState where
  clearedPositions : List Pos
  specialTiles : List SpecialRec
  processed : List Pos
  grid : GridManager
deriving DecidableEq, Repr

/-- The per-cell body of `processMatches`: dedup via `processed`; an iced tile
loses one layer and is skipped while ice remains; otherwise adjacent locked
tiles are unlocked and the cell is recorded as cleared. -/
def processTilePos (st : ProcessState) (p : Pos) : ProcessState :=
  if p ∈ st.processed then st
  else
    let st := { st with processed := st.processed ++ [p] }
    match st.grid.getTile p.x p.y with
    | none => st
    | some tile =>
      if tile.iceLayer > 0 then
        let tile' := tile.removeIceLayer
        let g' := st.grid.setCell p.x p.y (some tile')
        if tile'.iceLayer > 0 then { st with grid := g' }
        else { st with grid := unlockAdjacentTiles g' p.x p.y,
                       clearedPositions := st.clearedPositions ++ [p] }
      else
        { st with grid := unlockAdjacentTiles st.grid p.x p.y,
                  clearedPositions := st.clearedPositions ++ [p] }

/-- Per-match body of `processMatches`: record the derived special (before
dedup), then process each member cell. -/
def processMatch (st : ProcessState) (m : MatchRec) : ProcessState :=
  let st :=
    match getSpecialTileForMatch m with
    | some s => { st with specialTiles := st.specialTiles ++ [s] }
    | none => st
  m.tiles.foldl processTilePos st

/-- `processMatches(matches)`. -/
def processMatches (g : GridManager) (ms : List MatchRec) : ProcessState :=
  ms.foldl processMatch
    { clearedPositions := [], specialTiles := [], processed := [], grid := g }

/-- Directional run counter of `checkForMatchAt`: consecutive same-type
matchable neighbors starting at `(x, y)` stepping by `(dx, dy)`; stops at the
first failing cell or out of bounds. `fuel` bounds the walk (the source's
loop bound is subsumed by `getTile` returning `null` out of bounds). -/
def countRun (g : GridManager) (tt : TileType) :
    Int → Int → Int → Int → Nat → Nat
  | _, _, _, _, 0 => 0
  | x, y, dx, dy, fuel+1 =>
    match g.getTile x y with
    | some t =>
        if t.type = tt ∧ t.isMatchable then
          1 + countRun g tt (x + dx) (y + dy) dx dy fuel
        else 0
    | none => 0

/-- `MatchResolver.checkForMatchAt(x, y)`: localized run-length ≥ 3 test at a
cell, horizontal axis first. -/
def checkForMatchAt (g : GridManager) (x y : Int) : Bool :=
  match g.getTile x y with
  | none => false
  | some tile =>
    if ¬tile.isMatchable then false
    else
      let fuel := g.width + g.height
      let hCount := 1 + countRun g tile.type (x-1) y (-1) 0 fuel
                      + countRun g tile.type (x+1) y 1 0 fuel
      if hCount ≥ 3 then true
      else
        let vCount := 1 + countRun g tile.type x (y-1) 0 (-1) fuel
                        + countRun g tile.type x (y+1) 0 1 fuel
        vCount ≥ 3

/-- `checkSwapForMatches(x1, y1, x2, y2)`. -/
def checkSwapForMatches (g : GridManager) (x1 y1 x2 y2 : Int) : Bool :=
  checkForMatchAt g x1 y1 || checkForMatchAt g x2 y2

end MatchResolver

/-- One gravity movement record `{ fromX, fromY, toX, toY }`. -/
structure Movement where
  fromX : Int
  fromY : Int
  toX : Int
  toY : Int
deriving DecidableEq, Repr

/-- One spawn record `{ x, y, tile }` from `spawnNewTiles`. -/
structure SpawnRec where
  x : Int
  y : Int
  tile : Tile
deriving DecidableEq, Repr

namespace GravitySystem

/-- `isPositionFixed(x, y)`: the character's tracked cell, the exit tile's
cell, and stone-blocker cells never move and are never overwritten. -/
def isPositionFixed (g : GridManager) (x y : Int) : Bool :=
  (match g.characterPosition with
   | some charPos => x = charPos.x && y = charPos.y
   | none => false) ||
  (match g.getTile x y with
   | some tile => tile.isExitTile || tile.isBlocker
   | none => false)

/-- The empty, non-fixed positions of column `x`, collected scanning `y` from
`height-1` down to `0` (so in decreasing `y` order). -/
def emptyPositionsInColumn (g : GridManager) (x : Int) : List Int :=
  (((List.range g.height).reverse).map (Int.ofNat)).filter (fun y =>
    !isPositionFixed g x y &&
    (match g.getTile x y with
     | some t => t.isEmptyTile
     | none => false))

/-- The upward search order from an empty cell: `emptyY-1, emptyY-2, …, 0`. -/
def searchUpList (emptyY : Int) : List Int :=
  ((List.range emptyY.toNat).reverse).map (Int.ofNat)

/-- The upward search of `applyGravity`: skip fixed positions; the first
non-empty, non-blocker, matchable tile is the one that falls. -/
def findFallSource (g : GridManager) (x : Int) : List Int → Option (Int × Tile)
  | [] => none
  | y :: ys =>
    if isPositionFixed g x y then findFallSource g x ys
    else
      match g.getTile x y with
      | some tile =>
          if !tile.isEmptyTile && !tile.isBlocker && tile.isMatchable then some (y, tile)
          else findFallSource g x ys
      | none => findFallSource g x ys

/-- Fill one empty cell: move the found tile down (`setTile` destination,
`setEmpty` source) and record the movement. -/
def fillEmpty (x : Int) (st : GridManager × List Movement) (emptyY : Int) :
    GridManager × List Movement :=
  match findFallSource st.1 x (searchUpList emptyY) with
  | some (searchY, tile) =>
      ((st.1.setTile x emptyY tile).setEmpty x searchY,
       st.2 ++ [⟨x, searchY, x, emptyY⟩])
  | none => st

/-- One column of `applyGravity`: the empty positions are computed before the
column's moves, then each is filled in turn on the evolving grid. -/
def processColumn (st : GridManager × List Movement) (x : Int) :
    GridManager × List Movement :=
  (emptyPositionsInColumn st.1 x).foldl (fillEmpty x) st

/-- `applyGravity()` — one pass over the columns, left to right. -/
def applyGravity (g : GridManager) : GridManager × List Movement :=
  ((List.range g.width).map (Int.ofNat)).foldl processColumn (g, [])

/-- Measure justifying termination of `applyGravityFully`: each movable
matchable tile contributes its distance to the bottom row; every recorded
movement strictly decreases the total. -/
def fallWeight (g : GridManager) (x y : Int) : Nat :=
  if isPositionFixed g x y then 0
  else
    match g.getTile x y with
    | some t =>
        if !t.isEmptyTile && !t.isBlocker && t.isMatchable
        then ((g.height : Int) - 1 - y).toNat else 0
    | none => 0

/-- Total fall measure of the grid. -/
def gravityMeasure (g : GridManager) : Nat :=
  ∑ p in Finset.range g.width ×ˢ Finset.range g.height,
    fallWeight g (p.1 : Int) (p.2 : Int)

/-- Pass budget for `applyGravityFully`: strictly exceeds `gravityMeasure`
(proved below), so the budget is never the exit condition. -/
def gravityFuel (g : GridManager) : Nat := g.width * g.height * g.height + 1

/-- The `do … while (movements.length > 0)` loop of `applyGravityFully`,
with an explicit pass budget. A budget of `gravityFuel g` always suffices
(proved below), so the `0` case is never the exit in `applyGravityFully`. -/
def applyGravityFullyGo : Nat → GridManager → List (List Movement) × GridManager
  | 0, g => ([], g)
  | n+1, g =>
    let (g', mv) := applyGravity g
    if mv.isEmpty then ([], g')
    else
      let (rest, g'') := applyGravityFullyGo n g'
      (mv :: rest, g'')

/-- `applyGravityFully()` — repeat single passes until one yields no
movements; returns the per-pass movement lists. -/
def applyGravityFully (g : GridManager) : List (List Movement) × GridManager :=
  applyGravityFullyGo (gravityFuel g) g

/-- Accumulator of `spawnNewTiles`: the grid, the spawn records, and the
position of the random stream. -/
structure SpawnState where
  grid : GridManager
  newTiles : List SpawnRec
  k : Nat
deriving DecidableEq, Repr

/-- The spawn scan order: `x` outer, `y` inner (unlike the row-major fill of
grid setup). -/
def spawnOrder (w h : Nat) : List Pos :=
  (List.range w).flatMap (fun x => (List.range h).map (fun y => ⟨(x : Int), (y : Int)⟩))

/-- One cell of `spawnNewTiles`: a non-fixed empty cell is filled via
`createNonMatchingTile`, consuming one random draw. -/
def spawnStep (tileTypes : List Color) (rnd : Nat → Nat) (st : SpawnState)
    (p : Pos) : SpawnState :=
  if isPositionFixed st.grid p.x p.y then st
  else
    match st.grid.getTile p.x p.y with
    | some tile =>
        if tile.isEmptyTile then
          let newTile := st.grid.createNonMatchingTile p.x p.y tileTypes (rnd st.k)
          { grid := st.grid.setTile p.x p.y newTile,
            newTiles := st.newTiles ++ [⟨p.x, p.y, newTile⟩],
            k := st.k + 1 }
        else st
    | none => st

/-- `spawnNewTiles()` — fill every remaining non-fixed empty cell. The
`this.gridManager.tileTypes || CONFIG.MATCHABLE_COLORS` fallback only applies
when `tileTypes` was never set (pre-setup), so the field is used directly. -/
def spawnNewTiles (g : GridManager) (rnd : Nat → Nat) (k : Nat) : SpawnState :=
  (spawnOrder g.width g.height).foldl (spawnStep g.tileTypes rnd)
    { grid := g, newTiles := [], k := k }

/-- Result data of `processGravity`: flattened movements and spawn records. -/
structure GravityResult where
  movements : List Movement
  newTiles : List SpawnRec
deriving DecidableEq, Repr

/-- `processGravity()`: full compaction, spawn, and (when anything spawned)
full compaction again. -/
def processGravity (g : GridManager) (rnd : Nat → Nat) (k : Nat) :
    GridManager × GravityResult × Nat :=
  let (allMovements, g1) := applyGravityFully g
  let movements := allMovements.flatten
  let sp := spawnNewTiles g1 rnd k
  if sp.newTiles.length > 0 then
    let (additional, g3) := applyGravityFully sp.grid
    (g3, ⟨movements ++ additional.flatten, sp.newTiles⟩, sp.k)
  else
    (sp.grid, ⟨movements, sp.newTiles⟩, sp.k)

end GravitySystem

/-- Character entity (class Character). `element`, `isMoving` (never set
`true`) and the `hasEscaped` flag (written by `escape()` but never read) are
omitted. -/
structure Character where
  x : Int
  y : Int
  startX : Int
  startY : Int
deriving DecidableEq, Repr

/-- One character movement record `{ fromY, toY, x }`. -/
structure MoveRec where
  fromY : Int
  toY : Int
  x : Int
deriving DecidableEq, Repr

/-- Character controller state: the character (undefined before setup) and
the exit row. -/
structure CharacterController where
  character : Option Character
  exitY : Int
deriving DecidableEq, Repr

namespace CharacterController

/-- `CharacterController.initialize(x, y, exitY)`: create the character and
mark its cell in the grid. -/
def setupCharacter (x y exitY : Int) (g : GridManager) :
    CharacterController × GridManager :=
  (⟨some ⟨x, y, x, y⟩, exitY⟩, g.updateCharacterPosition x y x y)

/-- `hasEscaped()`: the character's row has reached the exit row. -/
def hasEscaped (cc : CharacterController) : Bool :=
  match cc.character with
  | some ch => ch.y ≤ cc.exitY
  | none => false

/-- `tryMoveUp()`: move one row up when the tile above is empty or the exit;
updates both the character and the grid's bookkeeping. -/
def tryMoveUp (cc : CharacterController) (g : GridManager) :
    Option (MoveRec × CharacterController × GridManager) :=
  match cc.character with
  | none => none
  | some ch =>
    if ch.y ≤ 0 then none
    else
      let canMove :=
        match g.getTile ch.x (ch.y - 1) with
        | some t => t.isEmptyTile || t.isExitTile
        | none => false
      if canMove then
        let fromY := ch.y
        let toY := ch.y - 1
        some (⟨fromY, toY, ch.x⟩,
              { cc with character := some { ch with y := toY } },
              g.updateCharacterPosition ch.x fromY ch.x toY)
      else none

/-- The `while (movement)` loop of `moveToHighestEmpty`, with a step budget.
Every successful step decreases the character's row by one, so a budget of
`row + 1` is exact. -/
def moveLoop : Nat → CharacterController → GridManager → List MoveRec →
    CharacterController × GridManager × List MoveRec
  | 0, cc, g, acc => (cc, g, acc)
  | fuel+1, cc, g, acc =>
    match tryMoveUp cc g with
    | none => (cc, g, acc)
    | some (mv, cc', g') =>
      if hasEscaped cc' then (cc', g', acc ++ [mv])
      else moveLoop fuel cc' g' (acc ++ [mv])

/-- `moveToHighestEmpty()`: repeat `tryMoveUp` until it fails or the exit row
is reached; returns the ordered single-step movements. -/
def moveToHighestEmpty (cc : CharacterController) (g : GridManager) :
    CharacterController × GridManager × List MoveRec :=
  let fuel := (match cc.character with | some ch => ch.y.toNat | none => 0) + 1
  moveLoop fuel cc g []

end CharacterController

/-- CONFIG.STATE. -/
inductive GState where
  | idle | swapping | matching | falling | characterMoving | win | lose
deriving DecidableEq, Repr

/-- Level/game bookkeeping (class LevelManager): the move budget and the game
state. Level-list navigation and callbacks are modelled by the event trace. -/
structure LevelManager where
  movesRemaining : Nat
  maxMoves : Nat
  gameState : GState
  currentLevelIndex : Nat
deriving DecidableEq, Repr

/-- Observable events, in the order the source fires its callbacks and
animations: `onMovesChanged`, `onWin`, `onLose`, and the per-round cascade
observations (match clears, gravity results, character movement). -/
inductive GEvent where
  | movesChanged (remaining maxMoves : Nat)
  | winShown (level movesUsed movesRemaining : Nat)
  | loseShown (level : Nat)
  | matchRound (cleared : List Pos) (specials : List SpecialRec)
  | gravityRound (movements : List Movement) (spawns : List SpawnRec)
  | characterMoved (steps : List MoveRec)
  | swapReverted
deriving DecidableEq, Repr

namespace LevelManager

/-- `triggerWin()`: set the win state and fire `onWin` with its payload. -/
def triggerWin (lm : LevelManager) : LevelManager × List GEvent :=
  ({ lm with gameState := .win },
   [.winShown (lm.currentLevelIndex + 1) (lm.maxMoves - lm.movesRemaining)
      lm.movesRemaining])

/-- `triggerLose()`: set the lose state and fire `onLose`. -/
def triggerLose (lm : LevelManager) : LevelManager × List GEvent :=
  ({ lm with gameState := .lose }, [.loseShown (lm.currentLevelIndex + 1)])

/-- `useMove()`: refuse when no moves remain; otherwise decrement, fire
`onMovesChanged`, and — when the decrement reaches zero and the game is not
already won — trigger the lose condition immediately. -/
def useMove (lm : LevelManager) : LevelManager × List GEvent × Bool :=
  if lm.movesRemaining ≤ 0 then (lm, [], false)
  else
    let lm := { lm with movesRemaining := lm.movesRemaining - 1 }
    let evs := [GEvent.movesChanged lm.movesRemaining lm.maxMoves]
    if lm.movesRemaining ≤ 0 ∧ lm.gameState ≠ .win then
      let (lm', evs') := triggerLose lm
      (lm', evs ++ evs', false)
    else (lm, evs, true)

/-- `isGameOver()`. -/
def isGameOver (lm : LevelManager) : Bool :=
  lm.gameState = .win || lm.gameState = .lose

end LevelManager

/-- The game controller state driven by `Game.handleSwap` (class Game):
grid, character controller, level manager. DOM elements and the
`isProcessing` re-entrancy flag (the model is synchronous, one move at a
time) are omitted. -/
structure Game where
  grid : GridManager
  charCtrl : CharacterController
  lm : LevelManager
deriving DecidableEq, Repr

namespace Game

/-- `processCascades()`: rounds of find-matches → process → clear → place
specials → gravity, until a round finds no matches. `fuel` bounds the number
of rounds; all uses below supply enough for the run to end by the
empty-match-set exit, matching the source's `while` loop. -/
def processCascades : Nat → Game → (Nat → Nat) → Nat → Game × List GEvent × Nat
  | 0, game, _, k => (game, [], k)
  | fuel+1, game, rnd, k =>
    let lm1 := { game.lm with gameState := .matching }
    let ms := MatchResolver.findAllMatches game.grid
    if ms.isEmpty then ({ game with lm := lm1 }, [], k)
    else
      let pr := MatchResolver.processMatches game.grid ms
      let g1 := pr.clearedPositions.foldl (fun g p => g.setEmpty p.x p.y) pr.grid
      let g2 := pr.specialTiles.foldl (fun g s =>
          g.setTile s.position.x s.position.y ((Tile.new s.color).setSpecial s.stype)) g1
      let lm2 := { lm1 with gameState := .falling }
      let (g3, gres, k') := GravitySystem.processGravity g2 rnd k
      let (game', evs, k'') :=
        processCascades fuel { grid := g3, charCtrl := game.charCtrl, lm := lm2 } rnd k'
      (game', GEvent.matchRound pr.clearedPositions pr.specialTiles ::
              GEvent.gravityRound gres.movements gres.newTiles :: evs, k'')

/-- `moveCharacter()`: advance the character as far as possible and report
the steps. -/
def moveCharacter (game : Game) : Game × List GEvent :=
  let lm := { game.lm with gameState := .characterMoving }
  let (cc', g', movements) :=
    CharacterController.moveToHighestEmpty game.charCtrl game.grid
  ({ grid := g', charCtrl := cc', lm := lm }, [GEvent.characterMoved movements])

/-- `handleSwap(x1, y1, x2, y2)` — the move lifecycle: swap; on a productive
swap consume a move, run cascades, advance the character, then the terminal
checks (escape → win, else empty budget → lose); on an unproductive swap,
swap back. Either way the state is set back to idle at the end. Returns the
new state, the ordered event trace, and the random-stream position. -/
def handleSwap (game : Game) (x1 y1 x2 y2 : Int) (rnd : Nat → Nat) (k : Nat)
    (cascadeFuel : Nat) : Game × List GEvent × Nat :=
  if LevelManager.isGameOver game.lm then (game, [], k)
  else
    let lm0 := { game.lm with gameState := .swapping }
    let g0 := game.grid.swap x1 y1 x2 y2
    let hasMatch := MatchResolver.checkSwapForMatches g0 x1 y1 x2 y2
    if hasMatch then
      let (lm1, ev1, _) := LevelManager.useMove lm0
      let (game2, ev2, k2) :=
        processCascades cascadeFuel { grid := g0, charCtrl := game.charCtrl, lm := lm1 } rnd k
      let (game3, ev3) := moveCharacter game2
      let (lm4, ev4) :=
        if CharacterController.hasEscaped game3.charCtrl then
          LevelManager.triggerWin game3.lm
        else if game3.lm.movesRemaining ≤ 0 then
          LevelManager.triggerLose game3.lm
        else (game3.lm, [])
      let lmFinal := { lm4 with gameState := .idle }
      ({ game3 with lm := lmFinal }, ev1 ++ ev2 ++ ev3 ++ ev4, k2)
    else
      let g1 := g0.swap x1 y1 x2 y2
      let lmFinal := { lm0 with gameState := .idle }
      ({ game with grid := g1, lm := lmFinal }, [GEvent.swapReverted], k)

end Game

/-! Concrete tiles, grids and game states used by the claim theorems and
their witnesses. -/

/-- Plain red tile. -/
def tRed : Tile := Tile.new (.color .red)

/-- Plain blue tile. -/
def tBlue : Tile := Tile.new (.color .blue)

/-- Plain green tile. -/
def tGreen : Tile := Tile.new (.color .green)

/-- Plain yellow tile. -/
def tYellow : Tile := Tile.new (.color .yellow)

/-- Empty cell tile. -/
def tEmpty : Tile := Tile.new .empty

/-- Exit marker tile. -/
def tExit : Tile := Tile.new .exitMarker

/-- Red tile carrying a bomb special power. -/
def tRedBomb : Tile := (Tile.new (.color .red)).setSpecial .bomb

/-- Red tile under one ice layer. -/
def tRedIce1 : Tile := { type := .color .red, iceLayer := 1 }

/-- Cell array built from a row-major list of rows (`rows[y][x]`). -/
def mkCells (rows : List (List Tile)) : List (List (Option Tile)) :=
  rows.map (List.map some)

/-- Character controller of the last-move scenario: character at (0,2), exit
row 0. -/
def c1cc : CharacterController := ⟨some ⟨0, 2, 0, 2⟩, 0⟩

/-- 3×3 grid for the last-move scenario: exit at (2,0), character at (0,2),
and a red pair at (0,1)-(1,1) completed by swapping (2,1) with (2,2). -/
def gridC1 : GridManager :=
  { width := 3, height := 3,
    cells := mkCells [[tBlue, tGreen, tExit], [tRed, tRed, tGreen], [tEmpty, tGreen, tRed]],
    tileTypes := [.red, .blue, .green],
    exitPosition := ⟨2, 0⟩,
    characterPosition := some ⟨0, 2⟩ }

/-- Game state on `gridC1` with exactly one move remaining. -/
def gameC1 : Game :=
  { grid := gridC1, charCtrl := c1cc,
    lm := { movesRemaining := 1, maxMoves := 10, gameState := .idle,
            currentLevelIndex := 0 } }

/-- `gridC1` after the productive swap (2,1)↔(2,2): a red 3-run on row 1. -/
def c1gA : GridManager :=
  { width := 3, height := 3,
    cells := mkCells [[tBlue, tGreen, tExit], [tRed, tRed, tRed], [tEmpty, tGreen, tGreen]],
    tileTypes := [.red, .blue, .green], exitPosition := ⟨2, 0⟩,
    characterPosition := some ⟨0, 2⟩ }

/-- `c1gA` with the matched row cleared. -/
def c1gB : GridManager :=
  { width := 3, height := 3,
    cells := mkCells [[tBlue, tGreen, tExit], [tEmpty, tEmpty, tEmpty], [tEmpty, tGreen, tGreen]],
    tileTypes := [.red, .blue, .green], exitPosition := ⟨2, 0⟩,
    characterPosition := some ⟨0, 2⟩ }

/-- `c1gB` after gravity compaction (blue and green fell one row). -/
def c1gM : GridManager :=
  { width := 3, height := 3,
    cells := mkCells [[tEmpty, tEmpty, tExit], [tBlue, tGreen, tEmpty], [tEmpty, tGreen, tGreen]],
    tileTypes := [.red, .blue, .green], exitPosition := ⟨2, 0⟩,
    characterPosition := some ⟨0, 2⟩ }

/-- `c1gM` after spawning: red tiles at (0,0), (1,0) and (2,1). -/
def c1gC : GridManager :=
  { width := 3, height := 3,
    cells := mkCells [[tRed, tRed, tExit], [tBlue, tGreen, tRed], [tEmpty, tGreen, tGreen]],
    tileTypes := [.red, .blue, .green], exitPosition := ⟨2, 0⟩,
    characterPosition := some ⟨0, 2⟩ }

/-- The single match of the last-move scenario. -/
def c1m : MatchRec :=
  { tiles := [⟨0, 1⟩, ⟨1, 1⟩, ⟨2, 1⟩], type := .horizontal, length := 3, color := .color .red }

/-- Stage: the tentative swap. -/
theorem c1_swap_eq : gridC1.swap 2 1 2 2 = c1gA := by decide

/-- Stage: the swap is productive. -/
theorem c1_check_eq : MatchResolver.checkSwapForMatches c1gA 2 1 2 2 = true := by decide

/-- Stage: consuming the last move triggers the lose condition inside
`useMove` — the returned events already contain the Lose event. -/
theorem c1_useMove_eq : LevelManager.useMove
    { movesRemaining := 1, maxMoves := 10, gameState := .swapping, currentLevelIndex := 0 } =
    ({ movesRemaining := 0, maxMoves := 10, gameState := .lose, currentLevelIndex := 0 },
     [.movesChanged 0 10, .loseShown 1], false) := by decide

/-- Stage: round-1 match scan. -/
theorem c1_matches_eq : MatchResolver.findAllMatches c1gA = [c1m] := by decide

/-- Stage: round-1 match processing. -/
theorem c1_process_eq : MatchResolver.processMatches c1gA [c1m] =
    { clearedPositions := [⟨0, 1⟩, ⟨1, 1⟩, ⟨2, 1⟩], specialTiles := [],
      processed := [⟨0, 1⟩, ⟨1, 1⟩, ⟨2, 1⟩], grid := c1gA } := by decide

/-- Stage: clearing the matched cells. -/
theorem c1_clear_eq :
    ([(⟨0, 1⟩ : Pos), ⟨1, 1⟩, ⟨2, 1⟩].foldl (fun g p => g.setEmpty p.x p.y) c1gA) = c1gB := by
  decide

/-- Stage: first full compaction. -/
theorem c1_gravityFirst_eq :
    GravitySystem.applyGravityFully c1gB = ([[⟨0, 0, 0, 1⟩, ⟨1, 0, 1, 1⟩]], c1gM) := by decide

/-- Stage: spawning replacement tiles. -/
theorem c1_spawn_eq : GravitySystem.spawnNewTiles c1gM (fun _ => 0) 0 =
    { grid := c1gC, newTiles := [⟨0, 0, tRed⟩, ⟨1, 0, tRed⟩, ⟨2, 1, tRed⟩], k := 3 } := by decide

/-- Stage: compaction after spawn moves nothing. -/
theorem c1_gravitySecond_eq : GravitySystem.applyGravityFully c1gC = ([], c1gC) := by decide

/-- Stage: the whole gravity cycle of round 1. -/
theorem c1_processGravity_eq : GravitySystem.processGravity c1gB (fun _ => 0) 0 =
    (c1gC, ⟨[⟨0, 0, 0, 1⟩, ⟨1, 0, 1, 1⟩], [⟨0, 0, tRed⟩, ⟨1, 0, tRed⟩, ⟨2, 1, tRed⟩]⟩, 3) := by
  rw [GravitySystem.processGravity, c1_gravityFirst_eq]
  dsimp only
  rw [c1_spawn_eq]
  dsimp only
  rw [c1_gravitySecond_eq]
  decide

/-- Stage: round-2 scan finds nothing, ending the cascade. -/
theorem c1_scanAfter_eq : MatchResolver.findAllMatches c1gC = [] := by decide

/-- Stage: the character is blocked and does not move. -/
theorem c1_move_eq : CharacterController.moveToHighestEmpty c1cc c1gC = (c1cc, c1gC, []) := by
  decide

/-- Stage: the full cascade loop of the consumed move. -/
theorem c1_cascades_eq : Game.processCascades 6
    { grid := c1gA, charCtrl := c1cc,
      lm := { movesRemaining := 0, maxMoves := 10, gameState := .lose, currentLevelIndex := 0 } }
    (fun _ => 0) 0 =
    ({ grid := c1gC, charCtrl := c1cc,
       lm := { movesRemaining := 0, maxMoves := 10, gameState := .matching, currentLevelIndex := 0 } },
     [.matchRound [⟨0, 1⟩, ⟨1, 1⟩, ⟨2, 1⟩] [],
      .gravityRound [⟨0, 0, 0, 1⟩, ⟨1, 0, 1, 1⟩]
        [⟨0, 0, tRed⟩, ⟨1, 0, tRed⟩, ⟨2, 1, tRed⟩]], 3) := by
  rw [show (6 : Nat) = 5 + 1 from rfl, Game.processCascades]
  try dsimp only
  rw [c1_matches_eq]
  rw [if_neg (show ¬([c1m].isEmpty = true) from by decide)]
  try dsimp only
  rw [c1_process_eq]
  try dsimp only
  rw [c1_clear_eq]
  rw [List.foldl_nil]
  rw [c1_processGravity_eq]
  try dsimp only
  rw [show (5 : Nat) = 4 + 1 from rfl, Game.processCascades]
  try dsimp only
  rw [c1_scanAfter_eq]
  rw [if_pos (show (([] : List MatchRec).isEmpty = true) from rfl)]

/-- Stage: the post-cascade terminal check fires Lose a second time. -/
theorem c1_triggerLose_eq : LevelManager.triggerLose
    { movesRemaining := 0, maxMoves := 10, gameState := .characterMoving, currentLevelIndex := 0 } =
    ({ movesRemaining := 0, maxMoves := 10, gameState := .lose, currentLevelIndex := 0 },
     [.loseShown 1]) := by decide

/-- C1: the claim says a move budget that reaches zero as a direct result of
the consumed move never produces the Lose outcome before that move's cascade,
character advance, and escape check have run. The code violates this:
`LevelManager.useMove` triggers the lose condition (state ← LOSE, `onLose`
fired) immediately at consumption time. Concretely, with one move remaining,
the productive swap (2,1)↔(2,2) on `gameC1` yields a trace whose Lose event
(index 1) precedes every cascade, gravity and character event — and the
post-cascade terminal check then fires Lose a second time. -/
theorem C1_lose_fires_before_cascade :
    gameC1.lm.movesRemaining = 1 ∧
    Game.handleSwap gameC1 2 1 2 2 (fun _ => 0) 0 6 =
    ({ grid := c1gC, charCtrl := c1cc,
       lm := { movesRemaining := 0, maxMoves := 10, gameState := .idle, currentLevelIndex := 0 } },
     [.movesChanged 0 10,
      .loseShown 1,
      .matchRound [⟨0, 1⟩, ⟨1, 1⟩, ⟨2, 1⟩] [],
      .gravityRound [⟨0, 0, 0, 1⟩, ⟨1, 0, 1, 1⟩]
        [⟨0, 0, tRed⟩, ⟨1, 0, tRed⟩, ⟨2, 1, tRed⟩],
      .characterMoved [],
      .loseShown 1], 3) := by
  refine ⟨by decide, ?_⟩
  rw [Game.handleSwap]
  dsimp only [gameC1]
  rw [if_neg (show ¬(LevelManager.isGameOver
    { movesRemaining := 1, maxMoves := 10, gameState := .idle, currentLevelIndex := 0 } = true)
    from by decide)]
  try dsimp only
  rw [c1_swap_eq, c1_check_eq]
  rw [if_pos (show (true = true) from rfl)]
  rw [c1_useMove_eq]
  try dsimp only
  rw [c1_cascades_eq]
  try dsimp only
  rw [Game.moveCharacter]
  try dsimp only
  rw [c1_move_eq]
  try dsimp only
  rw [if_neg (show ¬(CharacterController.hasEscaped c1cc = true) from by decide)]
  rw [if_pos (show ((0 : Nat) ≤ 0) from by decide)]
  rw [c1_triggerLose_eq]
  decide

/-- Character controller of the special-tile scenario: character at (2,2). -/
def c4cc : CharacterController := ⟨some ⟨2, 2, 2, 2⟩, 0⟩

/-- 3×3 grid holding a red bomb-special tile at (1,1) inside a horizontal red
3-run on row 1; (1,2) holds a yellow tile inside the bomb's 3×3 area; the
character's logical cell is (2,2). -/
def gridC4 : GridManager :=
  { width := 3, height := 3,
    cells := mkCells [[tBlue, tGreen, tBlue], [tRed, tRedBomb, tRed], [tGreen, tYellow, tEmpty]],
    tileTypes := [.red, .blue, .green, .yellow],
    exitPosition := ⟨0, 0⟩,
    characterPosition := some ⟨2, 2⟩ }

/-- Game state wrapping `gridC4`. -/
def gameC4 : Game :=
  { grid := gridC4, charCtrl := c4cc,
    lm := { movesRemaining := 5, maxMoves := 10, gameState := .idle,
            currentLevelIndex := 0 } }

/-- The single match of the special-tile scenario (it contains the bomb tile
at (1,1)). -/
def mC4 : MatchRec :=
  { tiles := [⟨0, 1⟩, ⟨1, 1⟩, ⟨2, 1⟩], type := .horizontal, length := 3, color := .color .red }

/-- `gridC4` with the matched row (bomb included) cleared. -/
def gB4 : GridManager :=
  { width := 3, height := 3,
    cells := mkCells [[tBlue, tGreen, tBlue], [tEmpty, tEmpty, tEmpty], [tGreen, tYellow, tEmpty]],
    tileTypes := [.red, .blue, .green, .yellow],
    exitPosition := ⟨0, 0⟩, characterPosition := some ⟨2, 2⟩ }

/-- `gB4` after gravity compaction. -/
def gM4 : GridManager :=
  { width := 3, height := 3,
    cells := mkCells [[tEmpty, tEmpty, tEmpty], [tBlue, tGreen, tBlue], [tGreen, tYellow, tEmpty]],
    tileTypes := [.red, .blue, .green, .yellow],
    exitPosition := ⟨0, 0⟩, characterPosition := some ⟨2, 2⟩ }

/-- `gM4` after spawning the top row. -/
def gC4fin : GridManager :=
  { width := 3, height := 3,
    cells := mkCells [[tRed, tRed, tBlue], [tBlue, tGreen, tBlue], [tGreen, tYellow, tEmpty]],
    tileTypes := [.red, .blue, .green, .yellow],
    exitPosition := ⟨0, 0⟩, characterPosition := some ⟨2, 2⟩ }

/-- Stage: the scan finds the run through the bomb tile. -/
theorem c4_matches_eq : MatchResolver.findAllMatches gridC4 = [mC4] := by decide

/-- Stage: processing clears exactly the three matched cells — no
area-of-effect positions are added. -/
theorem c4_process_eq : MatchResolver.processMatches gridC4 [mC4] =
    { clearedPositions := [⟨0, 1⟩, ⟨1, 1⟩, ⟨2, 1⟩], specialTiles := [],
      processed := [⟨0, 1⟩, ⟨1, 1⟩, ⟨2, 1⟩], grid := gridC4 } := by decide

/-- Stage: clearing the matched cells. -/
theorem c4_clear_eq :
    ([(⟨0, 1⟩ : Pos), ⟨1, 1⟩, ⟨2, 1⟩].foldl (fun g p => g.setEmpty p.x p.y) gridC4) = gB4 := by
  decide

/-- Stage: first full compaction. -/
theorem c4_gravityFirst_eq : GravitySystem.applyGravityFully gB4 =
    ([[⟨0, 0, 0, 1⟩, ⟨1, 0, 1, 1⟩, ⟨2, 0, 2, 1⟩]], gM4) := by decide

/-- Stage: spawning the vacated top row. -/
theorem c4_spawn_eq : GravitySystem.spawnNewTiles gM4 (fun _ => 0) 0 =
    { grid := gC4fin, newTiles := [⟨0, 0, tRed⟩, ⟨1, 0, tRed⟩, ⟨2, 0, tBlue⟩], k := 3 } := by
  decide

/-- Stage: compaction after spawn moves nothing. -/
theorem c4_gravitySecond_eq : GravitySystem.applyGravityFully gC4fin = ([], gC4fin) := by decide

/-- Stage: the whole gravity cycle of the round. -/
theorem c4_processGravity_eq : GravitySystem.processGravity gB4 (fun _ => 0) 0 =
    (gC4fin, ⟨[⟨0, 0, 0, 1⟩, ⟨1, 0, 1, 1⟩, ⟨2, 0, 2, 1⟩],
              [⟨0, 0, tRed⟩, ⟨1, 0, tRed⟩, ⟨2, 0, tBlue⟩]⟩, 3) := by
  rw [GravitySystem.processGravity, c4_gravityFirst_eq]
  dsimp only
  rw [c4_spawn_eq]
  dsimp only
  rw [c4_gravitySecond_eq]
  decide

/-- Stage: round-2 scan finds nothing, ending the cascade. -/
theorem c4_scanAfter_eq : MatchResolver.findAllMatches gC4fin = [] := by decide

/-- Stage: the full cascade run for the special-tile scenario. -/
theorem c4_cascades_eq : Game.processCascades 6 gameC4 (fun _ => 0) 0 =
    ({ grid := gC4fin, charCtrl := c4cc,
       lm := { movesRemaining := 5, maxMoves := 10, gameState := .matching, currentLevelIndex := 0 } },
     [.matchRound [⟨0, 1⟩, ⟨1, 1⟩, ⟨2, 1⟩] [],
      .gravityRound [⟨0, 0, 0, 1⟩, ⟨1, 0, 1, 1⟩, ⟨2, 0, 2, 1⟩]
        [⟨0, 0, tRed⟩, ⟨1, 0, tRed⟩, ⟨2, 0, tBlue⟩]], 3) := by
  rw [show (6 : Nat) = 5 + 1 from rfl, Game.processCascades]
  dsimp only [gameC4]
  rw [c4_matches_eq]
  rw [if_neg (show ¬([mC4].isEmpty = true) from by decide)]
  try dsimp only
  rw [c4_process_eq]
  try dsimp only
  rw [c4_clear_eq]
  rw [List.foldl_nil]
  rw [c4_processGravity_eq]
  try dsimp only
  rw [show (5 : Nat) = 4 + 1 from rfl, Game.processCascades]
  try dsimp only
  rw [c4_scanAfter_eq]
  rw [if_pos (show (([] : List MatchRec).isEmpty = true) from rfl)]

/-- C4: the claim says a matched special tile's area-of-effect is cleared in
the same cascade round. In the code, `getSpecialTileAffectedPositions` has no
caller: when the bomb tile at (1,1) of `gridC4` is matched and cleared, only
the three matched cells are cleared; the in-area cell (1,2) is in no round's
cleared set and its yellow tile survives the whole cascade. (Additionally,
the computed area includes the character's logical cell (2,2) — the
`isCharacter()` exclusion never fires because that cell's tile is of empty
kind.) -/
theorem C4_special_aoe_never_cleared :
    gridC4.getTile 1 1 = some tRedBomb ∧
    tRedBomb.isSpecial = true ∧ tRedBomb.specialType = some .bomb ∧
    (⟨1, 2⟩ : Pos) ∈ MatchResolver.getSpecialTileAffectedPositions gridC4 1 1 .bomb ∧
    (⟨2, 2⟩ : Pos) ∈ MatchResolver.getSpecialTileAffectedPositions gridC4 1 1 .bomb ∧
    Game.processCascades 6 gameC4 (fun _ => 0) 0 =
    ({ grid := gC4fin, charCtrl := c4cc,
       lm := { movesRemaining := 5, maxMoves := 10, gameState := .matching, currentLevelIndex := 0 } },
     [.matchRound [⟨0, 1⟩, ⟨1, 1⟩, ⟨2, 1⟩] [],
      .gravityRound [⟨0, 0, 0, 1⟩, ⟨1, 0, 1, 1⟩, ⟨2, 0, 2, 1⟩]
        [⟨0, 0, tRed⟩, ⟨1, 0, tRed⟩, ⟨2, 0, tBlue⟩]], 3) ∧
    (⟨1, 2⟩ : Pos) ∉ [(⟨0, 1⟩ : Pos), ⟨1, 1⟩, ⟨2, 1⟩] ∧
    gC4fin.getTile 1 2 = some tYellow ∧ gridC4.getTile 1 2 = some tYellow := by
  refine ⟨by decide, by decide, by decide, by decide, by decide, c4_cascades_eq,
    by decide, by decide, by decide⟩

/-- 3×1 grid whose rightmost cell is a red tile under one ice layer, inside a
red 3-run. -/
def gridC3 : GridManager :=
  { width := 3, height := 1,
    cells := mkCells [[tRed, tRed, tRedIce1]],
    tileTypes := [.red, .blue] }

/-- C3 counterexample: the claim says a tile with `iceLayers > 0` is never
matchable, never part of a detected run, and never accepted as swappable. In
the code, `Tile.isMatchable` tests only the lock flag: a red tile with one
ice layer is matchable and swappable, and `findAllMatches` records it inside
a run. -/
theorem C3_iced_tile_is_matchable :
    tRedIce1.iceLayer = 1 ∧ tRedIce1.isLocked = false ∧
    tRedIce1.isMatchable = true ∧ tRedIce1.canSwap = true ∧
    gridC3.getTile 2 0 = some tRedIce1 ∧
    MatchResolver.findAllMatches gridC3 =
      [{ tiles := [⟨0, 0⟩, ⟨1, 0⟩, ⟨2, 0⟩], type := .horizontal,
         length := 3, color := .color .red }] := by
  refine ⟨by decide, by decide, by decide, by decide, by decide, by decide⟩

/-- 3×1 grid whose leftmost cell is a red tile under one ice layer, inside a
red 3-run. -/
def gridC5 : GridManager :=
  { width := 3, height := 1,
    cells := mkCells [[tRedIce1, tRed, tRed]],
    tileTypes := [.red, .blue] }

/-- The single match of the one-ice-layer scenario. -/
def mC5 : MatchRec :=
  { tiles := [⟨0, 0⟩, ⟨1, 0⟩, ⟨2, 0⟩], type := .horizontal, length := 3, color := .color .red }

/-- C5 counterexample: the claim says a matched cell with any positive
starting ice count — including exactly one layer — is not included in the
round's cleared positions. In the code, a matched cell starting at
`iceLayer = 1` is decremented to zero and then cleared in the same round: on
`gridC5` the iced cell (0,0) appears in `clearedPositions`. -/
theorem C5_single_ice_layer_cleared_same_round :
    gridC5.getTile 0 0 = some tRedIce1 ∧ tRedIce1.iceLayer = 1 ∧
    MatchResolver.findAllMatches gridC5 = [mC5] ∧
    (⟨0, 0⟩ : Pos) ∈ (MatchResolver.processMatches gridC5 [mC5]).clearedPositions ∧
    Option.map Tile.iceLayer
      ((MatchResolver.processMatches gridC5 [mC5]).grid.getTile 0 0) = some 0 := by
  refine ⟨by decide, by decide, by decide, by decide, by decide⟩

/-- 3×1 grid with a red pair at (0,0)-(1,0) and an empty non-fixed cell at
(2,0) awaiting a spawn. -/
def gridC7 : GridManager :=
  { width := 3, height := 1,
    cells := mkCells [[tRed, tRed, tEmpty]],
    tileTypes := [.red, .blue, .green] }

/-- C7 counterexample: the claim says `spawnNewTiles` applies no spawn-time
match-avoidance, every palette color being a possible outcome at every cell.
In the code, `spawnNewTiles` fills cells via `createNonMatchingTile`: next to
the red pair of `gridC7`, red is erased from the candidate list from which
the random draw is taken, so red is not a possible outcome at (2,0). -/
theorem C7_spawn_excludes_matching_color :
    Color.red ∈ gridC7.tileTypes ∧
    gridC7.getTile 0 0 = some tRed ∧ gridC7.getTile 1 0 = some tRed ∧
    GridManager.spawnCandidates gridC7 2 0 [.red, .blue, .green] = [.blue, .green] ∧
    Color.red ∉ GridManager.spawnCandidates gridC7 2 0 [.red, .blue, .green] ∧
    (GravitySystem.spawnNewTiles gridC7 (fun _ => 0) 0).grid.getTile 2 0 = some tBlue := by
  refine ⟨by decide, by decide, by decide, by decide, by decide, by decide⟩

/-- 5×1 level whose palette repeats red: exit at (0,0), character at (4,0),
three free cells. -/
def cfgC9 : LevelConfig :=
  { gridWidth := 5, gridHeight := 1, maxMoves := 10,
    characterStart := ⟨4, 0⟩, exitPosition := ⟨0, 0⟩,
    blockers := [], tileTypes := [.red, .red, .blue] }

/-- The grid `cfgC9` initialization produces under the random stream that
always draws index 0: a red 3-run. -/
def gridC9 : GridManager :=
  { width := 5, height := 1, cells := mkCells [[tExit, tRed, tRed, tRed, tEmpty]],
    tileTypes := [.red, .red, .blue], exitPosition := ⟨0, 0⟩,
    characterPosition := some ⟨4, 0⟩ }

/-- C9 counterexample: the claim says that for every level configuration and
random outcome the initialized grid has no run of length ≥ 3 except under the
palette-exhaustion fallback (impossible with ≥ 3 palette entries). With the
3-entry palette `[red, red, blue]`, `erase` removes only one occurrence of
red, so the draw next to a red pair can still be red: grid setup produces a
red 3-run while the fallback never fired (the candidate list stayed
non-empty at every cell). -/
theorem C9_duplicate_palette_spawn_match :
    cfgC9.tileTypes.length = 3 ∧
    ([Color.red, Color.red, Color.blue].erase .red = [.red, .blue]) ∧
    GridManager.initGrid 5 1 cfgC9 (fun _ => 0) = gridC9 ∧
    MatchResolver.findAllMatches gridC9 =
      [{ tiles := [⟨1, 0⟩, ⟨2, 0⟩, ⟨3, 0⟩], type := .horizontal,
         length := 3, color := .color .red }] := by
  refine ⟨by decide, by decide, by decide, by decide⟩

/-! Cell-array algebra used by the general theorems. -/

namespace GridManager

/-- Shape invariant of an initialized grid: `height` stored rows of `width`
stored cells (what `initialize`'s row/column loops construct). -/
def WellFormed (g : GridManager) : Prop :=
  g.cells.length = g.height ∧ ∀ row ∈ g.cells, row.length = g.width

theorem setCell_width (g : GridManager) (x y : Int) (t : Option Tile) :
    (g.setCell x y t).width = g.width := by
  unfold setCell; split <;> rfl

theorem setCell_height (g : GridManager) (x y : Int) (t : Option Tile) :
    (g.setCell x y t).height = g.height := by
  unfold setCell; split <;> rfl

theorem setCell_tileTypes (g : GridManager) (x y : Int) (t : Option Tile) :
    (g.setCell x y t).tileTypes = g.tileTypes := by
  unfold setCell; split <;> rfl

theorem setCell_exitPosition (g : GridManager) (x y : Int) (t : Option Tile) :
    (g.setCell x y t).exitPosition = g.exitPosition := by
  unfold setCell; split <;> rfl

theorem setCell_characterPosition (g : GridManager) (x y : Int) (t : Option Tile) :
    (g.setCell x y t).characterPosition = g.characterPosition := by
  unfold setCell; split <;> rfl

theorem isValidPosition_setCell (g : GridManager) (x y a b : Int) (t : Option Tile) :
    (g.setCell x y t).isValidPosition a b = g.isValidPosition a b := by
  unfold isValidPosition
  rw [setCell_width, setCell_height]

theorem toNat_ne_of_ne {a b : Int} (ha : 0 ≤ a) (hb : 0 ≤ b) (h : a ≠ b) :
    a.toNat ≠ b.toNat := by
  intro hEq
  exact h (by omega)

theorem isValidPosition_elim {g : GridManager} {x y : Int}
    (hv : g.isValidPosition x y = true) :
    0 ≤ x ∧ x < (g.width : Int) ∧ 0 ≤ y ∧ y < (g.height : Int) := by
  unfold isValidPosition at hv
  simp only [Bool.and_eq_true, decide_eq_true_eq] at hv
  exact ⟨hv.1.1.1, hv.1.1.2, hv.1.2, hv.2⟩

theorem cellAt_setCell_ne (g : GridManager) (x y a b : Int) (t : Option Tile)
    (h : ¬(a = x ∧ b = y)) :
    (g.setCell x y t).cellAt a b = g.cellAt a b := by
  unfold setCell cellAt
  by_cases hxy : 0 ≤ x ∧ 0 ≤ y
  · rw [if_pos hxy]
    by_cases hab : 0 ≤ a ∧ 0 ≤ b
    · rw [if_pos hab, if_pos hab]
      show ((g.cells.set y.toNat _)[b.toNat]?.bind _).join = _
      rw [List.getElem?_set]
      by_cases hby : b = y
      · subst hby
        have hax : a ≠ x := fun hax => h ⟨hax, rfl⟩
        have haxN : x.toNat ≠ a.toNat := (toNat_ne_of_ne hab.1 hxy.1 hax).symm
        rw [if_pos rfl]
        by_cases hlen : b.toNat < g.cells.length
        · rw [if_pos hlen]
          have hrow : g.cells[b.toNat]? = some (g.cells.get ⟨b.toNat, hlen⟩) :=
            List.getElem?_eq_getElem hlen
          rw [hrow]
          simp only [Option.some_bind, Option.getD_some]
          rw [List.getElem?_set_ne haxN]
        · rw [if_neg hlen]
          rw [List.getElem?_eq_none (by omega)]
      · rw [if_neg (fun hEq => hby (by omega))]
    · rw [if_neg hab, if_neg hab]
  · rw [if_neg hxy]

theorem cellAt_setCell_valid (g : GridManager) (x y : Int) (t : Option Tile)
    (hwf : g.WellFormed) (hv : g.isValidPosition x y = true) :
    (g.setCell x y t).cellAt x y = t := by
  obtain ⟨hx, hxw, hy, hyh⟩ := isValidPosition_elim hv
  have hyN : y.toNat < g.cells.length := by rw [hwf.1]; omega
  have hrow : g.cells[y.toNat]? = some (g.cells.get ⟨y.toNat, hyN⟩) :=
    List.getElem?_eq_getElem hyN
  have hrowMem : g.cells.get ⟨y.toNat, hyN⟩ ∈ g.cells := List.getElem_mem hyN
  have hxN : x.toNat < (g.cells.get ⟨y.toNat, hyN⟩).length := by
    rw [hwf.2 _ hrowMem]; omega
  unfold setCell cellAt
  rw [if_pos ⟨hx, hy⟩, if_pos ⟨hx, hy⟩]
  show ((g.cells.set y.toNat _)[y.toNat]?.bind _).join = _
  rw [List.getElem?_set, if_pos rfl, if_pos hyN]
  simp only [Option.some_bind]
  rw [hrow]
  simp only [Option.getD_some]
  rw [List.getElem?_set_self (by simpa using hxN)]
  rfl

theorem WellFormed.setCell {g : GridManager} (hwf : g.WellFormed) (x y : Int)
    (t : Option Tile) : (g.setCell x y t).WellFormed := by
  unfold GridManager.setCell
  split
  · by_cases hlen : y.toNat < g.cells.length
    · refine ⟨?_, ?_⟩
      · show (g.cells.set _ _).length = g.height
        rw [List.length_set]; exact hwf.1
      · intro row hrow
        rcases List.mem_or_eq_of_mem_set hrow with hmem | heq
        · exact hwf.2 row hmem
        · subst heq
          show (_ : List (Option Tile)).length = _
          rw [List.length_set]
          rw [List.getElem?_eq_getElem hlen]
          simp only [Option.getD_some]
          exact hwf.2 _ (List.getElem_mem hlen)
    · have hset : g.cells.set y.toNat ((g.cells[y.toNat]?.getD []).set x.toNat t) = g.cells :=
        List.set_eq_of_length_le (by omega)
      refine ⟨?_, ?_⟩
      · show (g.cells.set _ _).length = g.height
        rw [hset]; exact hwf.1
      · intro row hrow
        have hrow' : row ∈ g.cells := by
          rw [← hset]; exact hrow
        exact hwf.2 row hrow'
  · exact hwf

theorem swap_fields (g : GridManager) (x1 y1 x2 y2 : Int) :
    (g.swap x1 y1 x2 y2).width = g.width ∧
    (g.swap x1 y1 x2 y2).height = g.height ∧
    (g.swap x1 y1 x2 y2).tileTypes = g.tileTypes ∧
    (g.swap x1 y1 x2 y2).exitPosition = g.exitPosition ∧
    (g.swap x1 y1 x2 y2).characterPosition = g.characterPosition := by
  unfold swap
  refine ⟨?_, ?_, ?_, ?_, ?_⟩ <;>
    simp [setCell_width, setCell_height, setCell_tileTypes, setCell_exitPosition,
      setCell_characterPosition]

theorem WellFormed.swap {g : GridManager} (hwf : g.WellFormed) (x1 y1 x2 y2 : Int) :
    (g.swap x1 y1 x2 y2).WellFormed := by
  unfold GridManager.swap
  exact (hwf.setCell x1 y1 _).setCell x2 y2 _

end GridManager

namespace GridManager

theorem isValidPosition_swap (g : GridManager) (x1 y1 x2 y2 a b : Int) :
    (g.swap x1 y1 x2 y2).isValidPosition a b = g.isValidPosition a b := by
  unfold isValidPosition
  rw [(swap_fields g x1 y1 x2 y2).1, (swap_fields g x1 y1 x2 y2).2.1]

theorem cellAt_swap (g : GridManager) (x1 y1 x2 y2 : Int)
    (hwf : g.WellFormed)
    (hv1 : g.isValidPosition x1 y1 = true) (hv2 : g.isValidPosition x2 y2 = true)
    (a b : Int) :
    (g.swap x1 y1 x2 y2).cellAt a b =
      if a = x2 ∧ b = y2 then g.cellAt x1 y1
      else if a = x1 ∧ b = y1 then g.cellAt x2 y2
      else g.cellAt a b := by
  unfold swap
  by_cases h2 : a = x2 ∧ b = y2
  · rw [if_pos h2]
    obtain ⟨ha, hb⟩ := h2; subst ha; subst hb
    have hv2' : (g.setCell x1 y1 (g.cellAt a b)).isValidPosition a b = true := by
      rw [isValidPosition_setCell]; exact hv2
    exact cellAt_setCell_valid _ a b _ (hwf.setCell x1 y1 _) hv2'
  · rw [if_neg h2, cellAt_setCell_ne _ _ _ _ _ _ h2]
    by_cases h1 : a = x1 ∧ b = y1
    · rw [if_pos h1]
      obtain ⟨ha, hb⟩ := h1; subst ha; subst hb
      exact cellAt_setCell_valid _ a b _ hwf hv1
    · rw [if_neg h1, cellAt_setCell_ne _ _ _ _ _ _ h1]

theorem getTile_swap_swap (g : GridManager) (x1 y1 x2 y2 : Int)
    (hwf : g.WellFormed)
    (hv1 : g.isValidPosition x1 y1 = true) (hv2 : g.isValidPosition x2 y2 = true)
    (a b : Int) :
    ((g.swap x1 y1 x2 y2).swap x1 y1 x2 y2).getTile a b = g.getTile a b := by
  have hwf' := hwf.swap x1 y1 x2 y2
  have hv1' : (g.swap x1 y1 x2 y2).isValidPosition x1 y1 = true := by
    rw [isValidPosition_swap]; exact hv1
  have hv2' : (g.swap x1 y1 x2 y2).isValidPosition x2 y2 = true := by
    rw [isValidPosition_swap]; exact hv2
  have hcell : ((g.swap x1 y1 x2 y2).swap x1 y1 x2 y2).cellAt a b = g.cellAt a b := by
    rw [cellAt_swap _ x1 y1 x2 y2 hwf' hv1' hv2' a b]
    by_cases h2 : a = x2 ∧ b = y2
    · rw [if_pos h2]
      rw [cellAt_swap g x1 y1 x2 y2 hwf hv1 hv2 x1 y1]
      by_cases h12 : x1 = x2 ∧ y1 = y2
      · rw [if_pos h12]
        obtain ⟨hx, hy⟩ := h12
        obtain ⟨ha, hb⟩ := h2
        subst hx; subst hy; subst ha; subst hb
        rfl
      · rw [if_neg h12, if_pos ⟨rfl, rfl⟩]
        obtain ⟨ha, hb⟩ := h2; subst ha; subst hb
        rfl
    · rw [if_neg h2]
      by_cases h1 : a = x1 ∧ b = y1
      · rw [if_pos h1]
        rw [cellAt_swap g x1 y1 x2 y2 hwf hv1 hv2 x2 y2, if_pos ⟨rfl, rfl⟩]
        obtain ⟨ha, hb⟩ := h1; subst ha; subst hb
        rfl
      · rw [if_neg h1]
        rw [cellAt_swap g x1 y1 x2 y2 hwf hv1 hv2 a b, if_neg h2, if_neg h1]
  unfold getTile
  rw [isValidPosition_swap, isValidPosition_swap, hcell]

end GridManager

/-- C2: an adjacent in-bounds swap that yields no run ≥ 3 at either swapped
cell is reverted and consumes no move — afterwards `movesRemaining` is
unchanged, every grid cell holds the same tile as before the swap, the state
is back to idle, and the only emitted event is the revert. -/
theorem C2_invalid_swap_conserves
    (game : Game) (x1 y1 x2 y2 : Int) (rnd : Nat → Nat) (k fuel : Nat)
    (hwf : game.grid.WellFormed)
    (hidle : game.lm.gameState = .idle)
    (hv1 : game.grid.isValidPosition x1 y1 = true)
    (hv2 : game.grid.isValidPosition x2 y2 = true)
    (_hadj : GridManager.areAdjacent x1 y1 x2 y2 = true)
    (hnom : MatchResolver.checkSwapForMatches
      (game.grid.swap x1 y1 x2 y2) x1 y1 x2 y2 = false) :
    (∀ a b : Int,
      (Game.handleSwap game x1 y1 x2 y2 rnd k fuel).1.grid.getTile a b =
        game.grid.getTile a b) ∧
    (Game.handleSwap game x1 y1 x2 y2 rnd k fuel).1.lm.movesRemaining =
      game.lm.movesRemaining ∧
    (Game.handleSwap game x1 y1 x2 y2 rnd k fuel).1.lm.gameState = .idle ∧
    (Game.handleSwap game x1 y1 x2 y2 rnd k fuel).2.1 = [.swapReverted] := by
  have hgo : ¬(LevelManager.isGameOver game.lm = true) := by
    simp [LevelManager.isGameOver, hidle]
  have hswap : ∀ a b : Int,
      ((game.grid.swap x1 y1 x2 y2).swap x1 y1 x2 y2).getTile a b =
        game.grid.getTile a b :=
    fun a b => GridManager.getTile_swap_swap game.grid x1 y1 x2 y2 hwf hv1 hv2 a b
  unfold Game.handleSwap
  rw [if_neg hgo]
  dsimp only
  rw [if_neg (by rw [hnom]; exact Bool.false_ne_true)]
  exact ⟨hswap, rfl, rfl, rfl⟩

/-- 2×2 grid with no possible productive swap between (0,0) and (1,0). -/
def gridC2w : GridManager :=
  { width := 2, height := 2,
    cells := mkCells [[tRed, tBlue], [tBlue, tRed]],
    tileTypes := [.red, .blue] }

/-- Game state wrapping `gridC2w`. -/
def gameC2w : Game :=
  { grid := gridC2w, charCtrl := ⟨none, 0⟩,
    lm := { movesRemaining := 5, maxMoves := 5, gameState := .idle,
            currentLevelIndex := 0 } }

/-- Witness for C2 at the concrete unproductive swap (0,0)↔(1,0) on
`gameC2w`. -/
theorem C2_invalid_swap_conserves_witness :
    (∀ a b : Int,
      (Game.handleSwap gameC2w 0 0 1 0 (fun _ => 0) 0 6).1.grid.getTile a b =
        gameC2w.grid.getTile a b) ∧
    (Game.handleSwap gameC2w 0 0 1 0 (fun _ => 0) 0 6).1.lm.movesRemaining =
      gameC2w.lm.movesRemaining ∧
    (Game.handleSwap gameC2w 0 0 1 0 (fun _ => 0) 0 6).1.lm.gameState = .idle ∧
    (Game.handleSwap gameC2w 0 0 1 0 (fun _ => 0) 0 6).2.1 = [.swapReverted] :=
  C2_invalid_swap_conserves gameC2w 0 0 1 0 (fun _ => 0) 0 6
    (by constructor <;> decide) (by decide) (by decide) (by decide) (by decide) (by decide)

namespace MatchResolver

/-- Shape facts every match produced by a line scan satisfies: minimum
length, matching orientation, `length` consistent with `tiles`, and `tiles`
being a consecutive run of cells whose effective type is the match color. -/
def MatchShape (g : GridManager) (line : Int → Pos) (orient : MatchOrientation)
    (m : MatchRec) : Prop :=
  MIN_MATCH ≤ m.length ∧ m.type = orient ∧ (m.tiles.length : Int) = m.length ∧
  ∃ s0 : Int, 0 ≤ s0 ∧ m.tiles = runTiles line s0 (s0 + m.length) ∧
    ∀ p ∈ m.tiles, effectiveType g p.x p.y = some m.color

/-- Invariant carried through the scan fold: the current run start is in
range, all cells of the current run share `currentType`, and every recorded
match has the shape above. -/
def ScanInv (g : GridManager) (line : Int → Pos) (orient : MatchOrientation)
    (s : ScanState) (i : Int) : Prop :=
  0 ≤ s.matchStart ∧ s.matchStart ≤ i ∧
  (∀ j : Int, s.matchStart ≤ j → j < i →
    effectiveType g (line j).x (line j).y = s.currentType) ∧
  ∀ m ∈ s.found, MatchShape g line orient m

theorem mem_runTiles {line : Int → Pos} {a b : Int} {p : Pos} :
    p ∈ runTiles line a b ↔ ∃ k : Nat, k < (b - a).toNat ∧ p = line (a + k) := by
  unfold runTiles
  simp only [List.mem_map, List.mem_range]
  constructor
  · rintro ⟨k, hk, rfl⟩; exact ⟨k, hk, rfl⟩
  · rintro ⟨k, hk, rfl⟩; exact ⟨k, hk, rfl⟩

theorem runTiles_length (line : Int → Pos) (a b : Int) :
    (runTiles line a b).length = (b - a).toNat := by
  unfold runTiles
  rw [List.length_map, List.length_range]

theorem scanStep_inv (g : GridManager) (line : Int → Pos) (orient : MatchOrientation)
    (s : ScanState) (i : Int) (h : ScanInv g line orient s i) :
    ScanInv g line orient (scanStep g line orient s i) (i + 1) := by
  obtain ⟨h0, hle, hrun, hfound⟩ := h
  unfold scanStep
  by_cases hc : effectiveType g (line i).x (line i).y = s.currentType ∧ s.currentType ≠ none
  · rw [if_pos hc]
    refine ⟨h0, by omega, ?_, hfound⟩
    intro j hj1 hj2
    by_cases hji : j = i
    · subst hji; exact hc.1
    · exact hrun j hj1 (by omega)
  · rw [if_neg hc]
    unfold ScanInv
    dsimp only
    refine ⟨by omega, by omega, ?_, ?_⟩
    · intro j hj1 hj2
      have : j = i := by omega
      subst this
      rfl
    · intro m hm
      by_cases hrec : i - s.matchStart ≥ MIN_MATCH ∧ s.currentType ≠ none
      · rw [if_pos hrec] at hm
        rw [List.mem_append] at hm
        rcases hm with hm | hm
        · exact hfound m hm
        · rw [List.mem_singleton] at hm
          subst hm
          obtain ⟨c, hcur⟩ := Option.ne_none_iff_exists'.mp hrec.2
          refine ⟨hrec.1, rfl, ?_, s.matchStart, h0, ?_, ?_⟩
          · show ((runTiles line s.matchStart i).length : Int) = i - s.matchStart
            rw [runTiles_length]
            unfold MIN_MATCH at hrec
            omega
          · show runTiles line s.matchStart i =
              runTiles line s.matchStart (s.matchStart + (i - s.matchStart))
            have : s.matchStart + (i - s.matchStart) = i := by omega
            rw [this]
          · intro p hp
            rw [mem_runTiles] at hp
            obtain ⟨k, hk, rfl⟩ := hp
            show effectiveType g _ _ = some (s.currentType.getD .empty)
            rw [hcur]
            have := hrun (s.matchStart + k) (by omega) (by omega)
            rw [hcur] at this
            simpa using this
      · rw [if_neg hrec] at hm
        exact hfound m hm

/-- The scan fold over the first `n` indices. -/
def scanPrefix (g : GridManager) (line : Int → Pos) (orient : MatchOrientation)
    (n : Nat) : ScanState :=
  ((List.range n).map (Int.ofNat)).foldl (scanStep g line orient) ⟨0, none, []⟩

theorem scanPrefix_inv (g : GridManager) (line : Int → Pos) (orient : MatchOrientation) :
    ∀ n : Nat, ScanInv g line orient (scanPrefix g line orient n) (n : Int) := by
  intro n
  induction n with
  | zero =>
    unfold scanPrefix ScanInv
    dsimp only [List.range_zero, List.map_nil, List.foldl_nil]
    refine ⟨le_refl 0, le_refl 0, ?_, ?_⟩
    · intro j h1 h2
      exact absurd h2 (by omega)
    · intro m hm
      cases hm
  | succ n ih =>
    unfold scanPrefix at ih ⊢
    rw [List.range_succ, List.map_append, List.foldl_append]
    have hstep := scanStep_inv g line orient _ (n : Int) ih
    have hcast : ((n : Int) + 1) = ((n + 1 : Nat) : Int) := by push_cast; ring
    rw [hcast] at hstep
    simpa using hstep

theorem scanLine_shape (g : GridManager) (line : Int → Pos)
    (orient : MatchOrientation) (count : Nat) :
    ∀ m ∈ scanLine g line orient count, MatchShape g line orient m := by
  have h := scanPrefix_inv g line orient (count + 1)
  exact h.2.2.2

/-- Every match of `findAllMatches` comes from a row scan or a column scan
and has the scan shape. -/
def FoundShape (g : GridManager) (m : MatchRec) : Prop :=
  (∃ y : Nat, y < g.height ∧ MatchShape g (fun i => ⟨i, (y : Int)⟩) .horizontal m) ∨
  (∃ x : Nat, x < g.width ∧ MatchShape g (fun i => ⟨(x : Int), i⟩) .vertical m)

theorem findAllMatches_shape (g : GridManager) :
    ∀ m ∈ findAllMatches g, FoundShape g m := by
  intro m hm
  unfold findAllMatches at hm
  rw [List.mem_append] at hm
  rcases hm with h | h
  · rw [List.mem_flatMap] at h
    obtain ⟨y, hy, hmem⟩ := h
    exact Or.inl ⟨y, List.mem_range.mp hy, scanLine_shape _ _ _ _ m hmem⟩
  · rw [List.mem_flatMap] at h
    obtain ⟨x, hx, hmem⟩ := h
    exact Or.inr ⟨x, List.mem_range.mp hx, scanLine_shape _ _ _ _ m hmem⟩

theorem effectiveType_eq_some {g : GridManager} {x y : Int} {tt : TileType}
    (h : effectiveType g x y = some tt) :
    ∃ t, g.getTile x y = some t ∧ t.isMatchable = true ∧ t.type = tt := by
  unfold effectiveType at h
  cases hget : g.getTile x y with
  | none => rw [hget] at h; exact Option.noConfusion h
  | some t =>
    rw [hget] at h
    dsimp only at h
    by_cases hmat : t.isMatchable
    · rw [if_pos hmat] at h
      exact ⟨t, rfl, hmat, Option.some.inj h⟩
    · rw [if_neg hmat] at h
      exact Option.noConfusion h

theorem match_tiles_matchable (g : GridManager) (m : MatchRec)
    (hm : m ∈ findAllMatches g) :
    ∀ p ∈ m.tiles, ∃ t, g.getTile p.x p.y = some t ∧ t.isMatchable = true ∧
      t.type = m.color := by
  intro p hp
  rcases findAllMatches_shape g m hm with ⟨y, _, hs⟩ | ⟨x, _, hs⟩ <;>
    exact effectiveType_eq_some (hs.2.2.2.choose_spec.2.2 p hp)

end MatchResolver

/-- C3 (amended): a tile with `locked = true` is never matchable regardless of
its type — `isMatchable` and `canSwap` are both false, and no cell holding
such a tile is ever part of a match returned by `findAllMatches`. (The
`iceLayers > 0` half of the original claim is refuted separately: a positive
ice count leaves a color tile matchable.) -/
theorem C3_locked_never_matchable (t : Tile) (hl : t.isLocked = true) :
    t.isMatchable = false ∧ t.canSwap = false ∧
    ∀ (g : GridManager) (m : MatchRec), m ∈ MatchResolver.findAllMatches g →
      ∀ p ∈ m.tiles, ¬ g.getTile p.x p.y = some t := by
  have hmf : t.isMatchable = false := by
    unfold Tile.isMatchable
    rw [hl]
    simp
  refine ⟨hmf, ?_, ?_⟩
  · unfold Tile.canSwap
    rw [hmf]
    rfl
  · intro g m hmem p hp hget
    obtain ⟨t', ht', hmat, -⟩ := MatchResolver.match_tiles_matchable g m hmem p hp
    rw [hget] at ht'
    rw [← Option.some.inj ht'] at hmat
    rw [hmf] at hmat
    exact Bool.noConfusion hmat

theorem C3_locked_never_matchable_witness :
    ({ type := .color .red, isLocked := true } : Tile).isLocked = true ∧
    ({ type := .color .red, isLocked := true } : Tile).isMatchable = false :=
  ⟨rfl, (C3_locked_never_matchable { type := .color .red, isLocked := true } rfl).1⟩

/-- The scanned line of the C6 witness: a single row `R R R R B`. -/
def gridC6w : GridManager :=
  { width := 5, height := 1,
    cells := mkCells [[tRed, tRed, tRed, tRed, tBlue]],
    tileTypes := [.red, .blue, .green] }

/-- The single (horizontal, length-4, red) match found on `gridC6w`. -/
def mC6w : MatchRec :=
  { tiles := [⟨0, 0⟩, ⟨1, 0⟩, ⟨2, 0⟩, ⟨3, 0⟩], type := .horizontal,
    length := 4, color := .color .red }

/-- C6: every match returned by `findAllMatches` has `tiles` consistent with
`length` and length ≥ 3, its floor-middle cell `tiles[⌊len/2⌋]` exists, and
`getSpecialTileForMatch` derives: length ≥ 5 → exactly one bomb at the
floor-middle cell; length = 4 → exactly one line special at the floor-middle
cell with orientation inverted relative to the run (horizontal run → vertical
clear, vertical run → horizontal clear); length < 4 (i.e. 3) → no special. -/
theorem C6_special_derivation (g : GridManager) (m : MatchRec)
    (hm : m ∈ MatchResolver.findAllMatches g) :
    (m.tiles.length : Int) = m.length ∧ MIN_MATCH ≤ m.length ∧
    ∃ c : Pos, m.tiles.get? (m.tiles.length / 2) = some c ∧
      (BOMB_COUNT ≤ m.length →
        MatchResolver.getSpecialTileForMatch m = some ⟨.bomb, c, m.color⟩) ∧
      (m.length = LINE_CLEAR_COUNT → m.type = .horizontal →
        MatchResolver.getSpecialTileForMatch m = some ⟨.lineV, c, m.color⟩) ∧
      (m.length = LINE_CLEAR_COUNT → m.type = .vertical →
        MatchResolver.getSpecialTileForMatch m = some ⟨.lineH, c, m.color⟩) ∧
      (m.length < LINE_CLEAR_COUNT →
        MatchResolver.getSpecialTileForMatch m = none) := by
  have hbase : MIN_MATCH ≤ m.length ∧ (m.tiles.length : Int) = m.length := by
    rcases MatchResolver.findAllMatches_shape g m hm with ⟨y, -, hs⟩ | ⟨x, -, hs⟩
    · exact ⟨hs.1, hs.2.2.1⟩
    · exact ⟨hs.1, hs.2.2.1⟩
  obtain ⟨hmin, hlen⟩ := hbase
  have hpos : 3 ≤ m.tiles.length := by
    unfold MIN_MATCH at hmin
    omega
  have hidx : m.tiles.length / 2 < m.tiles.length := Nat.div_lt_self (by omega) (by omega)
  refine ⟨hlen, hmin, m.tiles.get ⟨m.tiles.length / 2, hidx⟩, List.get?_eq_get hidx,
    ?_, ?_, ?_, ?_⟩
  · intro h5
    unfold MatchResolver.getSpecialTileForMatch
    rw [if_pos (show m.length ≥ BOMB_COUNT from h5)]
    dsimp only
    rw [List.get?_eq_get hidx]
    rfl
  · intro h4 hor
    unfold MatchResolver.getSpecialTileForMatch
    rw [if_neg (show ¬(m.length ≥ BOMB_COUNT) from by
      rw [h4]; unfold LINE_CLEAR_COUNT BOMB_COUNT; omega)]
    rw [if_pos (show m.length ≥ LINE_CLEAR_COUNT from le_of_eq h4.symm)]
    dsimp only
    rw [if_pos hor, List.get?_eq_get hidx]
    rfl
  · intro h4 hver
    unfold MatchResolver.getSpecialTileForMatch
    rw [if_neg (show ¬(m.length ≥ BOMB_COUNT) from by
      rw [h4]; unfold LINE_CLEAR_COUNT BOMB_COUNT; omega)]
    rw [if_pos (show m.length ≥ LINE_CLEAR_COUNT from le_of_eq h4.symm)]
    dsimp only
    rw [if_neg (show ¬(m.type = .horizontal) from by
      rw [hver]; intro h; exact MatchOrientation.noConfusion h)]
    rw [List.get?_eq_get hidx]
    rfl
  · intro h3
    unfold MatchResolver.getSpecialTileForMatch
    rw [if_neg (show ¬(m.length ≥ BOMB_COUNT) from by
      unfold LINE_CLEAR_COUNT at h3; unfold BOMB_COUNT; omega)]
    rw [if_neg (show ¬(m.length ≥ LINE_CLEAR_COUNT) from by omega)]

theorem C6_special_derivation_witness :
    MatchResolver.findAllMatches gridC6w = [mC6w] ∧
    MatchResolver.getSpecialTileForMatch mC6w =
      some ⟨.lineV, ⟨2, 0⟩, .color .red⟩ := by
  refine ⟨by decide, ?_⟩
  obtain ⟨-, -, c, hc, -, h4, -, -⟩ :=
    C6_special_derivation gridC6w mC6w (by decide)
  have hc2 : c = ⟨2, 0⟩ := by
    rw [(show mC6w.tiles.get? (mC6w.tiles.length / 2) = some ⟨2, 0⟩ from by decide)] at hc
    exact (Option.some.inj hc).symm
  rw [h4 (by decide) (by decide), hc2]
  rfl

namespace GridManager

theorem if_length_ne_nil {α : Type} (tt L : List α) (h : tt ≠ []) :
    (if L.length > 0 then L else tt) ≠ [] := by
  split
  · exact List.ne_nil_of_length_pos (by omega)
  · exact h

theorem spawnCandidates_ne_nil (g : GridManager) (x y : Int) (tt : List Color)
    (h : tt ≠ []) : g.spawnCandidates x y tt ≠ [] := by
  unfold spawnCandidates
  dsimp only
  exact if_length_ne_nil tt _ h

theorem createNonMatchingTile_mem (g : GridManager) (x y : Int) (tt : List Color)
    (r : Nat) (h : tt ≠ []) :
    ∃ c ∈ g.spawnCandidates x y tt,
      g.createNonMatchingTile x y tt r = Tile.new (.color c) := by
  have hne := g.spawnCandidates_ne_nil x y tt h
  have hlen : 0 < (g.spawnCandidates x y tt).length := List.length_pos.mpr hne
  have hmod : r % (g.spawnCandidates x y tt).length <
      (g.spawnCandidates x y tt).length := Nat.mod_lt _ hlen
  refine ⟨(g.spawnCandidates x y tt).get ⟨_, hmod⟩, List.get_mem _ _ _, ?_⟩
  unfold createNonMatchingTile
  dsimp only
  rw [List.get?_eq_get hmod]
  rfl

theorem excl_finisher (tt : List Color) (ex : Color) (hN : tt.Nodup)
    (h3 : 3  ≤ tt.length) :
    (ex ∉ if (tt.erase ex).length > 0 then tt.erase ex else tt) ∧
    ∀ c : Color,
      ex ∉ if ((tt.erase ex).erase c).length > 0 then (tt.erase ex).erase c
           else tt := by
  have hmem1 : ex ∉ tt.erase ex := fun hmem =>
    ((hN.mem_erase_iff).mp hmem).1 rfl
  have hlen1 : tt.length - 1 ≤ (tt.erase ex).length := by
    by_cases hm : ex ∈ tt
    · rw [List.length_erase_of_mem hm]
    · rw [List.erase_of_not_mem hm]; omega
  refine ⟨?_, ?_⟩
  · rw [if_pos (by omega)]
    exact hmem1
  · intro c
    have hmem2 : ex ∉ (tt.erase ex).erase c := fun hmem =>
      hmem1 (List.erase_subset _ _ hmem)
    have hlen2 : (tt.erase ex).length - 1 ≤ ((tt.erase ex).erase c).length := by
      by_cases hm : c ∈ tt.erase ex
      · rw [List.length_erase_of_mem hm]
      · rw [List.erase_of_not_mem hm]; omega
    rw [if_pos (by omega)]
    exact hmem2

theorem spawnCandidates_excl_left (g : GridManager) (x y : Int) (tt : List Color)
    (ex : Color) (l1 l2 : Tile) (hN : tt.Nodup) (h3 : 3 ≤ tt.length)
    (hx : 2 ≤ x)
    (h1 : g.cellAt (x - 1) y = some l1) (h2 : g.cellAt (x - 2) y = some l2)
    (ht1 : l1.type = .color ex) (ht2 : l2.type = .color ex)
    (hm : l1.isMatchable = true) :
    ex ∉ g.spawnCandidates x y tt := by
  unfold spawnCandidates
  dsimp only
  rw [if_pos (show x ≥ 2 from hx), h1, h2]
  dsimp only
  rw [if_pos (show l1.type = l2.type ∧ l1.isMatchable = true from
    ⟨by rw [ht1, ht2], hm⟩)]
  rw [ht1]
  dsimp only
  by_cases hy : y ≥ 2
  · rw [if_pos hy]
    rcases hv1 : g.cellAt x (y - 1) with - | t1 <;>
      rcases hv2 : g.cellAt x (y - 2) with - | t2
    · exact (excl_finisher tt ex hN h3).1
    · exact (excl_finisher tt ex hN h3).1
    · exact (excl_finisher tt ex hN h3).1
    · dsimp only
      by_cases hc : t1.type = t2.type ∧ t1.isMatchable = true
      · rw [if_pos hc]
        rcases htt : t1.type with - | c | - | - | - | - | -
        · exact (excl_finisher tt ex hN h3).1
        · exact (excl_finisher tt ex hN h3).2 c
        · exact (excl_finisher tt ex hN h3).1
        · exact (excl_finisher tt ex hN h3).1
        · exact (excl_finisher tt ex hN h3).1
        · exact (excl_finisher tt ex hN h3).1
        · exact (excl_finisher tt ex hN h3).1
      · rw [if_neg hc]
        exact (excl_finisher tt ex hN h3).1
  · rw [if_neg hy]
    exact (excl_finisher tt ex hN h3).1

end GridManager

namespace GridManager

theorem excl_finisher_top (tt : List Color) (ex : Color) (hN : tt.Nodup)
    (h3 : 3 ≤ tt.length) :
    (ex ∉ if (tt.erase ex).length > 0 then tt.erase ex else tt) ∧
    ∀ c : Color,
      ex ∉ if ((tt.erase c).erase ex).length > 0 then (tt.erase c).erase ex
           else tt := by
  refine ⟨(excl_finisher tt ex hN h3).1, ?_⟩
  intro c
  have hN' : (tt.erase c).Nodup := hN.erase c
  have hmem : ex ∉ (tt.erase c).erase ex := fun hm =>
    (hN'.mem_erase_iff.mp hm).1 rfl
  have hlc : tt.length - 1 ≤ (tt.erase c).length := by
    by_cases hm : c ∈ tt
    · rw [List.length_erase_of_mem hm]
    · rw [List.erase_of_not_mem hm]; omega
  have hl2 : (tt.erase c).length - 1 ≤ ((tt.erase c).erase ex).length := by
    by_cases hm : ex ∈ tt.erase c
    · rw [List.length_erase_of_mem hm]
    · rw [List.erase_of_not_mem hm]; omega
  rw [if_pos (by omega)]
  exact hmem

theorem spawnCandidates_excl_top (g : GridManager) (x y : Int) (tt : List Color)
    (ex : Color) (t1 t2 : Tile) (hN : tt.Nodup) (h3 : 3 ≤ tt.length)
    (hy : 2 ≤ y)
    (h1 : g.cellAt x (y - 1) = some t1) (h2 : g.cellAt x (y - 2) = some t2)
    (ht1 : t1.type = .color ex) (ht2 : t2.type = .color ex)
    (hm : t1.isMatchable = true) :
    ex ∉ g.spawnCandidates x y tt := by
  unfold spawnCandidates
  dsimp only
  rw [if_pos (show y ≥ 2 from hy), h1, h2]
  dsimp only
  rw [if_pos (show t1.type = t2.type ∧ t1.isMatchable = true from
    ⟨by rw [ht1, ht2], hm⟩), ht1]
  dsimp only
  by_cases hx : x ≥ 2
  · rw [if_pos hx]
    rcases hv1 : g.cellAt (x - 1) y with - | l1 <;>
      rcases hv2 : g.cellAt (x - 2) y with - | l2
    · exact (excl_finisher_top tt ex hN h3).1
    · exact (excl_finisher_top tt ex hN h3).1
    · exact (excl_finisher_top tt ex hN h3).1
    · dsimp only
      by_cases hc : l1.type = l2.type ∧ l1.isMatchable = true
      · rw [if_pos hc]
        rcases htt : l1.type with - | c | - | - | - | - | -
        · exact (excl_finisher_top tt ex hN h3).1
        · exact (excl_finisher_top tt ex hN h3).2 c
        · exact (excl_finisher_top tt ex hN h3).1
        · exact (excl_finisher_top tt ex hN h3).1
        · exact (excl_finisher_top tt ex hN h3).1
        · exact (excl_finisher_top tt ex hN h3).1
        · exact (excl_finisher_top tt ex hN h3).1
      · rw [if_neg hc]
        exact (excl_finisher_top tt ex hN h3).1
  · rw [if_neg hx]
    exact (excl_finisher_top tt ex hN h3).1

end GridManager

/-- C7 (amended): `spawnNewTiles`'s per-cell body fills a non-fixed empty cell
via `createNonMatchingTile`, i.e. with the same spawn-time match-avoidance as
grid initialization: the spawned color is always drawn from the candidate
list `spawnCandidates` (the palette minus the colors excluded by the
two-left / two-above same-color checks, falling back to the full palette only
when the exclusions empty the list), so a color absent from the candidate
list is not a possible outcome; and under a duplicate-free palette of at
least 3 colors, a color forming a matchable same-colored pair in the two
cells to the left, or in the two cells above, is excluded from the
candidates. -/
theorem C7_spawn_match_avoidance (st : GravitySystem.SpawnState) (p : Pos)
    (tileTypes : List Color) (rnd : Nat → Nat) (t : Tile)
    (hne : tileTypes ≠ [])
    (hfix : GravitySystem.isPositionFixed st.grid p.x p.y = false)
    (hget : st.grid.getTile p.x p.y = some t) (hemp : t.isEmptyTile = true) :
    (GravitySystem.spawnStep tileTypes rnd st p).grid =
      st.grid.setTile p.x p.y
        (st.grid.createNonMatchingTile p.x p.y tileTypes (rnd st.k)) ∧
    (GravitySystem.spawnStep tileTypes rnd st p).newTiles =
      st.newTiles ++ [⟨p.x, p.y,
        st.grid.createNonMatchingTile p.x p.y tileTypes (rnd st.k)⟩] ∧
    (∃ c ∈ st.grid.spawnCandidates p.x p.y tileTypes,
      st.grid.createNonMatchingTile p.x p.y tileTypes (rnd st.k) =
        Tile.new (.color c)) ∧
    (∀ (ex : Color) (r : Nat), ex ∉ st.grid.spawnCandidates p.x p.y tileTypes →
      st.grid.createNonMatchingTile p.x p.y tileTypes r ≠
        Tile.new (.color ex)) ∧
    (∀ (ex : Color) (l1 l2 : Tile), tileTypes.Nodup → 3 ≤ tileTypes.length →
      2 ≤ p.x → st.grid.cellAt (p.x - 1) p.y = some l1 →
      st.grid.cellAt (p.x - 2) p.y = some l2 →
      l1.type = .color ex → l2.type = .color ex → l1.isMatchable = true →
      ex ∉ st.grid.spawnCandidates p.x p.y tileTypes) ∧
    (∀ (ex : Color) (t1 t2 : Tile), tileTypes.Nodup → 3 ≤ tileTypes.length →
      2 ≤ p.y → st.grid.cellAt p.x (p.y - 1) = some t1 →
      st.grid.cellAt p.x (p.y - 2) = some t2 →
      t1.type = .color ex → t2.type = .color ex → t1.isMatchable = true →
      ex ∉ st.grid.spawnCandidates p.x p.y tileTypes) := by
  have hstep : GravitySystem.spawnStep tileTypes rnd st p =
      { grid := st.grid.setTile p.x p.y
          (st.grid.createNonMatchingTile p.x p.y tileTypes (rnd st.k)),
        newTiles := st.newTiles ++ [⟨p.x, p.y,
          st.grid.createNonMatchingTile p.x p.y tileTypes (rnd st.k)⟩],
        k := st.k + 1 } := by
    unfold GravitySystem.spawnStep
    rw [if_neg (show ¬(GravitySystem.isPositionFixed st.grid p.x p.y = true)
      from by rw [hfix]; exact Bool.false_ne_true)]
    rw [hget]
    dsimp only
    rw [if_pos hemp]
  refine ⟨by rw [hstep], by rw [hstep],
    st.grid.createNonMatchingTile_mem p.x p.y tileTypes (rnd st.k) hne,
    ?_,
    fun ex l1 l2 hN h3 hx h1 h2 ht1 ht2 hm =>
      st.grid.spawnCandidates_excl_left p.x p.y tileTypes ex l1 l2 hN h3 hx
        h1 h2 ht1 ht2 hm,
    fun ex t1 t2 hN h3 hy h1 h2 ht1 ht2 hm =>
      st.grid.spawnCandidates_excl_top p.x p.y tileTypes ex t1 t2 hN h3 hy
        h1 h2 ht1 ht2 hm⟩
  intro ex r hnot heq
  obtain ⟨c, hc, hcEq⟩ := st.grid.createNonMatchingTile_mem p.x p.y tileTypes r hne
  rw [hcEq] at heq
  have h4 : TileType.color c = TileType.color ex := congrArg Tile.type heq
  have h5 : c = ex := by injection h4
  rw [h5] at hc
  exact hnot hc

/-- Spawn state of the C7 witness: grid `R R E`, fresh accumulator. -/
def stC7w : GravitySystem.SpawnState := { grid := gridC7, newTiles := [], k := 0 }

theorem C7_spawn_match_avoidance_witness :
    GravitySystem.isPositionFixed stC7w.grid 2 0 = false ∧
    stC7w.grid.getTile 2 0 = some (Tile.new .empty) ∧
    (GravitySystem.spawnStep [.red, .blue, .green] (fun _ => 0) stC7w
      ⟨2, 0⟩).grid =
      stC7w.grid.setTile 2 0
        (stC7w.grid.createNonMatchingTile 2 0 [.red, .blue, .green] 0) := by
  refine ⟨by decide, by decide, ?_⟩
  exact (C7_spawn_match_avoidance stC7w ⟨2, 0⟩ [.red, .blue, .green]
    (fun _ => 0) (Tile.new .empty) (by decide) (by decide) (by decide)
    (by decide)).1

namespace GridManager

theorem getTile_some_valid {g : GridManager} {x y : Int} {t : Tile}
    (h : g.getTile x y = some t) : g.isValidPosition x y = true := by
  unfold getTile at h
  by_cases hv : g.isValidPosition x y
  · exact hv
  · rw [if_neg hv] at h
    exact Option.noConfusion h

theorem getTile_setCell_ne (g : GridManager) (x y a b : Int) (t : Option Tile)
    (h : ¬(a = x ∧ b = y)) :
    (g.setCell x y t).getTile a b = g.getTile a b := by
  unfold getTile
  rw [isValidPosition_setCell, cellAt_setCell_ne g x y a b t h]

theorem getTile_setCell_valid (g : GridManager) (x y : Int) (t : Option Tile)
    (hwf : g.WellFormed) (hv : g.isValidPosition x y = true) :
    (g.setCell x y t).getTile x y = t := by
  unfold getTile
  rw [isValidPosition_setCell, if_pos hv, cellAt_setCell_valid g x y t hwf hv]

theorem setTile_width (g : GridManager) (x y : Int) (t : Tile) :
    (g.setTile x y t).width = g.width := by
  unfold setTile
  split
  · rw [setCell_width]
  · rfl

theorem setTile_height (g : GridManager) (x y : Int) (t : Tile) :
    (g.setTile x y t).height = g.height := by
  unfold setTile
  split
  · rw [setCell_height]
  · rfl

theorem setTile_tileTypes (g : GridManager) (x y : Int) (t : Tile) :
    (g.setTile x y t).tileTypes = g.tileTypes := by
  unfold setTile
  split
  · rw [setCell_tileTypes]
  · rfl

theorem setTile_exitPosition (g : GridManager) (x y : Int) (t : Tile) :
    (g.setTile x y t).exitPosition = g.exitPosition := by
  unfold setTile
  split
  · rw [setCell_exitPosition]
  · rfl

theorem setTile_characterPosition (g : GridManager) (x y : Int) (t : Tile) :
    (g.setTile x y t).characterPosition = g.characterPosition := by
  unfold setTile
  split
  · rw [setCell_characterPosition]
  · rfl

theorem WellFormed.setTile {g : GridManager} (hwf : g.WellFormed) (x y : Int)
    (t : Tile) : (g.setTile x y t).WellFormed := by
  unfold GridManager.setTile
  split
  · exact hwf.setCell x y _
  · exact hwf

theorem getTile_setTile_ne (g : GridManager) (x y a b : Int) (t : Tile)
    (h : ¬(a = x ∧ b = y)) :
    (g.setTile x y t).getTile a b = g.getTile a b := by
  unfold setTile
  split
  · exact getTile_setCell_ne g x y a b (some t) h
  · rfl

theorem getTile_setTile_valid (g : GridManager) (x y : Int) (t : Tile)
    (hwf : g.WellFormed) (hv : g.isValidPosition x y = true) :
    (g.setTile x y t).getTile x y = some t := by
  unfold setTile
  rw [if_pos hv]
  exact getTile_setCell_valid g x y (some t) hwf hv

theorem isValidPosition_setTile (g : GridManager) (x y a b : Int) (t : Tile) :
    (g.setTile x y t).isValidPosition a b = g.isValidPosition a b := by
  unfold isValidPosition
  rw [setTile_width, setTile_height]

end GridManager

namespace MatchResolver

/-- Relation between a grid and its image under an in-round mutation that may
relock/unlock cells but not add, remove or decrement them: dimensions,
landmarks, and each cell's presence and ice count are preserved. -/
def IcePres (g g' : GridManager) : Prop :=
  (g.WellFormed → g'.WellFormed) ∧ g'.width = g.width ∧ g'.height = g.height ∧
  g'.characterPosition = g.characterPosition ∧
  g'.exitPosition = g.exitPosition ∧ g'.tileTypes = g.tileTypes ∧
  ∀ a b : Int, (g'.getTile a b).map Tile.iceLayer =
    (g.getTile a b).map Tile.iceLayer

theorem icePres_refl (g : GridManager) : IcePres g g :=
  ⟨id, rfl, rfl, rfl, rfl, rfl, fun _ _ => rfl⟩

theorem icePres_trans {g1 g2 g3 : GridManager} (h12 : IcePres g1 g2)
    (h23 : IcePres g2 g3) : IcePres g1 g3 :=
  ⟨fun h => h23.1 (h12.1 h), h23.2.1.trans h12.2.1, h23.2.2.1.trans h12.2.2.1,
   h23.2.2.2.1.trans h12.2.2.2.1, h23.2.2.2.2.1.trans h12.2.2.2.2.1,
   h23.2.2.2.2.2.1.trans h12.2.2.2.2.2.1,
   fun a b => (h23.2.2.2.2.2.2 a b).trans (h12.2.2.2.2.2.2 a b)⟩

theorem icePres_unlock_step (g : GridManager) (hwf : g.WellFormed) (nx ny : Int) :
    IcePres g (match g.getTile nx ny with
               | some t => if t.isLocked then g.setCell nx ny (some t.unlock) else g
               | none => g) := by
  rcases hget : g.getTile nx ny with - | t
  · exact icePres_refl g
  · dsimp only
    by_cases hl : t.isLocked = true
    · rw [if_pos hl]
      have hv := GridManager.getTile_some_valid hget
      refine ⟨fun h => h.setCell nx ny _, GridManager.setCell_width _ _ _ _,
        GridManager.setCell_height _ _ _ _,
        GridManager.setCell_characterPosition _ _ _ _,
        GridManager.setCell_exitPosition _ _ _ _,
        GridManager.setCell_tileTypes _ _ _ _, ?_⟩
      intro a b
      by_cases hab : a = nx ∧ b = ny
      · obtain ⟨h1, h2⟩ := hab
        subst h1
        subst h2
        rw [GridManager.getTile_setCell_valid g _ _ _ hwf hv, hget]
        rfl
      · rw [GridManager.getTile_setCell_ne g _ _ _ _ _ hab]
    · rw [if_neg hl]
      exact icePres_refl g

theorem icePres_unlock_fold (x y : Int) :
    ∀ (ds : List (Int × Int)) (g : GridManager), g.WellFormed →
      IcePres g (ds.foldl (fun g d =>
        let nx := x + d.1
        let ny := y + d.2
        match g.getTile nx ny with
        | some t => if t.isLocked then g.setCell nx ny (some t.unlock) else g
        | none => g) g) := by
  intro ds
  induction ds with
  | nil => exact fun g _ => icePres_refl g
  | cons d ds ih =>
    intro g hwf
    rw [List.foldl_cons]
    have hstep := icePres_unlock_step g hwf (x + d.1) (y + d.2)
    exact icePres_trans hstep (ih _ (hstep.1 hwf))

theorem unlockAdjacentTiles_icePres (g : GridManager) (hwf : g.WellFormed)
    (x y : Int) : IcePres g (unlockAdjacentTiles g x y) := by
  unfold unlockAdjacentTiles
  exact icePres_unlock_fold x y GridManager.DIRECTIONS g hwf

end MatchResolver

namespace MatchResolver

/-- Invariant tracked through the `processMatches` fold for one fixed matched
cell `p` whose tile entered the round with `n > 0` ice layers: before `p` is
processed its ice count is untouched and it is uncleared; after, the count is
decremented exactly once, and `p` is cleared in this round iff `n = 1`. -/
def IceInv (p : Pos) (n : Nat) (st : ProcessState) : Prop :=
  st.grid.WellFormed ∧
  (if p ∈ st.processed then
     (st.grid.getTile p.x p.y).map Tile.iceLayer = some (n - 1) ∧
     (2 ≤ n → p ∉ st.clearedPositions) ∧
     (n = 1 → p ∈ st.clearedPositions)
   else
     (st.grid.getTile p.x p.y).map Tile.iceLayer = some n ∧
     p ∉ st.clearedPositions)

theorem pos_ne_coords {p q : Pos} (h : ¬p = q) : ¬(p.x = q.x ∧ p.y = q.y) := by
  intro ⟨h1, h2⟩
  cases p
  cases q
  cases h1
  cases h2
  exact h rfl

theorem iceInv_processTilePos (p : Pos) (n : Nat) (hn : 0 < n)
    (st : ProcessState) (q : Pos) (h : IceInv p n st) :
    IceInv p n (processTilePos st q) := by
  obtain ⟨hwf, hrest⟩ := h
  unfold processTilePos
  by_cases hq : q ∈ st.processed
  · rw [if_pos hq]
    exact ⟨hwf, hrest⟩
  · rw [if_neg hq]
    dsimp only
    by_cases hpq : p = q
    · subst hpq
      rw [if_neg hq] at hrest
      obtain ⟨hice, hclr⟩ := hrest
      rcases hget : st.grid.getTile p.x p.y with - | tile
      · rw [hget] at hice
        exact Option.noConfusion hice
      · rw [hget] at hice
        have hti : tile.iceLayer = n := Option.some.inj hice
        have hv := GridManager.getTile_some_valid hget
        have hmemP : p ∈ st.processed ++ [p] :=
          List.mem_append_right _ (List.mem_singleton.mpr rfl)
        dsimp only
        rw [if_pos (show tile.iceLayer > 0 from by omega)]
        have htile' : tile.removeIceLayer.iceLayer = n - 1 := by
          unfold Tile.removeIceLayer
          rw [if_pos (show tile.iceLayer > 0 from by omega)]
          dsimp only
          omega
        by_cases h2 : 2 ≤ n
        · rw [if_pos (show tile.removeIceLayer.iceLayer > 0 from by omega)]
          refine ⟨hwf.setCell _ _ _, ?_⟩
          rw [if_pos hmemP]
          refine ⟨?_, fun _ => hclr, fun h1 => absurd h1 (by omega)⟩
          rw [GridManager.getTile_setCell_valid st.grid _ _ _ hwf hv]
          exact congrArg some htile'
        · rw [if_neg (show ¬(tile.removeIceLayer.iceLayer > 0) from by omega)]
          have hpres := unlockAdjacentTiles_icePres
            (st.grid.setCell p.x p.y (some tile.removeIceLayer))
            (hwf.setCell _ _ _) p.x p.y
          refine ⟨hpres.1 (hwf.setCell _ _ _), ?_⟩
          rw [if_pos hmemP]
          refine ⟨?_, fun hh => absurd hh (by omega), fun _ =>
            List.mem_append_right _ (List.mem_singleton.mpr rfl)⟩
          rw [hpres.2.2.2.2.2.2 p.x p.y,
            GridManager.getTile_setCell_valid st.grid _ _ _ hwf hv]
          exact congrArg some htile'
    · have hco := pos_ne_coords hpq
      have hmm : (p ∈ st.processed ++ [q]) ↔ p ∈ st.processed := by
        simp only [List.mem_append, List.mem_singleton]
        constructor
        · rintro (hh | hh)
          · exact hh
          · exact absurd hh hpq
        · exact Or.inl
      have hcl : ∀ L : List Pos, (p ∈ L ++ [q]) ↔ p ∈ L := by
        intro L
        simp only [List.mem_append, List.mem_singleton]
        constructor
        · rintro (hh | hh)
          · exact hh
          · exact absurd hh hpq
        · exact Or.inl
      rcases hget : st.grid.getTile q.x q.y with - | tile
      · refine ⟨hwf, ?_⟩
        by_cases hp : p ∈ st.processed
        · rw [if_pos (hmm.mpr hp)]
          rw [if_pos hp] at hrest
          exact hrest
        · rw [if_neg (fun hh => hp (hmm.mp hh))]
          rw [if_neg hp] at hrest
          exact hrest
      · have hv := GridManager.getTile_some_valid hget
        dsimp only
        by_cases h1 : tile.iceLayer > 0
        · rw [if_pos h1]
          by_cases h2 : tile.removeIceLayer.iceLayer > 0
          · rw [if_pos h2]
            refine ⟨hwf.setCell _ _ _, ?_⟩
            have hgp : (st.grid.setCell q.x q.y
                (some tile.removeIceLayer)).getTile p.x p.y =
                st.grid.getTile p.x p.y :=
              GridManager.getTile_setCell_ne st.grid _ _ _ _ _ hco
            by_cases hp : p ∈ st.processed
            · rw [if_pos (hmm.mpr hp)]
              rw [if_pos hp] at hrest
              rw [hgp]
              exact hrest
            · rw [if_neg (fun hh => hp (hmm.mp hh))]
              rw [if_neg hp] at hrest
              rw [hgp]
              exact hrest
          · rw [if_neg h2]
            have hpres := unlockAdjacentTiles_icePres
              (st.grid.setCell q.x q.y (some tile.removeIceLayer))
              (hwf.setCell _ _ _) q.x q.y
            have hgp : ((unlockAdjacentTiles
                (st.grid.setCell q.x q.y (some tile.removeIceLayer))
                q.x q.y).getTile p.x p.y).map Tile.iceLayer =
                (st.grid.getTile p.x p.y).map Tile.iceLayer := by
              rw [hpres.2.2.2.2.2.2 p.x p.y,
                GridManager.getTile_setCell_ne st.grid _ _ _ _ _ hco]
            refine ⟨hpres.1 (hwf.setCell _ _ _), ?_⟩
            by_cases hp : p ∈ st.processed
            · rw [if_pos (hmm.mpr hp)]
              rw [if_pos hp] at hrest
              exact ⟨hgp.trans hrest.1, fun hh hmem =>
                hrest.2.1 hh ((hcl _).mp hmem), fun hh =>
                List.mem_append_left _ (hrest.2.2 hh)⟩
            · rw [if_neg (fun hh => hp (hmm.mp hh))]
              rw [if_neg hp] at hrest
              exact ⟨hgp.trans hrest.1, fun hmem => hrest.2 ((hcl _).mp hmem)⟩
        · rw [if_neg h1]
          have hpres := unlockAdjacentTiles_icePres st.grid hwf q.x q.y
          refine ⟨hpres.1 hwf, ?_⟩
          have hgp : ((unlockAdjacentTiles st.grid q.x q.y).getTile
              p.x p.y).map Tile.iceLayer =
              (st.grid.getTile p.x p.y).map Tile.iceLayer :=
            hpres.2.2.2.2.2.2 p.x p.y
          by_cases hp : p ∈ st.processed
          · rw [if_pos (hmm.mpr hp)]
            rw [if_pos hp] at hrest
            exact ⟨hgp.trans hrest.1, fun hh hmem =>
              hrest.2.1 hh ((hcl _).mp hmem), fun hh =>
              List.mem_append_left _ (hrest.2.2 hh)⟩
          · rw [if_neg (fun hh => hp (hmm.mp hh))]
            rw [if_neg hp] at hrest
            exact ⟨hgp.trans hrest.1, fun hmem => hrest.2 ((hcl _).mp hmem)⟩

end MatchResolver

namespace MatchResolver

theorem processTilePos_processed_mono (st : ProcessState) (q : Pos) :
    st.processed ⊆ (processTilePos st q).processed := by
  unfold processTilePos
  by_cases hq : q ∈ st.processed
  · rw [if_pos hq]
    exact fun a h => h
  · rw [if_neg hq]
    dsimp only
    rcases hget : st.grid.getTile q.x q.y with - | tile
    · exact fun a h => List.mem_append_left _ h
    · dsimp only
      by_cases h1 : tile.iceLayer > 0
      · rw [if_pos h1]
        by_cases h2 : tile.removeIceLayer.iceLayer > 0
        · rw [if_pos h2]
          exact fun a h => List.mem_append_left _ h
        · rw [if_neg h2]
          exact fun a h => List.mem_append_left _ h
      · rw [if_neg h1]
        exact fun a h => List.mem_append_left _ h

theorem processTilePos_self_processed (st : ProcessState) (q : Pos) :
    q ∈ (processTilePos st q).processed := by
  unfold processTilePos
  by_cases hq : q ∈ st.processed
  · rw [if_pos hq]
    exact hq
  · rw [if_neg hq]
    dsimp only
    have hm : q ∈ st.processed ++ [q] :=
      List.mem_append_right _ (List.mem_singleton.mpr rfl)
    rcases hget : st.grid.getTile q.x q.y with - | tile
    · exact hm
    · dsimp only
      by_cases h1 : tile.iceLayer > 0
      · rw [if_pos h1]
        by_cases h2 : tile.removeIceLayer.iceLayer > 0
        · rw [if_pos h2]
          exact hm
        · rw [if_neg h2]
          exact hm
      · rw [if_neg h1]
        exact hm

theorem iceInv_foldTiles (p : Pos) (n : Nat) (hn : 0 < n) :
    ∀ (ts : List Pos) (st : ProcessState), IceInv p n st →
      IceInv p n (ts.foldl processTilePos st) ∧
      ((p ∈ ts ∨ p ∈ st.processed) →
        p ∈ (ts.foldl processTilePos st).processed) := by
  intro ts
  induction ts with
  | nil =>
    intro st h
    refine ⟨h, ?_⟩
    rintro (hh | hh)
    · exact absurd hh (List.not_mem_nil p)
    · exact hh
  | cons q ts ih =>
    intro st h
    rw [List.foldl_cons]
    have hstep := iceInv_processTilePos p n hn st q h
    obtain ⟨hinv, hproc⟩ := ih (processTilePos st q) hstep
    refine ⟨hinv, ?_⟩
    rintro (hh | hh)
    · rcases List.mem_cons.mp hh with hh | hh
      · subst hh
        exact hproc (Or.inr (processTilePos_self_processed st p))
      · exact hproc (Or.inl hh)
    · exact hproc (Or.inr (processTilePos_processed_mono st q hh))

theorem iceInv_processMatch (p : Pos) (n : Nat) (hn : 0 < n)
    (st : ProcessState) (m : MatchRec) (h : IceInv p n st) :
    IceInv p n (processMatch st m) ∧
    ((p ∈ m.tiles ∨ p ∈ st.processed) → p ∈ (processMatch st m).processed) := by
  unfold processMatch
  rcases hs : getSpecialTileForMatch m with - | s
  · dsimp only
    exact iceInv_foldTiles p n hn m.tiles st h
  · dsimp only
    have h' : IceInv p n { st with specialTiles := st.specialTiles ++ [s] } := by
      unfold IceInv at h ⊢
      dsimp only
      exact h
    exact iceInv_foldTiles p n hn m.tiles _ h'

theorem iceInv_foldMatches (p : Pos) (n : Nat) (hn : 0 < n) :
    ∀ (ms : List MatchRec) (st : ProcessState), IceInv p n st →
      IceInv p n (ms.foldl processMatch st) ∧
      (((∃ m ∈ ms, p ∈ m.tiles) ∨ p ∈ st.processed) →
        p ∈ (ms.foldl processMatch st).processed) := by
  intro ms
  induction ms with
  | nil =>
    intro st h
    refine ⟨h, ?_⟩
    rintro (⟨m, hm, -⟩ | hh)
    · exact absurd hm (List.not_mem_nil m)
    · exact hh
  | cons m ms ih =>
    intro st h
    rw [List.foldl_cons]
    obtain ⟨hstep, hproc1⟩ := iceInv_processMatch p n hn st m h
    obtain ⟨hinv, hproc⟩ := ih (processMatch st m) hstep
    refine ⟨hinv, ?_⟩
    rintro (⟨m', hm', hp'⟩ | hh)
    · rcases List.mem_cons.mp hm' with hh | hh
      · subst hh
        exact hproc (Or.inr (hproc1 (Or.inl hp')))
      · exact hproc (Or.inl ⟨m', hh, hp'⟩)
    · exact hproc (Or.inr (hproc1 (Or.inr hh)))

end MatchResolver

/-- C5 (amended): in `processMatches`, a matched cell whose tile has
`iceLayers = n > 0` at the start of the round has its ice count decremented
by exactly one; it is withheld from the returned cleared positions only when
ice remains (`n ≥ 2`), while a cell starting at `n = 1` is decremented to
zero and IS included in the cleared positions of the same round. -/
theorem C5_ice_decrement (g : GridManager) (ms : List MatchRec) (p : Pos)
    (t : Tile) (hwf : g.WellFormed)
    (hmem : ∃ m ∈ ms, p ∈ m.tiles)
    (hget : g.getTile p.x p.y = some t) (hice : 0 < t.iceLayer) :
    ((MatchResolver.processMatches g ms).grid.getTile p.x p.y).map
        Tile.iceLayer = some (t.iceLayer - 1) ∧
    (2 ≤ t.iceLayer →
      p ∉ (MatchResolver.processMatches g ms).clearedPositions) ∧
    (t.iceLayer = 1 →
      p ∈ (MatchResolver.processMatches g ms).clearedPositions) := by
  have h0 : MatchResolver.IceInv p t.iceLayer
      { clearedPositions := [], specialTiles := [], processed := [], grid := g } := by
    unfold MatchResolver.IceInv
    dsimp only
    rw [if_neg (List.not_mem_nil p)]
    refine ⟨hwf, ?_, List.not_mem_nil p⟩
    rw [hget]
    rfl
  obtain ⟨hinv, hproc⟩ :=
    MatchResolver.iceInv_foldMatches p t.iceLayer hice ms _ h0
  have hp : p ∈ (MatchResolver.processMatches g ms).processed := by
    unfold MatchResolver.processMatches
    exact hproc (Or.inl hmem)
  unfold MatchResolver.processMatches at hp ⊢
  obtain ⟨-, hrest⟩ := hinv
  rw [if_pos hp] at hrest
  exact hrest

theorem C5_ice_decrement_witness :
    gridC5.getTile 0 0 = some tRedIce1 ∧ tRedIce1.iceLayer = 1 ∧
    ((MatchResolver.processMatches gridC5 [mC5]).grid.getTile 0 0).map
        Tile.iceLayer = some 0 ∧
    (⟨0, 0⟩ : Pos) ∈ (MatchResolver.processMatches gridC5 [mC5]).clearedPositions := by
  obtain ⟨h1, -, h3⟩ := C5_ice_decrement gridC5 [mC5] ⟨0, 0⟩ tRedIce1
    (by constructor <;> decide) ⟨mC5, by decide, by decide⟩ (by decide) (by decide)
  exact ⟨by decide, by decide, h1, h3 (by decide)⟩

namespace GravitySystem

/-- Grid fields never touched by gravity or spawn cell writes. -/
def GPres (g g' : GridManager) : Prop :=
  g'.width = g.width ∧ g'.height = g.height ∧ g'.tileTypes = g.tileTypes ∧
  g'.exitPosition = g.exitPosition ∧ g'.characterPosition = g.characterPosition

theorem gpres_refl (g : GridManager) : GPres g g := ⟨rfl, rfl, rfl, rfl, rfl⟩

theorem gpres_trans {g1 g2 g3 : GridManager} (h12 : GPres g1 g2)
    (h23 : GPres g2 g3) : GPres g1 g3 :=
  ⟨h23.1.trans h12.1, h23.2.1.trans h12.2.1, h23.2.2.1.trans h12.2.2.1,
   h23.2.2.2.1.trans h12.2.2.2.1, h23.2.2.2.2.trans h12.2.2.2.2⟩

theorem gpres_setTile (g : GridManager) (x y : Int) (t : Tile) :
    GPres g (g.setTile x y t) :=
  ⟨GridManager.setTile_width g x y t, GridManager.setTile_height g x y t,
   GridManager.setTile_tileTypes g x y t, GridManager.setTile_exitPosition g x y t,
   GridManager.setTile_characterPosition g x y t⟩

theorem gpres_setEmpty (g : GridManager) (x y : Int) :
    GPres g (g.setEmpty x y) := gpres_setTile g x y (Tile.new .empty)

theorem matchable_kind {t : Tile} (h : t.isMatchable = true) :
    t.isExitTile = false ∧ t.isBlocker = false ∧ t.isEmptyTile = false ∧
    t.isCharacterTile = false := by
  unfold Tile.isMatchable at h
  unfold Tile.isExitTile Tile.isBlocker Tile.isEmptyTile Tile.isCharacterTile
  rcases ht : t.type with - | c | - | - | - | - | - <;> rw [ht] at h <;>
    simp_all

theorem fixed_tile_isPositionFixed {g : GridManager} {x y : Int} {t : Tile}
    (hget : g.getTile x y = some t)
    (hfix : t.isExitTile = true ∨ t.isBlocker = true) :
    isPositionFixed g x y = true := by
  unfold isPositionFixed
  rw [hget]
  dsimp only
  rcases hfix with h | h <;> rw [h] <;>
    simp [Bool.or_true, Bool.true_or]

theorem char_isPositionFixed {g : GridManager} {cp : Pos}
    (hchar : g.characterPosition = some cp) :
    isPositionFixed g cp.x cp.y = true := by
  unfold isPositionFixed
  rw [hchar]
  simp

theorem searchUpList_lt {e sy : Int} (h : sy ∈ searchUpList e) : sy < e := by
  unfold searchUpList at h
  rw [List.mem_map] at h
  obtain ⟨i, hi, rfl⟩ := h
  rw [List.mem_reverse, List.mem_range] at hi
  show (i : Int) < e
  omega

theorem findFallSource_spec (g : GridManager) (x : Int) :
    ∀ (l : List Int) (sy : Int) (tile : Tile),
      findFallSource g x l = some (sy, tile) →
      sy ∈ l ∧ isPositionFixed g x sy = false ∧
      g.getTile x sy = some tile ∧ tile.isEmptyTile = false ∧
      tile.isBlocker = false ∧ tile.isMatchable = true := by
  intro l
  induction l with
  | nil => exact fun sy tile h => Option.noConfusion h
  | cons yy ys ih =>
    intro sy tile h
    unfold findFallSource at h
    by_cases hf : isPositionFixed g x yy = true
    · rw [if_pos hf] at h
      obtain ⟨h1, h2, h3, h4, h5, h6⟩ := ih sy tile h
      exact ⟨List.mem_cons_of_mem _ h1, h2, h3, h4, h5, h6⟩
    · rw [if_neg hf] at h
      rcases hget : g.getTile x yy with - | t0
      · rw [hget] at h
        obtain ⟨h1, h2, h3, h4, h5, h6⟩ := ih sy tile h
        exact ⟨List.mem_cons_of_mem _ h1, h2, h3, h4, h5, h6⟩
      · rw [hget] at h
        dsimp only at h
        by_cases hc : (!t0.isEmptyTile && !t0.isBlocker && t0.isMatchable) = true
        · rw [if_pos hc] at h
          have hp := Option.some.inj h
          have hy : yy = sy := congrArg Prod.fst hp
          have ht : t0 = tile := congrArg Prod.snd hp
          subst hy
          subst ht
          simp only [Bool.and_eq_true, Bool.not_eq_true'] at hc
          exact ⟨List.mem_cons_self _ _, Bool.eq_false_iff.mpr hf, hget,
            hc.1.1, hc.1.2, hc.2⟩
        · rw [if_neg hc] at h
          obtain ⟨h1, h2, h3, h4, h5, h6⟩ := ih sy tile h
          exact ⟨List.mem_cons_of_mem _ h1, h2, h3, h4, h5, h6⟩

theorem emptyPositions_not_fixed {g : GridManager} {x e : Int}
    (he : e ∈ emptyPositionsInColumn g x) :
    isPositionFixed g x e = false ∧ 0 ≤ e ∧ e < (g.height : Int) := by
  unfold emptyPositionsInColumn at he
  have hq := List.of_mem_filter he
  have hmem := List.mem_of_mem_filter he
  rw [List.mem_map] at hmem
  obtain ⟨i, hi, rfl⟩ := hmem
  rw [List.mem_reverse, List.mem_range] at hi
  simp only [Bool.and_eq_true, Bool.not_eq_true'] at hq
  exact ⟨hq.1, by show (0 : Int) ≤ (i : Int); omega,
    by show (i : Int) < (g.height : Int); omega⟩

end GravitySystem

namespace GridManager

theorem setTile_invalid (g : GridManager) (x y : Int) (t : Tile)
    (h : ¬ g.isValidPosition x y = true) : g.setTile x y t = g := by
  unfold setTile
  rw [if_neg h]

theorem WellFormed.setEmpty {g : GridManager} (hwf : g.WellFormed) (x y : Int) :
    (g.setEmpty x y).WellFormed := hwf.setTile x y (Tile.new .empty)

theorem getTile_setEmpty_ne (g : GridManager) (x y a b : Int)
    (h : ¬(a = x ∧ b = y)) :
    (g.setEmpty x y).getTile a b = g.getTile a b :=
  getTile_setTile_ne g x y a b (Tile.new .empty) h

theorem getTile_setEmpty_valid (g : GridManager) (x y : Int)
    (hwf : g.WellFormed) (hv : g.isValidPosition x y = true) :
    (g.setEmpty x y).getTile x y = some (Tile.new .empty) :=
  getTile_setTile_valid g x y (Tile.new .empty) hwf hv

theorem setEmpty_characterPosition (g : GridManager) (x y : Int) :
    (g.setEmpty x y).characterPosition = g.characterPosition :=
  setTile_characterPosition g x y (Tile.new .empty)

theorem isValidPosition_setEmpty (g : GridManager) (x y a b : Int) :
    (g.setEmpty x y).isValidPosition a b = g.isValidPosition a b :=
  isValidPosition_setTile g x y a b (Tile.new .empty)

end GridManager

namespace GravitySystem

theorem isPositionFixed_false_iff (g : GridManager) (a b : Int) :
    isPositionFixed g a b = false ↔
      (∀ cp : Pos, g.characterPosition = some cp → ¬(a = cp.x ∧ b = cp.y)) ∧
      (∀ t : Tile, g.getTile a b = some t →
        t.isExitTile = false ∧ t.isBlocker = false) := by
  unfold isPositionFixed
  rcases hc : g.characterPosition with - | cp <;>
    rcases hg : g.getTile a b with - | t
  · simp
  · simp [Bool.or_eq_false_iff, Bool.and_eq_false_iff]
  · simp [Bool.or_eq_false_iff, Bool.and_eq_false_iff,
      decide_eq_false_iff_not]
  · simp [Bool.or_eq_false_iff, Bool.and_eq_false_iff,
      decide_eq_false_iff_not]

theorem fillEmpty_master (x : Int) (st : GridManager × List Movement) (e : Int)
    (hwf : st.1.WellFormed) (he : isPositionFixed st.1 x e = false) :
    GPres st.1 (fillEmpty x st e).1 ∧
    (fillEmpty x st e).1.WellFormed ∧
    (∀ a b : Int, isPositionFixed st.1 a b = false →
      isPositionFixed (fillEmpty x st e).1 a b = false) ∧
    (∀ (x0 y0 : Int) (t : Tile), st.1.getTile x0 y0 = some t →
      t.isExitTile = true ∨ t.isBlocker = true →
      (fillEmpty x st e).1.getTile x0 y0 = some t) ∧
    ∃ suf : List Movement, (fillEmpty x st e).2 = st.2 ++ suf ∧
      ∀ mv ∈ suf, mv.toX = x ∧ mv.toY = e := by
  unfold fillEmpty
  rcases hs : findFallSource st.1 x (searchUpList e) with - | p
  · exact ⟨gpres_refl _, hwf, fun a b h => h, fun x0 y0 t h _ => h,
      ⟨[], (List.append_nil _).symm, fun mv hmv =>
        absurd hmv (List.not_mem_nil mv)⟩⟩
  · obtain ⟨sy, tile⟩ := p
    dsimp only
    obtain ⟨hmem, hsfix, hsget, hsemp, hsblk, hsmat⟩ :=
      findFallSource_spec st.1 x _ sy tile hs
    have hsv : st.1.isValidPosition x sy = true := GridManager.getTile_some_valid hsget
    have hwf1 : (st.1.setTile x e tile).WellFormed := hwf.setTile x e tile
    have hwf2 : ((st.1.setTile x e tile).setEmpty x sy).WellFormed :=
      hwf1.setEmpty x sy
    have hgp : GPres st.1 ((st.1.setTile x e tile).setEmpty x sy) :=
      gpres_trans (gpres_setTile st.1 x e tile)
        (gpres_setEmpty (st.1.setTile x e tile) x sy)
    refine ⟨hgp, hwf2, ?_, ?_, ⟨[⟨x, sy, x, e⟩], rfl, ?_⟩⟩
    · intro a b hab
      rw [isPositionFixed_false_iff] at hab ⊢
      obtain ⟨hchar, htile⟩ := hab
      refine ⟨?_, ?_⟩
      · intro cp hcp
        exact hchar cp (by rw [← hgp.2.2.2.2]; exact hcp)
      · intro t ht
        by_cases h1 : a = x ∧ b = sy
        · obtain ⟨rfl, rfl⟩ := h1
          rw [GridManager.getTile_setEmpty_valid _ _ _ hwf1
            (by rw [GridManager.isValidPosition_setTile]; exact hsv)] at ht
          rw [← Option.some.inj ht]
          exact ⟨rfl, rfl⟩
        · rw [GridManager.getTile_setEmpty_ne _ _ _ _ _ h1] at ht
          by_cases h2 : a = x ∧ b = e
          · obtain ⟨rfl, rfl⟩ := h2
            by_cases hv2 : st.1.isValidPosition a b = true
            · rw [GridManager.getTile_setTile_valid _ _ _ _ hwf hv2] at ht
              rw [← Option.some.inj ht]
              have hk := matchable_kind hsmat
              exact ⟨hk.1, hk.2.1⟩
            · rw [GridManager.setTile_invalid _ _ _ _ hv2] at ht
              exact htile t ht
          · rw [GridManager.getTile_setTile_ne _ _ _ _ _ _ h2] at ht
            exact htile t ht
    · intro x0 y0 t hget hkind
      have hfixT : isPositionFixed st.1 x0 y0 = true :=
        fixed_tile_isPositionFixed hget hkind
      have hne1 : ¬(x0 = x ∧ y0 = e) := by
        rintro ⟨rfl, rfl⟩
        rw [he] at hfixT
        exact Bool.noConfusion hfixT
      have hne2 : ¬(x0 = x ∧ y0 = sy) := by
        rintro ⟨rfl, rfl⟩
        rw [hsfix] at hfixT
        exact Bool.noConfusion hfixT
      rw [GridManager.getTile_setEmpty_ne _ _ _ _ _ hne2,
        GridManager.getTile_setTile_ne _ _ _ _ _ _ hne1]
      exact hget
    · intro mv hmv
      rw [List.mem_singleton] at hmv
      subst hmv
      exact ⟨rfl, rfl⟩

end GravitySystem

namespace GravitySystem

theorem fillEmpty_fold_master (x : Int) :
    ∀ (l : List Int) (st : GridManager × List Movement),
      st.1.WellFormed →
      (∀ e ∈ l, isPositionFixed st.1 x e = false) →
      GPres st.1 (l.foldl (fillEmpty x) st).1 ∧
      (l.foldl (fillEmpty x) st).1.WellFormed ∧
      (∀ a b : Int, isPositionFixed st.1 a b = false →
        isPositionFixed (l.foldl (fillEmpty x) st).1 a b = false) ∧
      (∀ (x0 y0 : Int) (t : Tile), st.1.getTile x0 y0 = some t →
        t.isExitTile = true ∨ t.isBlocker = true →
        (l.foldl (fillEmpty x) st).1.getTile x0 y0 = some t) ∧
      ∃ suf : List Movement, (l.foldl (fillEmpty x) st).2 = st.2 ++ suf ∧
        ∀ mv ∈ suf, ∀ cp : Pos, st.1.characterPosition = some cp →
          ¬(mv.toX = cp.x ∧ mv.toY = cp.y) := by
  intro l
  induction l with
  | nil =>
    intro st hwf hl
    exact ⟨gpres_refl _, hwf, fun a b h => h, fun x0 y0 t h hk => h,
      ⟨[], (List.append_nil _).symm,
        fun mv hmv => absurd hmv (List.not_mem_nil mv)⟩⟩
  | cons e l ih =>
    intro st hwf hl
    rw [List.foldl_cons]
    have he := hl e (List.mem_cons_self e l)
    obtain ⟨hgp1, hwf1, hff1, hfx1, suf1, hsuf1, hmv1⟩ :=
      fillEmpty_master x st e hwf he
    obtain ⟨hgp2, hwf2, hff2, hfx2, suf2, hsuf2, hmv2⟩ :=
      ih (fillEmpty x st e) hwf1
        (fun e' he' => hff1 x e' (hl e' (List.mem_cons_of_mem _ he')))
    refine ⟨gpres_trans hgp1 hgp2, hwf2, fun a b h => hff2 a b (hff1 a b h),
      fun x0 y0 t h hk => hfx2 x0 y0 t (hfx1 x0 y0 t h hk) hk,
      ⟨suf1 ++ suf2, by rw [hsuf2, hsuf1, List.append_assoc], ?_⟩⟩
    intro mv hmv cp hcp
    rcases List.mem_append.mp hmv with hmv | hmv
    · obtain ⟨h1, h2⟩ := hmv1 mv hmv
      rintro ⟨hx, hy⟩
      have hcf := char_isPositionFixed hcp
      rw [← hx, h1, ← hy, h2, he] at hcf
      exact Bool.noConfusion hcf
    · exact hmv2 mv hmv cp (by rw [hgp1.2.2.2.2]; exact hcp)

theorem processColumn_master (st : GridManager × List Movement) (x : Int)
    (hwf : st.1.WellFormed) :
    GPres st.1 (processColumn st x).1 ∧
    (processColumn st x).1.WellFormed ∧
    (∀ a b : Int, isPositionFixed st.1 a b = false →
      isPositionFixed (processColumn st x).1 a b = false) ∧
    (∀ (x0 y0 : Int) (t : Tile), st.1.getTile x0 y0 = some t →
      t.isExitTile = true ∨ t.isBlocker = true →
      (processColumn st x).1.getTile x0 y0 = some t) ∧
    ∃ suf : List Movement, (processColumn st x).2 = st.2 ++ suf ∧
      ∀ mv ∈ suf, ∀ cp : Pos, st.1.characterPosition = some cp →
        ¬(mv.toX = cp.x ∧ mv.toY = cp.y) := by
  unfold processColumn
  exact fillEmpty_fold_master x (emptyPositionsInColumn st.1 x) st hwf
    (fun e he => (emptyPositions_not_fixed he).1)

theorem processColumn_fold_master :
    ∀ (cols : List Int) (st : GridManager × List Movement),
      st.1.WellFormed →
      GPres st.1 (cols.foldl processColumn st).1 ∧
      (cols.foldl processColumn st).1.WellFormed ∧
      (∀ a b : Int, isPositionFixed st.1 a b = false →
        isPositionFixed (cols.foldl processColumn st).1 a b = false) ∧
      (∀ (x0 y0 : Int) (t : Tile), st.1.getTile x0 y0 = some t →
        t.isExitTile = true ∨ t.isBlocker = true →
        (cols.foldl processColumn st).1.getTile x0 y0 = some t) ∧
      ∃ suf : List Movement, (cols.foldl processColumn st).2 = st.2 ++ suf ∧
        ∀ mv ∈ suf, ∀ cp : Pos, st.1.characterPosition = some cp →
          ¬(mv.toX = cp.x ∧ mv.toY = cp.y) := by
  intro cols
  induction cols with
  | nil =>
    intro st hwf
    exact ⟨gpres_refl _, hwf, fun a b h => h, fun x0 y0 t h hk => h,
      ⟨[], (List.append_nil _).symm,
        fun mv hmv => absurd hmv (List.not_mem_nil mv)⟩⟩
  | cons x cols ih =>
    intro st hwf
    rw [List.foldl_cons]
    obtain ⟨hgp1, hwf1, hff1, hfx1, suf1, hsuf1, hmv1⟩ :=
      processColumn_master st x hwf
    obtain ⟨hgp2, hwf2, hff2, hfx2, suf2, hsuf2, hmv2⟩ :=
      ih (processColumn st x) hwf1
    refine ⟨gpres_trans hgp1 hgp2, hwf2, fun a b h => hff2 a b (hff1 a b h),
      fun x0 y0 t h hk => hfx2 x0 y0 t (hfx1 x0 y0 t h hk) hk,
      ⟨suf1 ++ suf2, by rw [hsuf2, hsuf1, List.append_assoc], ?_⟩⟩
    intro mv hmv cp hcp
    rcases List.mem_append.mp hmv with hmv | hmv
    · exact hmv1 mv hmv cp hcp
    · exact hmv2 mv hmv cp (by rw [hgp1.2.2.2.2]; exact hcp)

theorem applyGravity_master (g : GridManager) (hwf : g.WellFormed) :
    GPres g (applyGravity g).1 ∧
    (applyGravity g).1.WellFormed ∧
    (∀ a b : Int, isPositionFixed g a b = false →
      isPositionFixed (applyGravity g).1 a b = false) ∧
    (∀ (x0 y0 : Int) (t : Tile), g.getTile x0 y0 = some t →
      t.isExitTile = true ∨ t.isBlocker = true →
      (applyGravity g).1.getTile x0 y0 = some t) ∧
    ∀ mv ∈ (applyGravity g).2, ∀ cp : Pos, g.characterPosition = some cp →
      ¬(mv.toX = cp.x ∧ mv.toY = cp.y) := by
  unfold applyGravity
  obtain ⟨hgp, hwf', hff, hfx, suf, hsuf, hmv⟩ :=
    processColumn_fold_master ((List.range g.width).map Int.ofNat) (g, []) hwf
  refine ⟨hgp, hwf', hff, hfx, ?_⟩
  intro mv hm cp hcp
  rw [hsuf] at hm
  exact hmv mv (by simpa using hm) cp hcp

end GravitySystem

namespace GravitySystem

theorem applyGravityFullyGo_master :
    ∀ (n : Nat) (g : GridManager), g.WellFormed →
      GPres g (applyGravityFullyGo n g).2 ∧
      (applyGravityFullyGo n g).2.WellFormed ∧
      (∀ a b : Int, isPositionFixed g a b = false →
        isPositionFixed (applyGravityFullyGo n g).2 a b = false) ∧
      (∀ (x0 y0 : Int) (t : Tile), g.getTile x0 y0 = some t →
        t.isExitTile = true ∨ t.isBlocker = true →
        (applyGravityFullyGo n g).2.getTile x0 y0 = some t) ∧
      ∀ ml ∈ (applyGravityFullyGo n g).1, ∀ mv ∈ ml, ∀ cp : Pos,
        g.characterPosition = some cp → ¬(mv.toX = cp.x ∧ mv.toY = cp.y) := by
  intro n
  induction n with
  | zero =>
    intro g hwf
    exact ⟨gpres_refl g, hwf, fun a b h => h, fun x0 y0 t h hk => h,
      fun ml hml => absurd hml (List.not_mem_nil ml)⟩
  | succ n ih =>
    intro g hwf
    obtain ⟨hgp1, hwf1, hff1, hfx1, hmv1⟩ := applyGravity_master g hwf
    unfold applyGravityFullyGo
    rcases hag : applyGravity g with ⟨g', mv⟩
    rw [hag] at hgp1 hwf1 hff1 hfx1 hmv1
    dsimp only at hgp1 hwf1 hff1 hfx1 hmv1 ⊢
    by_cases hemp : mv.isEmpty = true
    · rw [if_pos hemp]
      exact ⟨hgp1, hwf1, hff1, hfx1,
        fun ml hml => absurd hml (List.not_mem_nil ml)⟩
    · rw [if_neg hemp]
      obtain ⟨hgp2, hwf2, hff2, hfx2, hmv2⟩ := ih g' hwf1
      rcases hgo : applyGravityFullyGo n g' with ⟨rest, g''⟩
      rw [hgo] at hgp2 hwf2 hff2 hfx2 hmv2
      dsimp only at hgp2 hwf2 hff2 hfx2 hmv2 ⊢
      refine ⟨gpres_trans hgp1 hgp2, hwf2,
        fun a b h => hff2 a b (hff1 a b h),
        fun x0 y0 t h hk => hfx2 x0 y0 t (hfx1 x0 y0 t h hk) hk, ?_⟩
      intro ml hml mv' hmv' cp hcp
      rcases List.mem_cons.mp hml with hml | hml
      · subst hml
        exact hmv1 mv' hmv' cp hcp
      · exact hmv2 ml hml mv' hmv' cp (by rw [hgp1.2.2.2.2]; exact hcp)

theorem applyGravityFully_master (g : GridManager) (hwf : g.WellFormed) :
    GPres g (applyGravityFully g).2 ∧
    (applyGravityFully g).2.WellFormed ∧
    (∀ a b : Int, isPositionFixed g a b = false →
      isPositionFixed (applyGravityFully g).2 a b = false) ∧
    (∀ (x0 y0 : Int) (t : Tile), g.getTile x0 y0 = some t →
      t.isExitTile = true ∨ t.isBlocker = true →
      (applyGravityFully g).2.getTile x0 y0 = some t) ∧
    ∀ ml ∈ (applyGravityFully g).1, ∀ mv ∈ ml, ∀ cp : Pos,
      g.characterPosition = some cp → ¬(mv.toX = cp.x ∧ mv.toY = cp.y) := by
  unfold applyGravityFully
  exact applyGravityFullyGo_master (gravityFuel g) g hwf

theorem spawn_tile_kind (g : GridManager) (x y : Int) (tt : List Color) (r : Nat) :
    (g.createNonMatchingTile x y tt r).isExitTile = false ∧
    (g.createNonMatchingTile x y tt r).isBlocker = false := by
  unfold GridManager.createNonMatchingTile
  exact ⟨rfl, rfl⟩

theorem spawnStep_master (tt : List Color) (rnd : Nat → Nat)
    (st : SpawnState) (p : Pos) (hwf : st.grid.WellFormed) :
    GPres st.grid (spawnStep tt rnd st p).grid ∧
    (spawnStep tt rnd st p).grid.WellFormed ∧
    (∀ a b : Int, isPositionFixed st.grid a b = false →
      isPositionFixed (spawnStep tt rnd st p).grid a b = false) ∧
    (∀ (x0 y0 : Int) (t : Tile), st.grid.getTile x0 y0 = some t →
      t.isExitTile = true ∨ t.isBlocker = true →
      (spawnStep tt rnd st p).grid.getTile x0 y0 = some t) ∧
    ∃ suf : List SpawnRec, (spawnStep tt rnd st p).newTiles = st.newTiles ++ suf ∧
      ∀ s ∈ suf, ∀ cp : Pos, st.grid.characterPosition = some cp →
        ¬(s.x = cp.x ∧ s.y = cp.y) := by
  have htriv : GPres st.grid st.grid ∧ st.grid.WellFormed ∧
      (∀ a b : Int, isPositionFixed st.grid a b = false →
        isPositionFixed st.grid a b = false) ∧
      (∀ (x0 y0 : Int) (t : Tile), st.grid.getTile x0 y0 = some t →
        t.isExitTile = true ∨ t.isBlocker = true →
        st.grid.getTile x0 y0 = some t) ∧
      ∃ suf : List SpawnRec, st.newTiles = st.newTiles ++ suf ∧
        ∀ s ∈ suf, ∀ cp : Pos, st.grid.characterPosition = some cp →
          ¬(s.x = cp.x ∧ s.y = cp.y) :=
    ⟨gpres_refl _, hwf, fun a b h => h, fun x0 y0 t h hk => h,
      ⟨[], (List.append_nil _).symm,
        fun s hs => absurd hs (List.not_mem_nil s)⟩⟩
  unfold spawnStep
  by_cases hf : isPositionFixed st.grid p.x p.y = true
  · rw [if_pos hf]
    exact htriv
  · rw [if_neg hf]
    rcases hget : st.grid.getTile p.x p.y with - | tile
    · exact htriv
    · dsimp only
      by_cases hemp : tile.isEmptyTile = true
      · rw [if_pos hemp]
        have hv : st.grid.isValidPosition p.x p.y = true :=
          GridManager.getTile_some_valid hget
        have hkind := spawn_tile_kind st.grid p.x p.y tt (rnd st.k)
        refine ⟨gpres_setTile _ _ _ _, hwf.setTile _ _ _, ?_, ?_,
          ⟨[⟨p.x, p.y, st.grid.createNonMatchingTile p.x p.y tt (rnd st.k)⟩],
            rfl, ?_⟩⟩
        · intro a b hab
          rw [isPositionFixed_false_iff] at hab ⊢
          obtain ⟨hchar, htile⟩ := hab
          refine ⟨?_, ?_⟩
          · intro cp hcp
            exact hchar cp
              (by rw [← GridManager.setTile_characterPosition]; exact hcp)
          · intro t ht
            by_cases h1 : a = p.x ∧ b = p.y
            · obtain ⟨rfl, rfl⟩ := h1
              rw [GridManager.getTile_setTile_valid _ _ _ _ hwf hv] at ht
              rw [← Option.some.inj ht]
              exact ⟨hkind.1, hkind.2⟩
            · rw [GridManager.getTile_setTile_ne _ _ _ _ _ _ h1] at ht
              exact htile t ht
        · intro x0 y0 t h hk
          have hfixT : isPositionFixed st.grid x0 y0 = true :=
            fixed_tile_isPositionFixed h hk
          have hne : ¬(x0 = p.x ∧ y0 = p.y) := by
            rintro ⟨rfl, rfl⟩
            exact hf hfixT
          rw [GridManager.getTile_setTile_ne _ _ _ _ _ _ hne]
          exact h
        · intro s hs cp hcp
          rw [List.mem_singleton] at hs
          subst hs
          rintro ⟨hx, hy⟩
          have hcf := char_isPositionFixed hcp
          dsimp only at hx hy
          rw [← hx, ← hy] at hcf
          exact hf hcf
      · rw [if_neg hemp]
        exact htriv

theorem spawnStep_fold_master (tt : List Color) (rnd : Nat → Nat) :
    ∀ (ps : List Pos) (st : SpawnState), st.grid.WellFormed →
      GPres st.grid (ps.foldl (spawnStep tt rnd) st).grid ∧
      (ps.foldl (spawnStep tt rnd) st).grid.WellFormed ∧
      (∀ a b : Int, isPositionFixed st.grid a b = false →
        isPositionFixed (ps.foldl (spawnStep tt rnd) st).grid a b = false) ∧
      (∀ (x0 y0 : Int) (t : Tile), st.grid.getTile x0 y0 = some t →
        t.isExitTile = true ∨ t.isBlocker = true →
        (ps.foldl (spawnStep tt rnd) st).grid.getTile x0 y0 = some t) ∧
      ∃ suf : List SpawnRec,
        (ps.foldl (spawnStep tt rnd) st).newTiles = st.newTiles ++ suf ∧
        ∀ s ∈ suf, ∀ cp : Pos, st.grid.characterPosition = some cp →
          ¬(s.x = cp.x ∧ s.y = cp.y) := by
  intro ps
  induction ps with
  | nil =>
    intro st hwf
    exact ⟨gpres_refl _, hwf, fun a b h => h, fun x0 y0 t h hk => h,
      ⟨[], (List.append_nil _).symm,
        fun s hs => absurd hs (List.not_mem_nil s)⟩⟩
  | cons p ps ih =>
    intro st hwf
    rw [List.foldl_cons]
    obtain ⟨hgp1, hwf1, hff1, hfx1, suf1, hsuf1, hs1⟩ :=
      spawnStep_master tt rnd st p hwf
    obtain ⟨hgp2, hwf2, hff2, hfx2, suf2, hsuf2, hs2⟩ :=
      ih (spawnStep tt rnd st p) hwf1
    refine ⟨gpres_trans hgp1 hgp2, hwf2, fun a b h => hff2 a b (hff1 a b h),
      fun x0 y0 t h hk => hfx2 x0 y0 t (hfx1 x0 y0 t h hk) hk,
      ⟨suf1 ++ suf2, by rw [hsuf2, hsuf1, List.append_assoc], ?_⟩⟩
    intro s hs cp hcp
    rcases List.mem_append.mp hs with hs | hs
    · exact hs1 s hs cp hcp
    · exact hs2 s hs cp (by rw [hgp1.2.2.2.2]; exact hcp)

theorem spawnNewTiles_master (g : GridManager) (rnd : Nat → Nat) (k : Nat)
    (hwf : g.WellFormed) :
    GPres g (spawnNewTiles g rnd k).grid ∧
    (spawnNewTiles g rnd k).grid.WellFormed ∧
    (∀ a b : Int, isPositionFixed g a b = false →
      isPositionFixed (spawnNewTiles g rnd k).grid a b = false) ∧
    (∀ (x0 y0 : Int) (t : Tile), g.getTile x0 y0 = some t →
      t.isExitTile = true ∨ t.isBlocker = true →
      (spawnNewTiles g rnd k).grid.getTile x0 y0 = some t) ∧
    ∀ s ∈ (spawnNewTiles g rnd k).newTiles, ∀ cp : Pos,
      g.characterPosition = some cp → ¬(s.x = cp.x ∧ s.y = cp.y) := by
  unfold spawnNewTiles
  obtain ⟨hgp, hwf', hff, hfx, suf, hsuf, hs⟩ :=
    spawnStep_fold_master g.tileTypes rnd (spawnOrder g.width g.height)
      { grid := g, newTiles := [], k := k } hwf
  refine ⟨hgp, hwf', hff, hfx, ?_⟩
  intro s hsm cp hcp
  rw [hsuf] at hsm
  exact hs s (by simpa using hsm) cp hcp

end GravitySystem

namespace GravitySystem

theorem processGravity_master (g : GridManager) (rnd : Nat → Nat) (k : Nat)
    (hwf : g.WellFormed) :
    GPres g (processGravity g rnd k).1 ∧
    (processGravity g rnd k).1.WellFormed ∧
    (∀ (x0 y0 : Int) (t : Tile), g.getTile x0 y0 = some t →
      t.isExitTile = true ∨ t.isBlocker = true →
      (processGravity g rnd k).1.getTile x0 y0 = some t) ∧
    ∀ cp : Pos, g.characterPosition = some cp →
      (∀ mv ∈ (processGravity g rnd k).2.1.movements,
        ¬(mv.toX = cp.x ∧ mv.toY = cp.y)) ∧
      (∀ s ∈ (processGravity g rnd k).2.1.newTiles,
        ¬(s.x = cp.x ∧ s.y = cp.y)) := by
  obtain ⟨hgp1, hwf1, hff1, hfx1, hmv1⟩ := applyGravityFully_master g hwf
  unfold processGravity
  rcases hf1 : applyGravityFully g with ⟨mls, g1⟩
  rw [hf1] at hgp1 hwf1 hff1 hfx1 hmv1
  dsimp only at hgp1 hwf1 hff1 hfx1 hmv1 ⊢
  obtain ⟨hgp2, hwf2, hff2, hfx2, hs2⟩ := spawnNewTiles_master g1 rnd k hwf1
  by_cases hlen : (spawnNewTiles g1 rnd k).newTiles.length > 0
  · rw [if_pos hlen]
    obtain ⟨hgp3, hwf3, hff3, hfx3, hmv3⟩ :=
      applyGravityFully_master (spawnNewTiles g1 rnd k).grid hwf2
    rcases hf2 : applyGravityFully (spawnNewTiles g1 rnd k).grid with ⟨adds, g3⟩
    rw [hf2] at hgp3 hwf3 hff3 hfx3 hmv3
    dsimp only at hgp3 hwf3 hff3 hfx3 hmv3 ⊢
    refine ⟨gpres_trans hgp1 (gpres_trans hgp2 hgp3), hwf3,
      fun x0 y0 t h hk => hfx3 x0 y0 t (hfx2 x0 y0 t (hfx1 x0 y0 t h hk) hk) hk,
      ?_⟩
    intro cp hcp
    have hcp1 : g1.characterPosition = some cp := by
      rw [hgp1.2.2.2.2]; exact hcp
    have hcp2 : (spawnNewTiles g1 rnd k).grid.characterPosition = some cp := by
      rw [hgp2.2.2.2.2]; exact hcp1
    refine ⟨?_, fun s hs => hs2 s hs cp hcp1⟩
    intro mv hmv
    rcases List.mem_append.mp hmv with hmv | hmv
    · rw [List.mem_flatten] at hmv
      obtain ⟨ml, hml, hmm⟩ := hmv
      exact hmv1 ml hml mv hmm cp hcp
    · rw [List.mem_flatten] at hmv
      obtain ⟨ml, hml, hmm⟩ := hmv
      exact hmv3 ml hml mv hmm cp hcp2
  · rw [if_neg hlen]
    refine ⟨gpres_trans hgp1 hgp2, hwf2,
      fun x0 y0 t h hk => hfx2 x0 y0 t (hfx1 x0 y0 t h hk) hk, ?_⟩
    intro cp hcp
    have hcp1 : g1.characterPosition = some cp := by
      rw [hgp1.2.2.2.2]; exact hcp
    refine ⟨?_, fun s hs => hs2 s hs cp hcp1⟩
    intro mv hmv
    rw [List.mem_flatten] at hmv
    obtain ⟨ml, hml, hmm⟩ := hmv
    exact hmv1 ml hml mv hmm cp hcp

end GravitySystem

/-- Iterated `processGravity` calls: state is the grid plus the position of
the shared random stream. -/
def processGravitySeq (rnd : Nat → Nat) : Nat → GridManager × Nat → GridManager × Nat
  | 0, st => st
  | n + 1, st =>
    let r := GravitySystem.processGravity st.1 rnd st.2
    processGravitySeq rnd n (r.1, r.2.2)

theorem processGravitySeq_master (rnd : Nat → Nat) :
    ∀ (n : Nat) (st : GridManager × Nat), st.1.WellFormed →
      (processGravitySeq rnd n st).1.WellFormed ∧
      (processGravitySeq rnd n st).1.characterPosition =
        st.1.characterPosition ∧
      (∀ (x0 y0 : Int) (t : Tile), st.1.getTile x0 y0 = some t →
        t.isExitTile = true ∨ t.isBlocker = true →
        (processGravitySeq rnd n st).1.getTile x0 y0 = some t) := by
  intro n
  induction n with
  | zero => exact fun st hwf => ⟨hwf, rfl, fun x0 y0 t h hk => h⟩
  | succ n ih =>
    intro st hwf
    obtain ⟨hgp, hwf', hfx, -⟩ :=
      GravitySystem.processGravity_master st.1 rnd st.2 hwf
    unfold processGravitySeq
    dsimp only
    obtain ⟨h1, h2, h3⟩ := ih
      ((GravitySystem.processGravity st.1 rnd st.2).1,
        (GravitySystem.processGravity st.1 rnd st.2).2.2) hwf'
    exact ⟨h1, by rw [h2]; exact hgp.2.2.2.2,
      fun x0 y0 t h hk => h3 x0 y0 t (hfx x0 y0 t h hk) hk⟩

/-- C8: across any finite sequence of `processGravity()` calls on a
well-formed grid, the exit-marker cell's tile and every stone-blocker cell's
tile are unchanged (the exact `Tile` value is preserved), the tracked
character position is unchanged, and within each call the character's cell is
never the destination of a gravity movement nor the target of a spawn. -/
theorem C8_fixed_inviolability (g : GridManager) (hwf : g.WellFormed)
    (rnd : Nat → Nat) (k : Nat) (x y : Int) (t : Tile)
    (hget : g.getTile x y = some t)
    (hkind : t.isExitTile = true ∨ t.isBlocker = true) :
    (∀ n : Nat, (processGravitySeq rnd n (g, k)).1.getTile x y = some t) ∧
    (∀ n : Nat, (processGravitySeq rnd n (g, k)).1.characterPosition =
      g.characterPosition) ∧
    ∀ cp : Pos, g.characterPosition = some cp →
      (∀ mv ∈ (GravitySystem.processGravity g rnd k).2.1.movements,
        ¬(mv.toX = cp.x ∧ mv.toY = cp.y)) ∧
      (∀ s ∈ (GravitySystem.processGravity g rnd k).2.1.newTiles,
        ¬(s.x = cp.x ∧ s.y = cp.y)) := by
  refine ⟨?_, ?_, (GravitySystem.processGravity_master g rnd k hwf).2.2.2⟩
  · intro n
    exact (processGravitySeq_master rnd n (g, k) hwf).2.2 x y t hget hkind
  · intro n
    exact (processGravitySeq_master rnd n (g, k) hwf).2.1

/-- Grid of the C8 witness: exit at (0,0), character at (0,1). -/
def gridC8w : GridManager :=
  { width := 2, height := 2,
    cells := mkCells [[tExit, tRed], [tEmpty, tBlue]],
    tileTypes := [.red, .blue, .green],
    exitPosition := ⟨0, 0⟩,
    characterPosition := some ⟨0, 1⟩ }

theorem C8_fixed_inviolability_witness :
    gridC8w.getTile 0 0 = some tExit ∧ tExit.isExitTile = true ∧
    (processGravitySeq (fun _ => 0) 1 (gridC8w, 0)).1.getTile 0 0 =
      some tExit := by
  obtain ⟨h1, -, -⟩ := C8_fixed_inviolability gridC8w
    (by constructor <;> decide) (fun _ => 0) 0 0 0 tExit (by decide)
    (Or.inl (by decide))
  exact ⟨by decide, by decide, h1 1⟩

namespace GravitySystem

theorem fallWeight_zero_of_empty {g : GridManager} {a b : Int} {t : Tile}
    (hget : g.getTile a b = some t) (hemp : t.isEmptyTile = true) :
    fallWeight g a b = 0 := by
  unfold fallWeight
  split
  · rfl
  · rw [hget]
    dsimp only
    rw [hemp]
    rfl

theorem emptyPositions_empty {g : GridManager} {x e : Int}
    (he : e ∈ emptyPositionsInColumn g x) :
    ∃ te : Tile, g.getTile x e = some te ∧ te.isEmptyTile = true := by
  unfold emptyPositionsInColumn at he
  have hq := List.of_mem_filter he
  simp only [Bool.and_eq_true] at hq
  rcases hget : g.getTile x e with - | t
  · rw [hget] at hq
    exact absurd hq.2 (by exact Bool.false_ne_true)
  · rw [hget] at hq
    exact ⟨t, rfl, hq.2⟩

theorem emptyPositions_nodup (g : GridManager) (x : Int) :
    (emptyPositionsInColumn g x).Nodup := by
  unfold emptyPositionsInColumn
  apply List.Nodup.filter
  apply List.Nodup.map
  · exact fun a b h => Int.ofNat.inj h
  · exact List.nodup_reverse.mpr (List.nodup_range _)

theorem fillEmpty_measure (x : Int) (st : GridManager × List Movement) (e : Int)
    (hwf : st.1.WellFormed)
    (he : isPositionFixed st.1 x e = false)
    (te : Tile) (hemp : st.1.getTile x e = some te) (hte : te.isEmptyTile = true) :
    gravityMeasure (fillEmpty x st e).1 + (fillEmpty x st e).2.length ≤
      gravityMeasure st.1 + st.2.length := by
  unfold fillEmpty
  rcases hs : findFallSource st.1 x (searchUpList e) with - | p
  · exact le_refl _
  obtain ⟨sy, tile⟩ := p
  dsimp only
  obtain ⟨hmem, hsfix, hsget, hsemp, hsblk, hsmat⟩ :=
    findFallSource_spec st.1 x _ sy tile hs
  have hsy_lt : sy < e := searchUpList_lt hmem
  have hve := GridManager.getTile_some_valid hemp
  have hvs := GridManager.getTile_some_valid hsget
  obtain ⟨hex0, hexw, hey0, heyh⟩ := GridManager.isValidPosition_elim hve
  obtain ⟨hsx0, hsxw, hsy0, hsyh⟩ := GridManager.isValidPosition_elim hvs
  have hwf1 : (st.1.setTile x e tile).WellFormed := hwf.setTile _ _ _
  have hgpr : GPres st.1 ((st.1.setTile x e tile).setEmpty x sy) :=
    gpres_trans (gpres_setTile _ _ _ _) (gpres_setEmpty _ _ _)
  have hgd : ((st.1.setTile x e tile).setEmpty x sy).getTile x e = some tile := by
    rw [GridManager.getTile_setEmpty_ne _ _ _ _ _
      (fun hh => absurd hh.2 (by omega))]
    exact GridManager.getTile_setTile_valid _ _ _ _ hwf hve
  have hgs : ((st.1.setTile x e tile).setEmpty x sy).getTile x sy =
      some (Tile.new .empty) :=
    GridManager.getTile_setEmpty_valid _ _ _ hwf1
      (by rw [GridManager.isValidPosition_setTile]; exact hvs)
  have hother : ∀ a b : Int, ¬(a = x ∧ b = e) → ¬(a = x ∧ b = sy) →
      ((st.1.setTile x e tile).setEmpty x sy).getTile a b =
        st.1.getTile a b := by
    intro a b h1 h2
    rw [GridManager.getTile_setEmpty_ne _ _ _ _ _ h2,
      GridManager.getTile_setTile_ne _ _ _ _ _ _ h1]
  have hwsrc : fallWeight st.1 x sy = ((st.1.height : Int) - 1 - sy).toNat := by
    unfold fallWeight
    rw [if_neg (by rw [hsfix]; exact Bool.false_ne_true), hsget]
    dsimp only
    rw [if_pos (by rw [hsemp, hsblk, hsmat]; rfl)]
  have hwdst0 : fallWeight st.1 x e = 0 := fallWeight_zero_of_empty hemp hte
  have hwsrc0 : fallWeight ((st.1.setTile x e tile).setEmpty x sy) x sy = 0 :=
    fallWeight_zero_of_empty hgs rfl
  have hfixd : isPositionFixed ((st.1.setTile x e tile).setEmpty x sy) x e
      = false := by
    rw [isPositionFixed_false_iff] at he ⊢
    refine ⟨fun cp hcpc => he.1 cp (by rw [← hgpr.2.2.2.2]; exact hcpc), ?_⟩
    intro t ht
    rw [hgd] at ht
    rw [← Option.some.inj ht]
    have hk := matchable_kind hsmat
    exact ⟨hk.1, hk.2.1⟩
  have hwdst : fallWeight ((st.1.setTile x e tile).setEmpty x sy) x e =
      ((st.1.height : Int) - 1 - e).toNat := by
    unfold fallWeight
    rw [if_neg (by rw [hfixd]; exact Bool.false_ne_true), hgd]
    dsimp only
    rw [if_pos (by rw [hsemp, hsblk, hsmat]; rfl), hgpr.2.1]
  have hwother : ∀ a b : Int, ¬(a = x ∧ b = e) → ¬(a = x ∧ b = sy) →
      fallWeight ((st.1.setTile x e tile).setEmpty x sy) a b =
        fallWeight st.1 a b := by
    intro a b h1 h2
    unfold fallWeight isPositionFixed
    rw [hgpr.2.1, hgpr.2.2.2.2, hother a b h1 h2]
  have hmlt : gravityMeasure ((st.1.setTile x e tile).setEmpty x sy) <
      gravityMeasure st.1 := by
    unfold gravityMeasure
    rw [hgpr.1, hgpr.2.1]
    have hp1 : (x.toNat, sy.toNat) ∈
        Finset.range st.1.width ×ˢ Finset.range st.1.height := by
      rw [Finset.mem_product, Finset.mem_range, Finset.mem_range]
      omega
    have hp2 : (x.toNat, e.toNat) ∈
        (Finset.range st.1.width ×ˢ Finset.range st.1.height).erase
          (x.toNat, sy.toNat) := by
      rw [Finset.mem_erase]
      refine ⟨?_, ?_⟩
      · intro hh
        have h2 := congrArg Prod.snd hh
        dsimp only at h2
        omega
      · rw [Finset.mem_product, Finset.mem_range, Finset.mem_range]
        omega
    have hsplit : ∀ f : ℕ × ℕ → ℕ,
        ∑ p in Finset.range st.1.width ×ˢ Finset.range st.1.height, f p =
        (∑ p in ((Finset.range st.1.width ×ˢ Finset.range st.1.height).erase
          (x.toNat, sy.toNat)).erase (x.toNat, e.toNat), f p) +
          f (x.toNat, e.toNat) + f (x.toNat, sy.toNat) := by
      intro f
      rw [Finset.sum_erase_add _ _ hp2, Finset.sum_erase_add _ _ hp1]
    rw [hsplit (fun p => fallWeight ((st.1.setTile x e tile).setEmpty x sy)
      (p.1 : Int) (p.2 : Int)),
      hsplit (fun p => fallWeight st.1 (p.1 : Int) (p.2 : Int))]
    dsimp only
    have hsum_eq : ∑ p in ((Finset.range st.1.width ×ˢ
        Finset.range st.1.height).erase (x.toNat, sy.toNat)).erase
          (x.toNat, e.toNat),
        fallWeight ((st.1.setTile x e tile).setEmpty x sy)
          (p.1 : Int) (p.2 : Int) =
        ∑ p in ((Finset.range st.1.width ×ˢ
        Finset.range st.1.height).erase (x.toNat, sy.toNat)).erase
          (x.toNat, e.toNat),
        fallWeight st.1 (p.1 : Int) (p.2 : Int) := by
      apply Finset.sum_congr rfl
      intro q hq
      rw [Finset.mem_erase] at hq
      obtain ⟨hqp2, hq⟩ := hq
      rw [Finset.mem_erase] at hq
      obtain ⟨hqp1, -⟩ := hq
      apply hwother
      · rintro ⟨hhx, hhy⟩
        apply hqp2
        have h1 : q.1 = x.toNat := by omega
        have h2 : q.2 = e.toNat := by omega
        exact Prod.ext h1 h2
      · rintro ⟨hhx, hhy⟩
        apply hqp1
        have h1 : q.1 = x.toNat := by omega
        have h2 : q.2 = sy.toNat := by omega
        exact Prod.ext h1 h2
    rw [hsum_eq]
    have hcast_x : ((x.toNat : Nat) : Int) = x := Int.toNat_of_nonneg hex0
    have hcast_sy : ((sy.toNat : Nat) : Int) = sy := Int.toNat_of_nonneg hsy0
    have hcast_e : ((e.toNat : Nat) : Int) = e := Int.toNat_of_nonneg hey0
    rw [hcast_x, hcast_sy, hcast_e, hwdst, hwsrc0, hwsrc, hwdst0]
    omega
  rw [List.length_append]
  dsimp only [List.length_singleton]
  omega

theorem fillEmpty_keeps_empty (x : Int) (st : GridManager × List Movement)
    (e e' : Int) (hwf : st.1.WellFormed) (hne : ¬ e' = e)
    (te : Tile) (hemp : st.1.getTile x e' = some te)
    (hte : te.isEmptyTile = true) :
    ∃ tf : Tile, (fillEmpty x st e).1.getTile x e' = some tf ∧
      tf.isEmptyTile = true := by
  unfold fillEmpty
  rcases hs : findFallSource st.1 x (searchUpList e) with - | p
  · exact ⟨te, hemp, hte⟩
  obtain ⟨sy, tile⟩ := p
  dsimp only
  by_cases hsy : e' = sy
  · subst hsy
    refine ⟨Tile.new .empty, ?_, rfl⟩
    exact GridManager.getTile_setEmpty_valid _ _ _ (hwf.setTile _ _ _)
      (by rw [GridManager.isValidPosition_setTile]
          exact GridManager.getTile_some_valid hemp)
  · rw [GridManager.getTile_setEmpty_ne _ _ _ _ _ (fun hh => hsy hh.2),
      GridManager.getTile_setTile_ne _ _ _ _ _ _ (fun hh => hne hh.2)]
    exact ⟨te, hemp, hte⟩

theorem fillEmpty_fold_measure (x : Int) :
    ∀ (l : List Int) (st : GridManager × List Movement),
      st.1.WellFormed → l.Nodup →
      (∀ e ∈ l, isPositionFixed st.1 x e = false ∧
        ∃ te : Tile, st.1.getTile x e = some te ∧ te.isEmptyTile = true) →
      gravityMeasure (l.foldl (fillEmpty x) st).1 +
        (l.foldl (fillEmpty x) st).2.length ≤
        gravityMeasure st.1 + st.2.length := by
  intro l
  induction l with
  | nil => exact fun st hwf hnd hl => le_refl _
  | cons e l ih =>
    intro st hwf hnd hl
    rw [List.foldl_cons]
    obtain ⟨he, te, hemp, hte⟩ := hl e (List.mem_cons_self e l)
    have hstep := fillEmpty_measure x st e hwf he te hemp hte
    obtain ⟨hgp1, hwf1, hff1, hfx1, suf1, hsuf1, hmv1⟩ :=
      fillEmpty_master x st e hwf he
    have hprops : ∀ e' ∈ l, isPositionFixed (fillEmpty x st e).1 x e' = false ∧
        ∃ te' : Tile, (fillEmpty x st e).1.getTile x e' = some te' ∧
          te'.isEmptyTile = true := by
      intro e' he'
      obtain ⟨hf', te', hm', ht'⟩ := hl e' (List.mem_cons_of_mem _ he')
      have hne : ¬ e' = e := by
        intro hh
        subst hh
        exact (List.nodup_cons.mp hnd).1 he'
      exact ⟨hff1 x e' hf', fillEmpty_keeps_empty x st e e' hwf hne te' hm' ht'⟩
    have htail := ih (fillEmpty x st e) hwf1 (List.nodup_cons.mp hnd).2 hprops
    omega

theorem processColumn_measure (st : GridManager × List Movement) (x : Int)
    (hwf : st.1.WellFormed) :
    gravityMeasure (processColumn st x).1 + (processColumn st x).2.length ≤
      gravityMeasure st.1 + st.2.length := by
  unfold processColumn
  exact fillEmpty_fold_measure x (emptyPositionsInColumn st.1 x) st hwf
    (emptyPositions_nodup st.1 x)
    (fun e he => ⟨(emptyPositions_not_fixed he).1, emptyPositions_empty he⟩)

theorem processColumn_fold_measure :
    ∀ (cols : List Int) (st : GridManager × List Movement), st.1.WellFormed →
      gravityMeasure (cols.foldl processColumn st).1 +
        (cols.foldl processColumn st).2.length ≤
        gravityMeasure st.1 + st.2.length := by
  intro cols
  induction cols with
  | nil => exact fun st hwf => le_refl _
  | cons x cols ih =>
    intro st hwf
    rw [List.foldl_cons]
    have h1 := processColumn_measure st x hwf
    have h2 := ih (processColumn st x) (processColumn_master st x hwf).2.1
    omega

theorem applyGravity_measure (g : GridManager) (hwf : g.WellFormed) :
    gravityMeasure (applyGravity g).1 + (applyGravity g).2.length ≤
      gravityMeasure g := by
  unfold applyGravity
  have h := processColumn_fold_measure ((List.range g.width).map Int.ofNat)
    (g, []) hwf
  simpa using h

theorem fillEmpty_fold_suffix (x : Int) :
    ∀ (l : List Int) (st : GridManager × List Movement),
      ∃ suf, (l.foldl (fillEmpty x) st).2 = st.2 ++ suf := by
  intro l
  induction l with
  | nil => exact fun st => ⟨[], (List.append_nil _).symm⟩
  | cons e l ih =>
    intro st
    rw [List.foldl_cons]
    obtain ⟨suf2, hsuf2⟩ := ih (fillEmpty x st e)
    rcases hs : findFallSource st.1 x (searchUpList e) with - | p
    · have hfe : fillEmpty x st e = st := by
        unfold fillEmpty
        rw [hs]
      rw [hfe] at hsuf2
      rw [hfe]
      exact ⟨suf2, hsuf2⟩
    · obtain ⟨sy, tile⟩ := p
      have hfe : (fillEmpty x st e).2 = st.2 ++ [⟨x, sy, x, e⟩] := by
        unfold fillEmpty
        rw [hs]
      rw [hfe] at hsuf2
      exact ⟨[⟨x, sy, x, e⟩] ++ suf2, by rw [hsuf2, List.append_assoc]⟩

theorem fillEmpty_fold_nil (x : Int) :
    ∀ (l : List Int) (st : GridManager × List Movement),
      (l.foldl (fillEmpty x) st).2 = st.2 → l.foldl (fillEmpty x) st = st := by
  intro l
  induction l with
  | nil => exact fun st h => rfl
  | cons e l ih =>
    intro st h
    rw [List.foldl_cons] at h ⊢
    rcases hs : findFallSource st.1 x (searchUpList e) with - | p
    · have hfe : fillEmpty x st e = st := by
        unfold fillEmpty
        rw [hs]
      rw [hfe] at h ⊢
      exact ih st h
    · obtain ⟨sy, tile⟩ := p
      exfalso
      have hfe : (fillEmpty x st e).2 = st.2 ++ [⟨x, sy, x, e⟩] := by
        unfold fillEmpty
        rw [hs]
      obtain ⟨suf, hsuf⟩ := fillEmpty_fold_suffix x l (fillEmpty x st e)
      rw [hsuf, hfe] at h
      have hlen := congrArg List.length h
      simp [List.length_append] at hlen

theorem processColumn_suffix (st : GridManager × List Movement) (x : Int) :
    ∃ suf, (processColumn st x).2 = st.2 ++ suf := by
  unfold processColumn
  exact fillEmpty_fold_suffix x _ st

theorem processColumn_nil (st : GridManager × List Movement) (x : Int)
    (h : (processColumn st x).2 = st.2) : processColumn st x = st := by
  unfold processColumn at h ⊢
  exact fillEmpty_fold_nil x _ st h

theorem processColumn_fold_suffix :
    ∀ (cols : List Int) (st : GridManager × List Movement),
      ∃ suf, (cols.foldl processColumn st).2 = st.2 ++ suf := by
  intro cols
  induction cols with
  | nil => exact fun st => ⟨[], (List.append_nil _).symm⟩
  | cons x cols ih =>
    intro st
    rw [List.foldl_cons]
    obtain ⟨suf2, hsuf2⟩ := ih (processColumn st x)
    obtain ⟨suf1, hsuf1⟩ := processColumn_suffix st x
    rw [hsuf1] at hsuf2
    exact ⟨suf1 ++ suf2, by rw [hsuf2, List.append_assoc]⟩

theorem processColumn_fold_nil :
    ∀ (cols : List Int) (st : GridManager × List Movement),
      (cols.foldl processColumn st).2 = st.2 →
      cols.foldl processColumn st = st := by
  intro cols
  induction cols with
  | nil => exact fun st h => rfl
  | cons x cols ih =>
    intro st h
    rw [List.foldl_cons] at h ⊢
    obtain ⟨suf1, hsuf1⟩ := processColumn_suffix st x
    obtain ⟨suf2, hsuf2⟩ := processColumn_fold_suffix cols (processColumn st x)
    have hkey : (st.2 ++ suf1) ++ suf2 = st.2 := by
      rw [← hsuf1, ← hsuf2]
      exact h
    have hlen := congrArg List.length hkey
    simp only [List.length_append] at hlen
    have h1 : suf1 = [] := List.length_eq_zero.mp (by omega)
    have hc : processColumn st x = st :=
      processColumn_nil st x (by rw [hsuf1, h1, List.append_nil])
    rw [hc] at h ⊢
    exact ih st h

theorem applyGravity_nil_eq (g : GridManager)
    (h : (applyGravity g).2 = []) : (applyGravity g).1 = g := by
  unfold applyGravity at h ⊢
  have hh := processColumn_fold_nil ((List.range g.width).map Int.ofNat)
    (g, []) h
  rw [hh]

theorem applyGravityFullyGo_fixedpoint :
    ∀ (n : Nat) (g : GridManager), g.WellFormed → gravityMeasure g < n →
      (applyGravity (applyGravityFullyGo n g).2).2 = [] := by
  intro n
  induction n with
  | zero => exact fun g hwf h => absurd h (by omega)
  | succ n ih =>
    intro g hwf h
    obtain ⟨hgp1, hwf1, -, -, -⟩ := applyGravity_master g hwf
    have hms := applyGravity_measure g hwf
    unfold applyGravityFullyGo
    rcases hag : applyGravity g with ⟨g', mv⟩
    rw [hag] at hgp1 hwf1 hms
    dsimp only at hgp1 hwf1 hms ⊢
    by_cases hemp : mv.isEmpty = true
    · rw [if_pos hemp]
      dsimp only
      have hnil : mv = [] := List.isEmpty_iff.mp hemp
      have hgeq : g' = g := by
        have h2 : (applyGravity g).2 = [] := by
          rw [hag]
          exact hnil
        have h3 := applyGravity_nil_eq g h2
        rw [hag] at h3
        exact h3
      rw [hgeq, show (applyGravity g).2 = mv from by rw [hag]]
      exact hnil
    · rw [if_neg hemp]
      rcases hgo : applyGravityFullyGo n g' with ⟨rest, g''⟩
      dsimp only
      have hne : mv ≠ [] := fun hh => hemp (by rw [hh]; rfl)
      have hlen := List.length_pos.mpr hne
      have h4 := ih g' hwf1 (by omega)
      rw [hgo] at h4
      exact h4

theorem applyGravityFullyGo_fuel :
    ∀ (n m : Nat) (g : GridManager), g.WellFormed →
      gravityMeasure g < n → gravityMeasure g < m →
      applyGravityFullyGo n g = applyGravityFullyGo m g := by
  intro n
  induction n with
  | zero => exact fun m g hwf h1 h2 => absurd h1 (by omega)
  | succ n ih =>
    intro m g hwf h1 h2
    rcases m with - | m
    · exact absurd h2 (by omega)
    · obtain ⟨hgp1, hwf1, -, -, -⟩ := applyGravity_master g hwf
      have hms := applyGravity_measure g hwf
      unfold applyGravityFullyGo
      rcases hag : applyGravity g with ⟨g', mv⟩
      rw [hag] at hgp1 hwf1 hms
      dsimp only at hgp1 hwf1 hms ⊢
      by_cases hemp : mv.isEmpty = true
      · rw [if_pos hemp, if_pos hemp]
      · rw [if_neg hemp, if_neg hemp]
        have hne : mv ≠ [] := fun hh => hemp (by rw [hh]; rfl)
        have hlen := List.length_pos.mpr hne
        have heq := ih m g' hwf1 (by omega) (by omega)
        rw [heq]

theorem gravityMeasure_lt_fuel (g : GridManager) :
    gravityMeasure g < gravityFuel g := by
  unfold gravityMeasure gravityFuel
  have hb : ∀ p ∈ Finset.range g.width ×ˢ Finset.range g.height,
      fallWeight g (p.1 : Int) (p.2 : Int) ≤ g.height := by
    intro p hp
    unfold fallWeight
    split
    · exact Nat.zero_le _
    · rcases hget : g.getTile (p.1 : Int) (p.2 : Int) with - | t
      · exact Nat.zero_le _
      · dsimp only
        split
        · omega
        · exact Nat.zero_le _
  have hs := Finset.sum_le_card_nsmul _ _ _ hb
  rw [Finset.card_product, Finset.card_range, Finset.card_range,
    smul_eq_mul] at hs
  exact Nat.lt_succ_of_le hs

end GravitySystem

/-- C10: `applyGravityFully` terminates with the pass budget never being the
exit condition — any budget exceeding the gravity measure yields the same
result — and at its return the grid is at the gravity fixed point: one
further `applyGravity` pass produces zero movements. -/
theorem C10_gravity_fixed_point (g : GridManager) (hwf : g.WellFormed) :
    (GravitySystem.applyGravity
      (GravitySystem.applyGravityFully g).2).2 = [] ∧
    ∀ n : Nat, GravitySystem.gravityMeasure g < n →
      GravitySystem.applyGravityFullyGo n g =
        GravitySystem.applyGravityFully g := by
  constructor
  · unfold GravitySystem.applyGravityFully
    exact GravitySystem.applyGravityFullyGo_fixedpoint
      (GravitySystem.gravityFuel g) g hwf (GravitySystem.gravityMeasure_lt_fuel g)
  · intro n hn
    unfold GravitySystem.applyGravityFully
    exact GravitySystem.applyGravityFullyGo_fuel n
      (GravitySystem.gravityFuel g) g hwf hn
      (GravitySystem.gravityMeasure_lt_fuel g)

/-- Grid of the C10 witness: a single column `R · B` with a gap. -/
def gridC10w : GridManager :=
  { width := 1, height := 3,
    cells := mkCells [[tRed], [tEmpty], [tBlue]],
    tileTypes := [.red, .blue, .green] }

theorem C10_gravity_fixed_point_witness :
    (GravitySystem.applyGravity
      (GravitySystem.applyGravityFully gridC10w).2).2 = [] :=
  (C10_gravity_fixed_point gridC10w (by constructor <;> decide)).1

namespace GridManager

theorem getTile_eq_cellAt {g : GridManager} {x y : Int} {t : Tile}
    (h : g.getTile x y = some t) : g.cellAt x y = some t := by
  unfold getTile at h
  by_cases hv : g.isValidPosition x y
  · rw [if_pos hv] at h
    exact h
  · rw [if_neg hv] at h
    exact Option.noConfusion h

theorem setCell_invalid (g : GridManager) (hwf : g.WellFormed) (x y : Int)
    (t : Option Tile) (hv : ¬ g.isValidPosition x y = true) :
    g.setCell x y t = g := by
  unfold setCell
  by_cases hxy : 0 ≤ x ∧ 0 ≤ y
  · rw [if_pos hxy]
    have hcells : g.cells.set y.toNat
        ((g.cells[y.toNat]?.getD []).set x.toNat t) = g.cells := by
      by_cases hy : y.toNat < g.cells.length
      · have hout : ¬(x < (g.width : Int) ∧ y < (g.height : Int)) := by
          intro ⟨h1, h2⟩
          apply hv
          unfold isValidPosition
          simp only [Bool.and_eq_true, decide_eq_true_eq]
          exact ⟨⟨⟨hxy.1, h1⟩, hxy.2⟩, h2⟩
        have hyh : y < (g.height : Int) := by
          rw [← hwf.1]
          omega
        have hxw : ¬ x < (g.width : Int) := fun hh => hout ⟨hh, hyh⟩
        have hrow : g.cells[y.toNat]? = some (g.cells.get ⟨y.toNat, hy⟩) :=
          List.getElem?_eq_getElem hy
        rw [hrow]
        simp only [Option.getD_some]
        have hrlen : (g.cells.get ⟨y.toNat, hy⟩).length = g.width :=
          hwf.2 _ (List.getElem_mem hy)
        have hset : (g.cells.get ⟨y.toNat, hy⟩).set x.toNat t =
            g.cells.get ⟨y.toNat, hy⟩ :=
          List.set_eq_of_length_le (by omega)
        rw [hset]
        apply List.ext_getElem?
        intro j
        rw [List.getElem?_set]
        by_cases hj : y.toNat = j
        · subst hj
          rw [if_pos rfl, if_pos hy, hrow]
        · rw [if_neg hj]
      · exact List.set_eq_of_length_le (by omega)
    rw [hcells]
  · rw [if_neg hxy]

theorem cellAt_setCell_cases (g : GridManager) (hwf : g.WellFormed)
    (x y a b : Int) (t : Option Tile) :
    (g.setCell x y t).cellAt a b = g.cellAt a b ∨
    (g.setCell x y t).cellAt a b = t := by
  by_cases hab : a = x ∧ b = y
  · obtain ⟨rfl, rfl⟩ := hab
    by_cases hv : g.isValidPosition a b = true
    · exact Or.inr (cellAt_setCell_valid g a b t hwf hv)
    · rw [setCell_invalid g hwf a b t hv]
      exact Or.inl rfl
  · exact Or.inl (cellAt_setCell_ne g x y a b t hab)

/-- All stored tiles of the grid are unmatchable (the state of the grid
before the row-major fill of `initialize`). -/
def AllUnmatchable (g : GridManager) : Prop :=
  ∀ (a b : Int) (t : Tile), g.cellAt a b = some t → t.isMatchable = false

theorem allUnmatchable_setCell {g : GridManager} (hwf : g.WellFormed)
    (hau : AllUnmatchable g) (x y : Int) (t : Option Tile)
    (ht : ∀ t0 : Tile, t = some t0 → t0.isMatchable = false) :
    AllUnmatchable (g.setCell x y t) := by
  intro a b t0 hget
  rcases cellAt_setCell_cases g hwf x y a b t with hc | hc
  · rw [hc] at hget
    exact hau a b t0 hget
  · rw [hc] at hget
    exact ht t0 hget

theorem blockerTile_type (b : BlockerSpec) : (blockerTile b).type = b.btype := by
  unfold blockerTile Tile.new Tile.addIce Tile.lock
  split <;> split <;> rfl

theorem blockerTile_unmatchable (b : BlockerSpec)
    (hb : b.btype = .stone ∨ b.btype = .ice ∨ b.btype = .locked) :
    (blockerTile b).isMatchable = false := by
  unfold Tile.isMatchable
  have ht := blockerTile_type b
  rcases hb with h | h | h <;> rw [ht, h] <;> rfl

theorem placeBlockers_props :
    ∀ (bs : List BlockerSpec) (g : GridManager),
      (∀ b ∈ bs, b.btype = .stone ∨ b.btype = .ice ∨ b.btype = .locked) →
      g.WellFormed → AllUnmatchable g →
      (placeBlockers g bs).width = g.width ∧
      (placeBlockers g bs).height = g.height ∧
      (placeBlockers g bs).WellFormed ∧ AllUnmatchable (placeBlockers g bs) := by
  intro bs
  induction bs with
  | nil => exact fun g hbs hwf hau => ⟨rfl, rfl, hwf, hau⟩
  | cons b bs ih =>
    intro g hbs hwf hau
    unfold placeBlockers
    obtain ⟨h1, h2, h3, h4⟩ := ih (g.setCell b.x b.y (some (blockerTile b)))
      (fun b' hb' => hbs b' (List.mem_cons_of_mem _ hb'))
      (hwf.setCell _ _ _)
      (allUnmatchable_setCell hwf hau b.x b.y _
        (fun t0 ht0 => by
          rw [← Option.some.inj ht0]
          exact blockerTile_unmatchable b (hbs b (List.mem_cons_self b bs))))
    exact ⟨h1.trans (setCell_width _ _ _ _), h2.trans (setCell_height _ _ _ _),
      h3, h4⟩

theorem cellAt_base (w h : Nat) (g : GridManager)
    (hcells : g.cells = List.replicate h (List.replicate w (none : Option Tile)))
    (a b : Int) : g.cellAt a b = none := by
  unfold cellAt
  by_cases hab : 0 ≤ a ∧ 0 ≤ b
  · rw [if_pos hab, hcells]
    rw [List.getElem?_replicate]
    by_cases hb : b.toNat < h
    · rw [if_pos hb]
      simp only [Option.some_bind]
      rw [List.getElem?_replicate]
      by_cases ha : a.toNat < w
      · rw [if_pos ha]
        rfl
      · rw [if_neg ha]
        rfl
    · rw [if_neg hb]
      rfl
  · rw [if_neg hab]

end GridManager

namespace MatchResolver

/-- No three consecutive cells of a row or of a column share a matchable
color: exactly the absence of length-≥3 runs the scanner detects. -/
def NoTriple (g : GridManager) : Prop :=
  ∀ (x y : Int) (tt : TileType),
    ¬(effectiveType g x y = some tt ∧ effectiveType g (x + 1) y = some tt ∧
      effectiveType g (x + 2) y = some tt) ∧
    ¬(effectiveType g x y = some tt ∧ effectiveType g x (y + 1) = some tt ∧
      effectiveType g x (y + 2) = some tt)

theorem noTriple_of_allUnmatchable (g : GridManager)
    (hau : GridManager.AllUnmatchable g) : NoTriple g := by
  have hnone : ∀ (a b : Int) (tt : TileType),
      effectiveType g a b = some tt → False := by
    intro a b tt h
    obtain ⟨t, hget, hm, -⟩ := effectiveType_eq_some h
    rw [hau a b t (GridManager.getTile_eq_cellAt hget)] at hm
    exact Bool.noConfusion hm
  intro x y tt
  exact ⟨fun hh => hnone x y tt hh.1, fun hh => hnone x y tt hh.1⟩

theorem noTriple_noMatches (g : GridManager) (hnt : NoTriple g) :
    findAllMatches g = [] := by
  rcases hcases : findAllMatches g with - | ⟨m, ms⟩
  · rfl
  exfalso
  have hm : m ∈ findAllMatches g := by
    rw [hcases]
    exact List.mem_cons_self m ms
  rcases findAllMatches_shape g m hm with ⟨y, -, hs⟩ | ⟨x, -, hs⟩
  · obtain ⟨hmin, -, -, s0, -, htiles, hcolor⟩ := hs
    have hcnt : 3 ≤ (s0 + m.length - s0).toNat := by
      unfold MIN_MATCH at hmin
      omega
    have hmem : ∀ k : Nat, k < (s0 + m.length - s0).toNat →
        effectiveType g (s0 + (k : Int)) y = some m.color := by
      intro k hk
      have hp : (⟨s0 + (k : Int), (y : Int)⟩ : Pos) ∈ m.tiles := by
        rw [htiles, mem_runTiles]
        exact ⟨k, hk, rfl⟩
      exact hcolor _ hp
    have h0 := hmem 0 (by omega)
    have h1 := hmem 1 (by omega)
    have h2 := hmem 2 (by omega)
    rw [show s0 + ((0 : Nat) : Int) = s0 from by norm_num] at h0
    rw [show s0 + ((1 : Nat) : Int) = s0 + 1 from by norm_num] at h1
    rw [show s0 + ((2 : Nat) : Int) = s0 + 2 from by norm_num] at h2
    exact (hnt s0 y m.color).1 ⟨h0, h1, h2⟩
  · obtain ⟨hmin, -, -, s0, -, htiles, hcolor⟩ := hs
    have hcnt : 3 ≤ (s0 + m.length - s0).toNat := by
      unfold MIN_MATCH at hmin
      omega
    have hmem : ∀ k : Nat, k < (s0 + m.length - s0).toNat →
        effectiveType g x (s0 + (k : Int)) = some m.color := by
      intro k hk
      have hp : (⟨(x : Int), s0 + (k : Int)⟩ : Pos) ∈ m.tiles := by
        rw [htiles, mem_runTiles]
        exact ⟨k, hk, rfl⟩
      exact hcolor _ hp
    have h0 := hmem 0 (by omega)
    have h1 := hmem 1 (by omega)
    have h2 := hmem 2 (by omega)
    rw [show s0 + ((0 : Nat) : Int) = s0 from by norm_num] at h0
    rw [show s0 + ((1 : Nat) : Int) = s0 + 1 from by norm_num] at h1
    rw [show s0 + ((2 : Nat) : Int) = s0 + 2 from by norm_num] at h2
    exact (hnt x s0 m.color).2 ⟨h0, h1, h2⟩

theorem effectiveType_setCell_ne (g : GridManager) (x y a b : Int)
    (t : Option Tile) (h : ¬(a = x ∧ b = y)) :
    effectiveType (g.setCell x y t) a b = effectiveType g a b := by
  unfold effectiveType
  rw [GridManager.getTile_setCell_ne g x y a b t h]

theorem effectiveType_setCell_self (g : GridManager) (x y : Int) (t : Tile)
    (hwf : g.WellFormed) (hv : g.isValidPosition x y = true) :
    effectiveType (g.setCell x y (some t)) x y =
      if t.isMatchable then some t.type else none := by
  unfold effectiveType
  rw [GridManager.getTile_setCell_valid g x y (some t) hwf hv]

end MatchResolver

namespace GridManager

theorem rank_decomp (w a b : Nat) (hb : b < w) :
    (w * a + b) % w = b ∧ (w * a + b) / w = a := by
  constructor
  · rw [Nat.mul_add_mod]
    exact Nat.mod_eq_of_lt hb
  · rw [Nat.mul_add_div (by omega)]
    rw [Nat.div_eq_of_lt hb]
    omega

theorem rowMajorPositions_eq (w : Nat) :
    ∀ h : Nat, rowMajorPositions w h =
      (List.range (h * w)).map
        (fun n => (⟨((n % w : Nat) : Int), ((n / w : Nat) : Int)⟩ : Pos)) := by
  intro h
  induction h with
  | zero =>
    rw [Nat.zero_mul]
    rfl
  | succ h ih =>
    unfold rowMajorPositions at ih ⊢
    rw [List.range_succ, List.flatMap_append, ih, Nat.succ_mul, List.range_add,
      List.map_append, List.map_map]
    congr 1
    rw [List.flatMap_cons, List.flatMap_nil, List.append_nil]
    apply List.map_congr_left
    intro a ha
    rw [List.mem_range] at ha
    dsimp only [Function.comp]
    have h1 : (h * w + a) % w = a := by
      rw [Nat.mul_comm]
      exact (rank_decomp w h a ha).1
    have h2 : (h * w + a) / w = h := by
      rw [Nat.mul_comm]
      exact (rank_decomp w h a ha).2
    rw [h1, h2]

theorem rmp_drop_head {w h i : Nat} {p : Pos} {rest : List Pos}
    (hd : (rowMajorPositions w h).drop i = p :: rest) :
    i < h * w ∧
    p = ⟨((i % w : Nat) : Int), ((i / w : Nat) : Int)⟩ ∧
    rest = (rowMajorPositions w h).drop (i + 1) := by
  have hlen2 : (rowMajorPositions w h).length = h * w := by
    rw [rowMajorPositions_eq, List.length_map, List.length_range]
  have hlen : i < (rowMajorPositions w h).length := by
    by_contra hcon
    rw [List.drop_eq_nil_of_le (by omega)] at hd
    exact List.noConfusion hd
  refine ⟨by omega, ?_, ?_⟩
  · have h1 : (rowMajorPositions w h)[i]? = some p := by
      rw [← List.head?_drop, hd]
      rfl
    have h2 : (rowMajorPositions w h)[i]? =
        some ⟨((i % w : Nat) : Int), ((i / w : Nat) : Int)⟩ := by
      rw [rowMajorPositions_eq, List.getElem?_map,
        List.getElem?_range (by omega)]
      rfl
    exact Option.some.inj (h1.symm.trans h2)
  · rw [← List.tail_drop, hd]
    rfl

theorem rmp_mem_of_index (w h i n : Nat) (hin : i ≤ n) (hn : n < h * w) :
    (⟨((n % w : Nat) : Int), ((n / w : Nat) : Int)⟩ : Pos) ∈
      (rowMajorPositions w h).drop i := by
  rw [rowMajorPositions_eq, ← List.map_drop]
  apply List.mem_map_of_mem
  have hget : ((List.range (h * w)).drop i)[n - i]? = some n := by
    rw [List.getElem?_drop, show i + (n - i) = n from by omega,
      List.getElem?_range hn]
  obtain ⟨hlt, heq⟩ := List.getElem?_eq_some.mp hget
  rw [← heq]
  exact List.getElem_mem hlt

theorem rmp_nodup (w h : Nat) : (rowMajorPositions w h).Nodup := by
  rw [rowMajorPositions_eq]
  refine List.Nodup.map_on ?_ (List.nodup_range _)
  intro n hn m hm heq
  have h1 : ((n % w : Nat) : Int) = ((m % w : Nat) : Int) := congrArg Pos.x heq
  have h2 : ((n / w : Nat) : Int) = ((m / w : Nat) : Int) := congrArg Pos.y heq
  have h1n : n % w = m % w := by exact_mod_cast h1
  have h2n : n / w = m / w := by exact_mod_cast h2
  have hdn := Nat.div_add_mod n w
  have hdm := Nat.div_add_mod m w
  rw [← hdn, ← hdm, h1n, h2n]

end GridManager

namespace GridManager

theorem rank_gt (w i : Nat) (hw0 : 0 < w) (a b : Nat) (ha : a < w)
    (hgt : i / w < b ∨ (i / w = b ∧ i % w < a)) :
    i < w * b + a ∧ (w * b + a) % w = a ∧ (w * b + a) / w = b := by
  have hdm := Nat.div_add_mod i w
  have hdec := rank_decomp w b a ha
  refine ⟨?_, hdec.1, hdec.2⟩
  rcases hgt with hgt | ⟨heq, hlt⟩
  · have h1 : w * (i / w + 1) ≤ w * b := Nat.mul_le_mul_left w (by omega)
    have h2 : w * (i / w + 1) = w * (i / w) + w := Nat.mul_succ w (i / w)
    have h3 : i % w < w := Nat.mod_lt _ hw0
    omega
  · subst heq
    omega

theorem fill_go (tts : List Color) (hN : tts.Nodup) (h3 : 3 ≤ tts.length)
    (rnd : Nat → Nat) (w h : Nat) :
    ∀ (n i : Nat) (g : GridManager) (k : Nat),
      ((rowMajorPositions w h).drop i).length = n →
      g.width = w → g.height = h → g.WellFormed →
      MatchResolver.NoTriple g →
      (∀ q ∈ (rowMajorPositions w h).drop i, ∀ t : Tile,
        g.cellAt q.x q.y = some t → t.isMatchable = false) →
      MatchResolver.NoTriple
        (((rowMajorPositions w h).drop i).foldl (fillStep tts rnd) (g, k)).1 := by
  intro n
  induction n with
  | zero =>
    intro i g k hlen hw hh hwf hnt hfut
    rw [List.length_eq_zero.mp hlen]
    exact hnt
  | succ n ih =>
    intro i g k hlen hw hh hwf hnt hfut
    rcases hd : (rowMajorPositions w h).drop i with - | ⟨p, rest⟩
    · rw [hd] at hlen
      exact absurd hlen (by simp)
    obtain ⟨hiw, hp, hrest⟩ := rmp_drop_head hd
    have hpx : p.x = ((i % w : Nat) : Int) := by rw [hp]
    have hpy : p.y = ((i / w : Nat) : Int) := by rw [hp]
    have hw0 : 0 < w := by
      rcases Nat.eq_zero_or_pos w with hz | hpos
      · subst hz
        rw [Nat.mul_zero] at hiw
        omega
      · exact hpos
    have hlenrest : ((rowMajorPositions w h).drop (i + 1)).length = n := by
      rw [hd] at hlen
      dsimp only [List.length_cons] at hlen
      rw [← hrest]
      omega
    have hpnr : p ∉ rest := by
      have hnd : (p :: rest).Nodup := by
        rw [← hd]
        exact List.Nodup.sublist (List.drop_sublist _ _) (rmp_nodup w h)
      exact (List.nodup_cons.mp hnd).1
    rw [List.foldl_cons]
    rcases hcell : g.cellAt p.x p.y with - | told
    · -- empty cell: the fill happens
      have hfill : fillStep tts rnd (g, k) p =
          (g.setCell p.x p.y
            (some (g.createNonMatchingTile p.x p.y tts (rnd k))), k + 1) := by
        unfold fillStep
        dsimp only
        rw [hcell]
      obtain ⟨c, hcmem, hceq⟩ := createNonMatchingTile_mem g p.x p.y tts (rnd k)
        (List.ne_nil_of_length_pos (by omega))
      have hvp : g.isValidPosition p.x p.y = true := by
        unfold isValidPosition
        simp only [Bool.and_eq_true, decide_eq_true_eq]
        have h1 : i % w < w := Nat.mod_lt _ hw0
        have h2 : i / w < h := by
          rw [Nat.div_lt_iff_lt_mul hw0]
          exact hiw
        rw [hpx, hpy, hw, hh]
        exact ⟨⟨⟨Int.natCast_nonneg _, by exact_mod_cast h1⟩,
          Int.natCast_nonneg _⟩, by exact_mod_cast h2⟩
      have hrank_unmatch : ∀ m : Nat, i ≤ m → m < h * w →
          ∀ t1 : Tile,
            g.cellAt ((m % w : Nat) : Int) ((m / w : Nat) : Int) = some t1 →
            t1.isMatchable = false := by
        intro m him hmw t1 hc1
        exact hfut _ (rmp_mem_of_index w h i m him hmw) t1 hc1
      have heffp : MatchResolver.effectiveType
          (g.setCell p.x p.y
            (some (g.createNonMatchingTile p.x p.y tts (rnd k)))) p.x p.y =
          some (.color c) := by
        rw [MatchResolver.effectiveType_setCell_self g p.x p.y _ hwf hvp, hceq]
        rfl
      have hnot : ∀ (a b : Int), ((b = p.y ∧ p.x < a) ∨ p.y < b) →
          ¬(a = p.x ∧ b = p.y) → ∀ tt : TileType,
          ¬ MatchResolver.effectiveType
            (g.setCell p.x p.y
              (some (g.createNonMatchingTile p.x p.y tts (rnd k)))) a b =
            some tt := by
        intro a b hdir hne tt hefe
        rw [MatchResolver.effectiveType_setCell_ne g _ _ _ _ _ hne] at hefe
        obtain ⟨t1, hg1, hm1, -⟩ := MatchResolver.effectiveType_eq_some hefe
        obtain ⟨ha0, haw, hb0, hbh⟩ := isValidPosition_elim (getTile_some_valid hg1)
        rw [hw] at haw
        rw [hh] at hbh
        have haN : a.toNat < w := by omega
        have hdisj : i / w < b.toNat ∨ (i / w = b.toNat ∧ i % w < a.toNat) := by
          rcases hdir with ⟨hb, hax⟩ | hby
          · right
            omega
          · left
            omega
        have hrg := rank_gt w i hw0 a.toNat b.toNat haN hdisj
        have hnw : w * b.toNat + a.toNat < h * w := by
          apply (Nat.div_lt_iff_lt_mul hw0).mp
          rw [hrg.2.2]
          omega
        have hun := hrank_unmatch (w * b.toNat + a.toNat) (by omega) hnw t1 (by
          rw [hrg.2.1, hrg.2.2, Int.toNat_of_nonneg ha0, Int.toNat_of_nonneg hb0]
          exact getTile_eq_cellAt hg1)
        rw [hun] at hm1
        exact Bool.noConfusion hm1
      rw [hfill, hrest]
      refine ih (i + 1) _ (k + 1) hlenrest
        ((setCell_width _ _ _ _).trans hw) ((setCell_height _ _ _ _).trans hh)
        (hwf.setCell _ _ _) ?_ ?_
      · -- NoTriple after the write
        intro x y tt
        constructor
        · rintro ⟨e0, e1, e2⟩
          by_cases hc0 : x = p.x ∧ y = p.y
          · exact hnot (x + 1) y (Or.inl ⟨hc0.2, by omega⟩)
              (fun hcon => by omega) tt e1
          · by_cases hc1 : x + 1 = p.x ∧ y = p.y
            · exact hnot (x + 2) y (Or.inl ⟨hc1.2, by omega⟩)
                (fun hcon => by omega) tt e2
            · by_cases hc2 : x + 2 = p.x ∧ y = p.y
              · obtain ⟨hcx, hcy⟩ := hc2
                rw [hcy, show x = p.x - 2 from by omega] at e0
                rw [hcy, show x + 1 = p.x - 1 from by omega] at e1
                rw [hcy, show x + 2 = p.x from hcx] at e2
                rw [MatchResolver.effectiveType_setCell_ne g _ _ _ _ _
                  (fun hcon => by omega)] at e0
                rw [MatchResolver.effectiveType_setCell_ne g _ _ _ _ _
                  (fun hcon => by omega)] at e1
                have htt : TileType.color c = tt :=
                  Option.some.inj (heffp.symm.trans e2)
                obtain ⟨l1, hl1g, hl1m, hl1t⟩ := MatchResolver.effectiveType_eq_some e1
                obtain ⟨l2, hl2g, hl2m, hl2t⟩ := MatchResolver.effectiveType_eq_some e0
                obtain ⟨hx20, -, -, -⟩ :=
                  isValidPosition_elim (getTile_some_valid hl2g)
                have hexcl := spawnCandidates_excl_left g p.x p.y tts c l1 l2
                  hN h3 (by omega) (getTile_eq_cellAt hl1g)
                  (getTile_eq_cellAt hl2g) (by rw [hl1t]; exact htt.symm)
                  (by rw [hl2t]; exact htt.symm) hl1m
                exact hexcl hcmem
              · rw [MatchResolver.effectiveType_setCell_ne g _ _ _ _ _ hc0] at e0
                rw [MatchResolver.effectiveType_setCell_ne g _ _ _ _ _ hc1] at e1
                rw [MatchResolver.effectiveType_setCell_ne g _ _ _ _ _ hc2] at e2
                exact (hnt x y tt).1 ⟨e0, e1, e2⟩
        · rintro ⟨e0, e1, e2⟩
          by_cases hc0 : x = p.x ∧ y = p.y
          · exact hnot x (y + 1) (Or.inr (by omega))
              (fun hcon => by omega) tt e1
          · by_cases hc1 : x = p.x ∧ y + 1 = p.y
            · exact hnot x (y + 2) (Or.inr (by omega))
                (fun hcon => by omega) tt e2
            · by_cases hc2 : x = p.x ∧ y + 2 = p.y
              · obtain ⟨hcx, hcy⟩ := hc2
                rw [hcx, show y = p.y - 2 from by omega] at e0
                rw [hcx, show y + 1 = p.y - 1 from by omega] at e1
                rw [hcx, show y + 2 = p.y from hcy] at e2
                rw [MatchResolver.effectiveType_setCell_ne g _ _ _ _ _
                  (fun hcon => by omega)] at e0
                rw [MatchResolver.effectiveType_setCell_ne g _ _ _ _ _
                  (fun hcon => by omega)] at e1
                have htt : TileType.color c = tt :=
                  Option.some.inj (heffp.symm.trans e2)
                obtain ⟨l1, hl1g, hl1m, hl1t⟩ := MatchResolver.effectiveType_eq_some e1
                obtain ⟨l2, hl2g, hl2m, hl2t⟩ := MatchResolver.effectiveType_eq_some e0
                obtain ⟨-, -, hy20, -⟩ :=
                  isValidPosition_elim (getTile_some_valid hl2g)
                have hexcl := spawnCandidates_excl_top g p.x p.y tts c l1 l2
                  hN h3 (by omega) (getTile_eq_cellAt hl1g)
                  (getTile_eq_cellAt hl2g) (by rw [hl1t]; exact htt.symm)
                  (by rw [hl2t]; exact htt.symm) hl1m
                exact hexcl hcmem
              · rw [MatchResolver.effectiveType_setCell_ne g _ _ _ _ _ hc0] at e0
                rw [MatchResolver.effectiveType_setCell_ne g _ _ _ _ _ hc1] at e1
                rw [MatchResolver.effectiveType_setCell_ne g _ _ _ _ _ hc2] at e2
                exact (hnt x y tt).2 ⟨e0, e1, e2⟩
      · -- cells after p stay unmatchable
        intro q hq t hqt
        have hqmem : q ∈ rest := hrest.symm ▸ hq
        have hqnp : ¬ q = p := fun hcon => hpnr (hcon ▸ hqmem)
        have hqco := MatchResolver.pos_ne_coords hqnp
        rw [cellAt_setCell_ne g _ _ _ _ _ hqco] at hqt
        exact hfut q (by rw [hd]; exact List.mem_cons_of_mem _ hqmem) t hqt
    · -- occupied cell: no fill
      have hfill : fillStep tts rnd (g, k) p = (g, k) := by
        unfold fillStep
        dsimp only
        rw [hcell]
      rw [hfill, hrest]
      refine ih (i + 1) g k hlenrest hw hh hwf hnt ?_
      intro q hq t hqt
      have hqmem : q ∈ rest := hrest.symm ▸ hq
      exact hfut q (by rw [hd]; exact List.mem_cons_of_mem _ hqmem) t hqt

end GridManager

namespace GridManager

/-- The all-`null` starting grid of `initialize`. -/
def baseGrid (w h : Nat) (cfg : LevelConfig) : GridManager :=
  { width := w, height := h,
    cells := List.replicate h (List.replicate w none),
    tileTypes := cfg.tileTypes, exitPosition := cfg.exitPosition,
    characterPosition := some cfg.characterStart }

/-- The grid state of `initialize` just before the row-major fill: blockers,
exit tile, and the character's empty cell placed on an all-`null` grid. -/
def preFillGrid (w h : Nat) (cfg : LevelConfig) : GridManager :=
  (((baseGrid w h cfg).placeBlockers cfg.blockers).setCell
      cfg.exitPosition.x cfg.exitPosition.y
      (some (Tile.new .exitMarker))).setCell cfg.characterStart.x
      cfg.characterStart.y (some (Tile.new .empty))

theorem initGrid_eq_fill (w h : Nat) (cfg : LevelConfig) (rnd : Nat → Nat) :
    initGrid w h cfg rnd =
      ((rowMajorPositions w h).foldl (fillStep cfg.tileTypes rnd)
        (preFillGrid w h cfg, 0)).1 := rfl

end GridManager

/-- C9 (amended): for every level configuration whose blockers are of the
stone/ice/locked kinds and whose palette is duplicate-free with at least 3
colors, and for every outcome of the random color choices, immediately after
grid initialization a scan finds zero horizontal or vertical runs of length
≥ 3 of the same matchable color. (With repeated palette entries the per-cell
exclusion removes only one occurrence, and a spawn-time match can occur even
without the palette-exhaustion fallback — see the counterexample.) -/
theorem C9_init_no_matches (w h : Nat) (cfg : LevelConfig) (rnd : Nat → Nat)
    (hN : cfg.tileTypes.Nodup) (h3 : 3 ≤ cfg.tileTypes.length)
    (hblock : ∀ b ∈ cfg.blockers,
      b.btype = .stone ∨ b.btype = .ice ∨ b.btype = .locked) :
    MatchResolver.findAllMatches (GridManager.initGrid w h cfg rnd) = [] := by
  apply MatchResolver.noTriple_noMatches
  rw [GridManager.initGrid_eq_fill]
  have hwf0 : (GridManager.baseGrid w h cfg).WellFormed := by
    unfold GridManager.baseGrid
    constructor
    · exact List.length_replicate _ _
    · intro row hrow
      rw [List.eq_of_mem_replicate hrow]
      exact List.length_replicate _ _
  have hau0 : GridManager.AllUnmatchable (GridManager.baseGrid w h cfg) := by
    intro a b t hget
    rw [GridManager.cellAt_base w h _ rfl a b] at hget
    exact Option.noConfusion hget
  obtain ⟨hbw, hbh, hbwf, hbau⟩ :=
    GridManager.placeBlockers_props cfg.blockers _ hblock hwf0 hau0
  have hw3 : (GridManager.preFillGrid w h cfg).width = w := by
    unfold GridManager.preFillGrid
    rw [GridManager.setCell_width, GridManager.setCell_width, hbw]
    rfl
  have hh3 : (GridManager.preFillGrid w h cfg).height = h := by
    unfold GridManager.preFillGrid
    rw [GridManager.setCell_height, GridManager.setCell_height, hbh]
    rfl
  have hwf3 : (GridManager.preFillGrid w h cfg).WellFormed := by
    unfold GridManager.preFillGrid
    exact (hbwf.setCell _ _ _).setCell _ _ _
  have hau3 : GridManager.AllUnmatchable (GridManager.preFillGrid w h cfg) := by
    unfold GridManager.preFillGrid
    exact GridManager.allUnmatchable_setCell (hbwf.setCell _ _ _)
      (GridManager.allUnmatchable_setCell hbwf hbau _ _ _
        (fun t0 ht0 => by rw [← Option.some.inj ht0]; rfl))
      _ _ _ (fun t0 ht0 => by rw [← Option.some.inj ht0]; rfl)
  have hfg := GridManager.fill_go cfg.tileTypes hN h3 rnd w h
    (((GridManager.rowMajorPositions w h).drop 0).length) 0
    (GridManager.preFillGrid w h cfg) 0 rfl hw3 hh3 hwf3
    (MatchResolver.noTriple_of_allUnmatchable _ hau3)
    (fun q _ t hqt => hau3 q.x q.y t hqt)
  rw [List.drop_zero] at hfg
  exact hfg

/-- Level configuration of the C9 witness: duplicate-free 3-color palette,
one stone blocker. -/
def cfgC9w : LevelConfig :=
  { gridWidth := 3, gridHeight := 3, maxMoves := 10,
    characterStart := ⟨0, 0⟩, exitPosition := ⟨2, 2⟩,
    blockers := [{ btype := .stone, x := 1, y := 1 }],
    tileTypes := [.red, .blue, .green] }

theorem C9_init_no_matches_witness :
    cfgC9w.tileTypes.Nodup ∧ 3 ≤ cfgC9w.tileTypes.length ∧
    MatchResolver.findAllMatches
      (GridManager.initGrid 3 3 cfgC9w (fun _ => 0)) = [] :=
  ⟨by decide, by decide, C9_init_no_matches 3 3 cfgC9w (fun _ => 0)
    (by decide) (by decide) (by decide)⟩
